import Mathlib

/-!
# POSSYSTEM: catalog costing and checkout settlement

A shallow embedding of the costing and checkout code of the point-of-sale
application (`src/App.js`, `src/components/POSView.js`,
`src/components/ReportsView.js`).

Modelling conventions.

* JavaScript numbers are modelled as exact rationals (`ℚ`): sums and products
  are exact, and `NaN`/infinities are not represented. The loops whose result
  depends on the rounding of doubles (the decrement plan, the recipe cost) are
  given a second time with the arithmetic of doubles (`F64.add`, `F64.mul`),
  under the names `App.buildPlan64`, `App.recipeCost64`.
* A property that may be `undefined` is an `Option`; the guards of the source
  that test such a property (`fullProduct.items`, `recipesData`, ...) are kept.
* A JavaScript `Map` is its list of entries in insertion order (`JSMap`).
* The remote store is not modelled: a function that talks to it returns the
  list of calls it issues, and takes the replies it reads as arguments.
-/

/-! ## JavaScript helpers -/

/-- The expression `x || d` for a number `x` that may be `undefined`: the
falsy values are `undefined` and `0`. -/
def jsOr (x : Option ℚ) (d : ℚ) : ℚ :=
  match x with
  | some v => if v = 0 then d else v
  | none => d

/-- The expression `x ?? d`: only `undefined`/`null` is replaced. -/
def jsNullish (x : Option ℚ) (d : ℚ) : ℚ :=
  match x with
  | some v => v
  | none => d

/-- A JavaScript `Map`: its entries, in insertion order. -/
abbrev JSMap (κ ν : Type) := List (κ × ν)

/-- The method `map.get(k)`. -/
def JSMap.get {κ ν : Type} [DecidableEq κ] : JSMap κ ν → κ → Option ν
  | [], _ => none
  | (k', v) :: m, k => if k' = k then some v else JSMap.get m k

/-- The method `map.set(k, v)`: an existing key keeps its position and takes
the new value, a new key is appended. -/
def JSMap.set {κ ν : Type} [DecidableEq κ] : JSMap κ ν → κ → ν → JSMap κ ν
  | [], k, v => [(k, v)]
  | (k', v') :: m, k, v => if k' = k then (k', v) :: m else (k', v') :: JSMap.set m k v

/-- The keys of a map, in insertion order. -/
def JSMap.keys {κ ν : Type} (m : JSMap κ ν) : List κ := m.map Prod.fst

/-! ## Data model -/

/-- A row of the `recipes` table. -/
structure RecipeItem where
  product_id : Nat
  ingredient_id : Nat
  quantity : ℚ
deriving DecidableEq

/-- A row of the `bundle_items` table. -/
structure BundleItemRow where
  bundle_product_id : Nat
  item_product_id : Nat
  quantity : ℚ
deriving DecidableEq

/-- An element of `formattedIngredients` (`fetchData`). -/
structure Ingredient where
  id : Nat
  cost_per_unit : ℚ
  stock_quantity : ℚ
deriving DecidableEq

/-- An element of `productsWithPrice` (`fetchData`): a row of the `products`
table. `production_cost` is the column of that row, when the row has one. -/
structure ProductRow where
  id : Nat
  is_bundle : Bool
  price : ℚ
  stock : ℚ
  production_cost : Option ℚ
deriving DecidableEq

/-- An element of `finalProduct.items`: the object
`{ ...productDetails, quantityInBundle: bundleItem.quantity }`, where
`productDetails` is `undefined` when the component is not in
`productsWithPrice`. -/
structure BundleSubItem where
  productDetails : Option ProductRow
  quantityInBundle : ℚ
deriving DecidableEq

/-- The property `sub.id` of a bundle sub-item. -/
def BundleSubItem.id (sub : BundleSubItem) : Option Nat :=
  sub.productDetails.map ProductRow.id

/-- The property `sub.production_cost` of a bundle sub-item. -/
def BundleSubItem.production_cost (sub : BundleSubItem) : Option ℚ :=
  sub.productDetails.bind ProductRow.production_cost

/-- An element of `enrichedProducts`, the `products` state of `App`. -/
structure Product where
  id : Nat
  is_bundle : Bool
  price : ℚ
  stock : ℚ
  production_cost : Option ℚ
  items : Option (List BundleSubItem)
  recipeItems : Option (List RecipeItem)
deriving DecidableEq

/-- A cart line `{ ...productToAdd, quantity }`. -/
structure CartItem where
  product : Product
  quantity : ℚ
deriving DecidableEq

/-- The property `cartItem.id`. -/
def CartItem.id (cartItem : CartItem) : Nat := cartItem.product.id

/-- The property `cartItem.price`. -/
def CartItem.price (cartItem : CartItem) : ℚ := cartItem.product.price

/-! ## `fetchData`: enrichment of the product list (App.js, lines 84-111) -/

/-- The `reduce` of lines 102-105: the cost of a list of recipe rows, a row
whose ingredient is not found leaving the total unchanged. -/
def App.recipeCost (formattedIngredients : List Ingredient)
    (productRecipeItems : List RecipeItem) : ℚ :=
  productRecipeItems.foldl
    (fun totalCost recipeItem =>
      match formattedIngredients.find? (fun ing => ing.id = recipeItem.ingredient_id) with
      | some ingredient => totalCost + ingredient.cost_per_unit * recipeItem.quantity
      | none => totalCost)
    0

/-- The copy `{ ...product }` of line 92: no `items`, no `recipeItems` yet. -/
def App.copyProduct (product : ProductRow) : Product :=
  { id := product.id, is_bundle := product.is_bundle, price := product.price
    stock := product.stock, production_cost := product.production_cost
    items := none, recipeItems := none }

/-- Lines 93-98: a bundle receives its `items` when `bundleItemsData` is
there (`none` when the query failed). -/
def App.attachItems (productsWithPrice : List ProductRow)
    (bundleItemsData : Option (List BundleItemRow)) (product : ProductRow)
    (finalProduct : Product) : Product :=
  match product.is_bundle, bundleItemsData with
  | true, some rows =>
      { finalProduct with
        items := some ((rows.filter (fun item => item.bundle_product_id = product.id)).map
          (fun bundleItem =>
            { productDetails :=
                productsWithPrice.find? (fun p => p.id = bundleItem.item_product_id)
              quantityInBundle := bundleItem.quantity })) }
  | _, _ => finalProduct

/-- Lines 99-107: a non-bundle receives its `recipeItems` and its computed
`production_cost` when `recipesData` is there (`none` when the query failed). -/
def App.attachRecipe (recipesData : Option (List RecipeItem))
    (formattedIngredients : List Ingredient) (product : ProductRow)
    (finalProduct : Product) : Product :=
  match product.is_bundle, recipesData with
  | false, some rows =>
      { finalProduct with
        recipeItems := some (rows.filter (fun r => r.product_id = product.id))
        production_cost :=
          some (App.recipeCost formattedIngredients
            (rows.filter (fun r => r.product_id = product.id))) }
  | _, _ => finalProduct

/-- The callback of `productsWithPrice.map` at lines 91-109. -/
def App.enrichProduct (productsWithPrice : List ProductRow)
    (bundleItemsData : Option (List BundleItemRow)) (recipesData : Option (List RecipeItem))
    (formattedIngredients : List Ingredient) (product : ProductRow) : Product :=
  App.attachRecipe recipesData formattedIngredients product
    (App.attachItems productsWithPrice bundleItemsData product (App.copyProduct product))

/-- The list `enrichedProducts` of `fetchData`. -/
def App.enrichedProducts (productsWithPrice : List ProductRow)
    (bundleItemsData : Option (List BundleItemRow)) (recipesData : Option (List RecipeItem))
    (formattedIngredients : List Ingredient) : List Product :=
  productsWithPrice.map
    (App.enrichProduct productsWithPrice bundleItemsData recipesData formattedIngredients)

/-! ## `handleCheckout`: the decrement plan (App.js, lines 250-266) -/

/-- The two maps built by `handleCheckout`. A key of the product map is the
`id` of a bundle sub-item, which is `undefined` (`none`) for a component that
was not found at load time. -/
structure Plan where
  productStockDecrements : JSMap (Option Nat) ℚ
  ingredientStockDecrements : JSMap Nat ℚ
deriving DecidableEq

/-- The statement `map.set(k, (map.get(k) || 0) + q)`. -/
def JSMap.accumulate {κ : Type} [DecidableEq κ] (m : JSMap κ ℚ) (k : κ) (q : ℚ) : JSMap κ ℚ :=
  JSMap.set m k (jsOr (JSMap.get m k) 0 + q)

/-- The inner loop of lines 256-258 over the items of a bundle. -/
def App.addBundleItems (m : JSMap (Option Nat) ℚ) (items : List BundleSubItem)
    (quantity : ℚ) : JSMap (Option Nat) ℚ :=
  items.foldl
    (fun acc bundleSubItem =>
      JSMap.accumulate acc bundleSubItem.id (bundleSubItem.quantityInBundle * quantity))
    m

/-- The inner loop of lines 260-262 over the rows of a recipe. -/
def App.addRecipeItems (m : JSMap Nat ℚ) (recipeItems : List RecipeItem)
    (quantity : ℚ) : JSMap Nat ℚ :=
  recipeItems.foldl
    (fun acc recipeItem =>
      JSMap.accumulate acc recipeItem.ingredient_id (recipeItem.quantity * quantity))
    m

/-- The body of the loop of lines 252-266 for one cart line. -/
def App.planStep (products : List Product) (plan : Plan) (cartItem : CartItem) : Plan :=
  match products.find? (fun p => p.id = cartItem.id) with
  | none => plan
  | some fullProduct =>
    match fullProduct.is_bundle, fullProduct.items, fullProduct.recipeItems with
    | true, some items, _ =>
        { plan with
          productStockDecrements :=
            App.addBundleItems plan.productStockDecrements items cartItem.quantity }
    | _, _, some (r :: rs) =>
        { plan with
          ingredientStockDecrements :=
            App.addRecipeItems plan.ingredientStockDecrements (r :: rs) cartItem.quantity }
    | _, _, _ =>
        { plan with
          productStockDecrements :=
            JSMap.accumulate plan.productStockDecrements (some fullProduct.id)
              cartItem.quantity }

/-- The plan built by lines 250-266 of `handleCheckout`. -/
def App.buildPlan (cart : List CartItem) (products : List Product) : Plan :=
  cart.foldl (App.planStep products) { productStockDecrements := [], ingredientStockDecrements := [] }

/-! ## `handleCheckout`: the whole handler (App.js, lines 237-278) -/

/-- A row inserted into `transaction_items` (line 247). -/
structure TransactionItem where
  transaction_id : Nat
  product_id : Nat
  quantity : ℚ
  price_at_sale : ℚ
deriving DecidableEq

/-- A request sent to the store by `handleCheckout`, or its final
`fetchData()`. -/
inductive Call where
  | insertTransaction (total_amount : ℚ) (payment_method : String)
  | insertTransactionItems (rows : List TransactionItem)
  | decrement_stock (product_id_to_update : Option Nat) (quantity_to_decrement : ℚ)
  | decrement_ingredient_stock (ingredient_id_to_update : Nat) (quantity_to_decrement : ℚ)
  | fetchData
deriving DecidableEq

/-- The toasts of `handleCheckout`: `toast.error('Checkout failed!')` and
`toast.success('Checkout successful!')`. -/
inductive Toast where
  | checkoutFailed
  | checkoutSuccessful
deriving DecidableEq

/-- The replies of the store that `handleCheckout` awaits. `transaction` is
`transactionData.id`, `none` when the insert reports `transactionError`;
`itemsError` tells whether the insert of the items reports an error;
`rpcError` tells, for each decrement call, whether its reply carries an error
(insufficient stock). -/
structure StoreReplies where
  transaction : Option Nat
  itemsError : Bool
  rpcError : Call → Bool

/-- What a run of `handleCheckout` leaves behind: the calls it issued, in
order, the `cart` state, and the toast shown, if any. -/
structure Outcome where
  calls : List Call
  cart : List CartItem
  toast : Option Toast
deriving DecidableEq

/-- The `promises` of lines 267-273: one call per entry of each map. -/
def App.decrementCalls (plan : Plan) : List Call :=
  plan.productStockDecrements.map (fun e => Call.decrement_stock e.1 e.2) ++
    plan.ingredientStockDecrements.map (fun e => Call.decrement_ingredient_stock e.1 e.2)

/-- The `subtotal` of line 239. -/
def App.subtotal (cart : List CartItem) : ℚ :=
  cart.foldl (fun total item => total + item.price * item.quantity) 0

/-- The `transactionItems` of line 247. -/
def App.transactionItems (transaction_id : Nat) (cart : List CartItem) : List TransactionItem :=
  cart.map (fun item =>
    { transaction_id := transaction_id, product_id := item.id, quantity := item.quantity
      price_at_sale := item.price })

/-- The handler `handleCheckout` (lines 237-278). The replies of the decrement
calls are awaited (`await Promise.all(promises)`) and not read. -/
def App.handleCheckout (cart : List CartItem) (products : List Product)
    (paymentMethod : String) (store : StoreReplies) : Outcome :=
  if cart.length = 0 then { calls := [], cart := cart, toast := none }
  else
    let totalAmount := App.subtotal cart
    match store.transaction with
    | none =>
        { calls := [Call.insertTransaction totalAmount paymentMethod]
          cart := cart, toast := some Toast.checkoutFailed }
    | some transaction_id =>
        if store.itemsError then
          { calls := [Call.insertTransaction totalAmount paymentMethod,
              Call.insertTransactionItems (App.transactionItems transaction_id cart)]
            cart := cart, toast := some Toast.checkoutFailed }
        else
          { calls := [Call.insertTransaction totalAmount paymentMethod,
              Call.insertTransactionItems (App.transactionItems transaction_id cart)] ++
              App.decrementCalls (App.buildPlan cart products) ++ [Call.fetchData]
            cart := [], toast := some Toast.checkoutSuccessful }

/-! ## `POSView`: unit cost at the point of sale (POSView.js, lines 20-61) -/

/-- The `ingredientsMap` of lines 20-24. -/
def POSView.ingredientsMap (ingredients : List Ingredient) : JSMap Nat Ingredient :=
  ingredients.foldl (fun map ing => JSMap.set map ing.id ing) []

/-- The function `getUnitCost` of lines 49-61. The last line,
`fromRecipe || item.production_cost || 0`, takes `fromRecipe` unless it is `0`. -/
def POSView.getUnitCost (ingredients : List Ingredient) (item : Product) : ℚ :=
  if item.is_bundle then
    (item.items.getD []).foldl
      (fun sum sub => sum + jsOr sub.production_cost 0 * jsOr (some sub.quantityInBundle) 1)
      0
  else
    let fromRecipe := (item.recipeItems.getD []).foldl
      (fun sum r =>
        sum + jsOr ((JSMap.get (POSView.ingredientsMap ingredients) r.ingredient_id).map
          Ingredient.cost_per_unit) 0 * jsOr (some r.quantity) 0)
      0
    if fromRecipe = 0 then jsOr item.production_cost 0 else fromRecipe

/-! ## `ReportsView`: unit cost in the reports (ReportsView.js, lines 34-51) -/

/-- The index `byId` of lines 34-38. -/
def ReportsView.byId (allProducts : List Product) : JSMap Nat Product :=
  allProducts.foldl (fun map p => JSMap.set map p.id p) []

/-- The `child` of line 44, `byId.get(bi.id) || byId.get(bi.item_product_id)`:
a bundle sub-item has no property `item_product_id`, so the second lookup
finds nothing, as does the first one when `bi.id` is `undefined`. -/
def ReportsView.child (allProducts : List Product) (bi : BundleSubItem) : Option Product :=
  match bi.id with
  | some id => JSMap.get (ReportsView.byId allProducts) id
  | none => none

/-- The factor `child?.production_cost ?? 0` of line 46. -/
def ReportsView.childCost (allProducts : List Product) (bi : BundleSubItem) : ℚ :=
  jsNullish ((ReportsView.child allProducts bi).bind Product.production_cost) 0

/-- The function `getUnitCost` of lines 40-51. The `qty` of line 45,
`bi.quantityInBundle ?? bi.quantity ?? 1`, is `bi.quantityInBundle`, which a
sub-item always has. -/
def ReportsView.getUnitCost (allProducts : List Product) (product : Option Product) : ℚ :=
  match product with
  | none => 0
  | some product =>
    match product.is_bundle, product.items with
    | true, some items =>
        items.foldl
          (fun sum bi => sum + ReportsView.childCost allProducts bi * bi.quantityInBundle)
          0
    | _, _ => jsNullish product.production_cost 0

/-! ## The claims, in their own words -/

/-- What claim C1 says one cart line adds to the product-stock entry of `P`:
for a bundle line, `quantityInBundle x quantity` for each of its items with
id `P`; for a non-bundle line with id `P` and an empty recipe, `quantity`;
nothing for a line whose product is not found. -/
def claimedProductContribution (products : List Product) (P : Option Nat)
    (line : CartItem) : ℚ :=
  match products.find? (fun p => p.id = line.id) with
  | none => 0
  | some p =>
    if p.is_bundle then
      (((p.items.getD []).filter (fun sub => sub.id = P)).map
        (fun sub => sub.quantityInBundle * line.quantity)).sum
    else if (p.recipeItems.getD []).isEmpty ∧ some p.id = P then line.quantity
    else 0

/-- Claim C1 as amended: a bundle line counts through its items only when it
carries an `items` list; any other line whose recipe is empty or absent counts
`quantity` on its own id (so does a bundle whose items were not loaded). -/
def productContribution (products : List Product) (P : Option Nat) (line : CartItem) : ℚ :=
  match products.find? (fun p => p.id = line.id) with
  | none => 0
  | some p =>
    match p.is_bundle, p.items with
    | true, some items =>
        ((items.filter (fun sub => sub.id = P)).map
          (fun sub => sub.quantityInBundle * line.quantity)).sum
    | _, _ =>
        if (p.recipeItems.getD []).isEmpty ∧ some p.id = P then line.quantity else 0

/-- What claim C2 says one cart line adds to the ingredient-stock entry of
`I`: for a line whose product is a non-bundle with a non-empty recipe,
`recipe quantity x quantity` for each recipe row of ingredient `I`. -/
def ingredientContribution (products : List Product) (I : Nat) (line : CartItem) : ℚ :=
  match products.find? (fun p => p.id = line.id) with
  | none => 0
  | some p =>
    if p.is_bundle = false ∧ (p.recipeItems.getD []).isEmpty = false then
      (((p.recipeItems.getD []).filter (fun r => r.ingredient_id = I)).map
        (fun r => r.quantity * line.quantity)).sum
    else 0

/-- The shape of the `products` state that `fetchData` produces: only a
non-bundle carries `recipeItems`. -/
def RecipesOnSimpleItems (products : List Product) : Prop :=
  ∀ p ∈ products, p.is_bundle = true → p.recipeItems = none

/-! ## Scenarios -/

/-- Scenario C: the rows of Burger (1), Fries (2) and ComboMeal (3). -/
def scenarioC.productsWithPrice : List ProductRow :=
  [ { id := 1, is_bundle := false, price := 8, stock := 10, production_cost := none },
    { id := 2, is_bundle := false, price := 3, stock := 10, production_cost := none },
    { id := 3, is_bundle := true, price := 12, stock := 0, production_cost := none } ]

/-- Scenario C: ComboMeal is 1 x Burger and 2 x Fries. -/
def scenarioC.bundleItemsData : List BundleItemRow :=
  [ { bundle_product_id := 3, item_product_id := 1, quantity := 1 },
    { bundle_product_id := 3, item_product_id := 2, quantity := 2 } ]

/-- Scenario C: the catalog, no product having a recipe. -/
def scenarioC.products : List Product :=
  App.enrichedProducts scenarioC.productsWithPrice (some scenarioC.bundleItemsData) (some []) []

/-- Scenario C: the cart `[2 x ComboMeal]`. -/
def scenarioC.cart : List CartItem :=
  [ { product := App.enrichProduct scenarioC.productsWithPrice (some scenarioC.bundleItemsData)
        (some []) []
        { id := 3, is_bundle := true, price := 12, stock := 0, production_cost := none }
      quantity := 2 } ]

/-- A load in which the query on `bundle_items` failed: the bundle 1 has no
`items`. -/
def unloadedBundle.products : List Product :=
  App.enrichedProducts
    [ { id := 1, is_bundle := true, price := 12, stock := 0, production_cost := none } ]
    none (some []) []

/-- The cart `[2 x bundle 1]` over `unloadedBundle.products`. -/
def unloadedBundle.cart : List CartItem :=
  unloadedBundle.products.map (fun p => { product := p, quantity := 2 })

/-- Scenario A: the ingredient Flour (1), 2.00 per unit, 100 in stock. -/
def scenarioA.formattedIngredients : List Ingredient :=
  [ { id := 1, cost_per_unit := 2, stock_quantity := 100 } ]

/-- Scenario A: the row of Bread (1), priced 5.00. -/
def scenarioA.bread : ProductRow :=
  { id := 1, is_bundle := false, price := 5, stock := 0, production_cost := none }

/-- Scenario A: the recipe of Bread is 0.5 Flour. -/
def scenarioA.recipesData : List RecipeItem :=
  [ { product_id := 1, ingredient_id := 1, quantity := 1 / 2 } ]

/-- Scenario A: the catalog. -/
def scenarioA.products : List Product :=
  App.enrichedProducts [scenarioA.bread] (some []) (some scenarioA.recipesData)
    scenarioA.formattedIngredients

/-- Scenario A: the cart `[3 x Bread]`. -/
def scenarioA.cart : List CartItem :=
  scenarioA.products.map (fun p => { product := p, quantity := 3 })

/-- Scenario B: the ingredients Beef (1), 3.00 per unit, and Potato (2), 1.00
per unit. -/
def scenarioB.formattedIngredients : List Ingredient :=
  [ { id := 1, cost_per_unit := 3, stock_quantity := 50 },
    { id := 2, cost_per_unit := 1, stock_quantity := 50 } ]

/-- Scenario B: the rows of Burger (1), Fries (2) and ComboMeal (3); the
`products` rows carry no `production_cost`. -/
def scenarioB.productsWithPrice : List ProductRow :=
  [ { id := 1, is_bundle := false, price := 8, stock := 10, production_cost := none },
    { id := 2, is_bundle := false, price := 3, stock := 10, production_cost := none },
    { id := 3, is_bundle := true, price := 12, stock := 0, production_cost := none } ]

/-- Scenario B: Burger is made of 1 Beef (cost 3.00), Fries of 1 Potato
(cost 1.00). -/
def scenarioB.recipesData : List RecipeItem :=
  [ { product_id := 1, ingredient_id := 1, quantity := 1 },
    { product_id := 2, ingredient_id := 2, quantity := 1 } ]

/-- Scenario B: ComboMeal is 1 x Burger and 2 x Fries. -/
def scenarioB.bundleItemsData : List BundleItemRow :=
  [ { bundle_product_id := 3, item_product_id := 1, quantity := 1 },
    { bundle_product_id := 3, item_product_id := 2, quantity := 2 } ]

/-- Scenario B: the catalog built by `fetchData`. -/
def scenarioB.products : List Product :=
  App.enrichedProducts scenarioB.productsWithPrice (some scenarioB.bundleItemsData)
    (some scenarioB.recipesData) scenarioB.formattedIngredients

/-! ## Checkout scenarios -/

/-- The payment method of the checkout scenarios. -/
def cash : String := "cash"

/-- Replies of a store in which both inserts succeed (transaction 7) and every
decrement call succeeds. -/
def acceptingStore : StoreReplies :=
  { transaction := some 7, itemsError := false, rpcError := fun _ => false }

/-- Replies of a store in which both inserts succeed (transaction 7) and every
decrement call reports an error (insufficient stock). -/
def refusingStore : StoreReplies :=
  { transaction := some 7, itemsError := false, rpcError := fun _ => true }

/-- A cart over the catalog of scenario C whose first line is a product (9)
that is not in the product list, followed by `2 x Burger`. -/
def unknownLine.cart : List CartItem :=
  [ { product := { id := 9, is_bundle := false, price := 5, stock := 1, production_cost := none
                   items := none, recipeItems := none }
      quantity := 1 },
    { product := { id := 1, is_bundle := false, price := 8, stock := 10
                   production_cost := some 0, items := none, recipeItems := some [] }
      quantity := 2 } ]

/-- The lines of a cart whose product is found in the product list. -/
def knownLines (cart : List CartItem) (products : List Product) : List CartItem :=
  cart.filter (fun line => (products.find? (fun p => p.id = line.id)).isSome)

/-! ## Loads with dangling references and nested bundles -/

/-- A load with dangling rows: the recipe of Bread (1) has a row for the
ingredient 99, which is not in the ingredient list, and the bundle Box (2) has
a row for the product 77, which is not in the product list. -/
def dangling.productsWithPrice : List ProductRow :=
  [ { id := 1, is_bundle := false, price := 5, stock := 4, production_cost := none },
    { id := 2, is_bundle := true, price := 9, stock := 0, production_cost := none } ]

/-- The recipe rows of the dangling load: 0.5 Flour (1) and 3 of the absent
ingredient 99. -/
def dangling.recipesData : List RecipeItem :=
  [ { product_id := 1, ingredient_id := 1, quantity := 1 / 2 },
    { product_id := 1, ingredient_id := 99, quantity := 3 } ]

/-- The bundle rows of the dangling load: 1 x Bread and 2 x the absent
product 77. -/
def dangling.bundleItemsData : List BundleItemRow :=
  [ { bundle_product_id := 2, item_product_id := 1, quantity := 1 },
    { bundle_product_id := 2, item_product_id := 77, quantity := 2 } ]

/-- The product list that `fetchData` builds from the dangling load, with the
ingredients of scenario A (Flour at 2.00). -/
def dangling.products : List Product :=
  App.enrichedProducts dangling.productsWithPrice (some dangling.bundleItemsData)
    (some dangling.recipesData) scenarioA.formattedIngredients

/-- A load with a nested bundle: Fries (1) made of 1 Potato, the bundle
Combo (2) and the bundle Mega (3). -/
def nested.productsWithPrice : List ProductRow :=
  [ { id := 1, is_bundle := false, price := 3, stock := 10, production_cost := none },
    { id := 2, is_bundle := true, price := 6, stock := 0, production_cost := none },
    { id := 3, is_bundle := true, price := 11, stock := 0, production_cost := none } ]

/-- The bundle rows of the nested load: Combo is 1 x Fries, Mega is 2 x Combo. -/
def nested.bundleItemsData : List BundleItemRow :=
  [ { bundle_product_id := 2, item_product_id := 1, quantity := 1 },
    { bundle_product_id := 3, item_product_id := 2, quantity := 2 } ]

/-- The recipe rows of the nested load: Fries is 1 Potato (ingredient 2 of
scenario B, 1.00 per unit). -/
def nested.recipesData : List RecipeItem :=
  [ { product_id := 1, ingredient_id := 2, quantity := 1 } ]

/-- The product list that `fetchData` builds from the nested load. -/
def nested.products : List Product :=
  App.enrichedProducts nested.productsWithPrice (some nested.bundleItemsData)
    (some nested.recipesData) scenarioB.formattedIngredients

/-- The enriched bundle Mega of the nested load. -/
def nested.mega : Product :=
  App.enrichProduct nested.productsWithPrice (some nested.bundleItemsData)
    (some nested.recipesData) scenarioB.formattedIngredients
    { id := 3, is_bundle := true, price := 11, stock := 0, production_cost := none }

/-! ## Stock fields -/

/-- A row of `products` with its stock counter erased. -/
def ProductRow.eraseStock (p : ProductRow) : ProductRow := { p with stock := 0 }

/-- A bundle sub-item with the stock counter of its component erased. -/
def BundleSubItem.eraseStock (sub : BundleSubItem) : BundleSubItem :=
  { sub with productDetails := sub.productDetails.map ProductRow.eraseStock }

/-- A product with its stock counter, and those its items carry, erased. -/
def Product.eraseStock (p : Product) : Product :=
  { p with stock := 0, items := p.items.map (List.map BundleSubItem.eraseStock) }

/-- An ingredient with its stock counter erased. -/
def Ingredient.eraseStock (ing : Ingredient) : Ingredient := { ing with stock_quantity := 0 }

/-- Two product lists differ only in stock fields. -/
def SameProductsUpToStock (products products' : List Product) : Prop :=
  products.map Product.eraseStock = products'.map Product.eraseStock

/-! ## Leaf targets and merged carts -/

/-- The leaf targets of one unit of the product `id`, as `handleCheckout`
resolves it: the product-stock keys it touches, each with the quantity per
unit sold. -/
def App.productTargets (products : List Product) (id : Nat) : List (Option Nat × ℚ) :=
  match products.find? (fun p => p.id = id) with
  | none => []
  | some fullProduct =>
    match fullProduct.is_bundle, fullProduct.items, fullProduct.recipeItems with
    | true, some items, _ => items.map (fun sub => (sub.id, sub.quantityInBundle))
    | _, _, some (_ :: _) => []
    | _, _, _ => [(some fullProduct.id, 1)]

/-- The ingredient-stock keys that one unit of the product `id` touches, each
with the quantity per unit sold. -/
def App.ingredientTargets (products : List Product) (id : Nat) : List (Nat × ℚ) :=
  match products.find? (fun p => p.id = id) with
  | none => []
  | some fullProduct =>
    match fullProduct.is_bundle, fullProduct.items, fullProduct.recipeItems with
    | true, some _, _ => []
    | _, _, some (r :: rs) => (r :: rs).map (fun row => (row.ingredient_id, row.quantity))
    | _, _, _ => []

/-- The cart in which the lines of a same product id are merged into the
first of them, which takes the summed quantity. -/
def mergeLines : List CartItem → List CartItem
  | [] => []
  | line :: rest =>
      { line with
        quantity := line.quantity +
          ((rest.filter (fun l => l.id = line.id)).map CartItem.quantity).sum } ::
        mergeLines (rest.filter (fun l => ¬ l.id = line.id))
termination_by cart => cart.length
decreasing_by
  simp_wf
  exact Nat.lt_succ_of_le (List.length_filter_le _ _)

/-- Scenario C with every stock counter at 0. -/
def scenarioC.soldOut : List ProductRow :=
  [ { id := 1, is_bundle := false, price := 8, stock := 0, production_cost := none },
    { id := 2, is_bundle := false, price := 3, stock := 0, production_cost := none },
    { id := 3, is_bundle := true, price := 12, stock := 0, production_cost := none } ]

/-- The loop of `handleCheckout` on one of its two maps, told through leaf
targets: every cart line posts, for each target of its product, the quantity
per unit times the quantity of the line. -/
def JSMap.addLines {κ : Type} [DecidableEq κ] (targets : Nat → List (κ × ℚ))
    (cart : List CartItem) (m : JSMap κ ℚ) : JSMap κ ℚ :=
  cart.foldl
    (fun acc line =>
      (targets line.id).foldl (fun a e => JSMap.accumulate a e.1 (e.2 * line.quantity)) acc)
    m

/-- The quantity of the key `k` per unit of the product `id`. -/
def JSMap.perUnit {κ : Type} [DecidableEq κ] (targets : Nat → List (κ × ℚ)) (k : κ)
    (id : Nat) : ℚ :=
  (((targets id).filter (fun e => e.1 = k)).map Prod.snd).sum

/-! ## Changing the cost of an ingredient -/

/-- The amount one recipe row adds to the total in the `reduce` of lines
102-105: nothing when its ingredient is not found. -/
def App.rowCost (formattedIngredients : List Ingredient) (recipeItem : RecipeItem) : ℚ :=
  match formattedIngredients.find? (fun ing => ing.id = recipeItem.ingredient_id) with
  | some ingredient => ingredient.cost_per_unit * recipeItem.quantity
  | none => 0

/-- The ingredient list after changing only the `cost_per_unit` of the
ingredient `I` to `c'`. -/
def setCostPerUnit (I : Nat) (c' : ℚ) (ingredients : List Ingredient) : List Ingredient :=
  ingredients.map (fun ing => if ing.id = I then { ing with cost_per_unit := c' } else ing)

/-! ## Shapes of the product list -/

/-- The key `k` is the id of a bundle product: the product that the id
resolves to in the list (`products.find`) is a bundle. -/
def ResolvesToBundle (products : List Product) (k : Option Nat) : Prop :=
  ∃ (id : Nat) (p : Product),
    k = some id ∧ products.find? (fun p => p.id = id) = some p ∧ p.is_bundle = true

/-- The components of the bundles of the list are non-bundle products. -/
def ComponentsAreSimple (products : List Product) : Prop :=
  ∀ p ∈ products, ∀ items : List BundleSubItem, p.items = some items →
    ∀ sub ∈ items, ¬ ResolvesToBundle products sub.id

/-- Every bundle of the list carries an `items` list (the bundle rows were
loaded). -/
def BundlesCarryItems (products : List Product) : Prop :=
  ∀ p ∈ products, p.is_bundle = true → p.items.isSome = true

/-! ## The cart (App.js, lines 222-235) -/

/-- The state update of `addToCart` (lines 223-227). -/
def App.addToCart (prev : List CartItem) (productToAdd : Product) : List CartItem :=
  match prev.find? (fun item => item.id = productToAdd.id) with
  | some _ =>
      prev.map (fun item =>
        if item.id = productToAdd.id then { item with quantity := item.quantity + 1 } else item)
  | none => prev ++ [{ product := productToAdd, quantity := 1 }]

/-- The state update of `updateCartQuantity` (lines 231-234). -/
def App.updateCartQuantity (prev : List CartItem) (productId : Nat) (newQuantity : ℚ) :
    List CartItem :=
  if newQuantity ≤ 0 then prev.filter (fun item => ¬ item.id = productId)
  else
    prev.map (fun item =>
      if item.id = productId then { item with quantity := newQuantity } else item)

/-- The carts reachable from the empty cart by `addToCart` and by
`updateCartQuantity` with an integer quantity. -/
inductive CartReachable : List CartItem → Prop where
  | empty : CartReachable []
  | add (cart : List CartItem) (productToAdd : Product) :
      CartReachable cart → CartReachable (App.addToCart cart productToAdd)
  | update (cart : List CartItem) (productId : Nat) (newQuantity : ℤ) :
      CartReachable cart → CartReachable (App.updateCartQuantity cart productId newQuantity)

/-! ## The inventory counters of the store -/

/-- Modelled from the spec: the atomic primitive behind the database functions
`decrement_stock` and `decrement_ingredient_stock`, which `handleCheckout`
calls and whose code is not in the source files: "a single atomic subtract if
result >= 0 operation", "decrement if sufficient stock, else fail". It takes
the counter and the requested quantity and gives whether the request
succeeded and the counter afterwards. -/
def Store.decrement (available quantity : ℚ) : Bool × ℚ :=
  if 0 ≤ available - quantity then (true, available - quantity) else (false, available)

/-- The inventory counters held by the store: product stock and ingredient
stock, by id. -/
structure Inventory where
  productStock : Nat → ℚ
  ingredientStock : Nat → ℚ

/-- Modelled from the spec: the database function `decrement_stock`,
`decrementProductStock(itemId, quantity) -> success|insufficientStock`, as
`Store.decrement` on the counter of the product. -/
def Store.decrement_stock (inventory : Inventory) (product_id_to_update : Nat)
    (quantity_to_decrement : ℚ) : Bool × Inventory :=
  ((Store.decrement (inventory.productStock product_id_to_update) quantity_to_decrement).1,
    { inventory with
      productStock := Function.update inventory.productStock product_id_to_update
        (Store.decrement (inventory.productStock product_id_to_update)
          quantity_to_decrement).2 })

/-- Modelled from the spec: the database function `decrement_ingredient_stock`,
`decrementIngredientStock(ingredientId, quantity) -> success|insufficientStock`,
as `Store.decrement` on the counter of the ingredient. -/
def Store.decrement_ingredient_stock (inventory : Inventory) (ingredient_id_to_update : Nat)
    (quantity_to_decrement : ℚ) : Bool × Inventory :=
  ((Store.decrement (inventory.ingredientStock ingredient_id_to_update)
      quantity_to_decrement).1,
    { inventory with
      ingredientStock := Function.update inventory.ingredientStock ingredient_id_to_update
        (Store.decrement (inventory.ingredientStock ingredient_id_to_update)
          quantity_to_decrement).2 })

/-- A schedule of decrement requests on one counter, served one after the
other: the replies, in order, and the counter afterwards. -/
def Store.serveAll : ℚ → List ℚ → List Bool × ℚ
  | available, [] => ([], available)
  | available, quantity :: rest =>
      (((Store.decrement available quantity).1 ::
          (Store.serveAll (Store.decrement available quantity).2 rest).1),
        (Store.serveAll (Store.decrement available quantity).2 rest).2)

/-- The quantities of a schedule that were granted. -/
def Store.granted : List ℚ → List Bool → ℚ
  | quantity :: rest, reply :: replies =>
      (if reply then quantity else 0) + Store.granted rest replies
  | _, _ => 0

/-- The cart `[2 x Burger]` over the catalog of scenario C. -/
def contention.cart : List CartItem :=
  [ { product := { id := 1, is_bundle := false, price := 8, stock := 3
                   production_cost := some 0, items := none, recipeItems := some [] }
      quantity := 2 } ]

/-- An inventory in which Burger (1) has 3 in stock. -/
def contention.inventory : Inventory :=
  { productStock := fun id => if id = 1 then 3 else 10, ingredientStock := fun _ => 0 }

/-! ## Product management (App.js, lines 144-193; ProductModal.js) -/

/-- An element of `formData.items` in the product editor. -/
structure BundleFormItem where
  item_product_id : Nat
  quantity : ℚ
deriving DecidableEq

/-- An element of `formData.recipeItems` in the product editor. -/
structure RecipeFormItem where
  ingredient_id : Nat
  quantity : ℚ
deriving DecidableEq

/-- The fields of `formData` that decide the rows written by `addProduct`
and `updateProduct`. `selling_price` and `stock` are the results of
`parseFloat` and `parseInt` on the text of the form, `none` when the text is
not a number. -/
structure ProductForm where
  selling_price : Option ℚ
  stock : Option ℤ
  is_bundle : Bool
  items : List BundleFormItem
  recipeItems : List RecipeFormItem

/-- The tables of the store that hold the catalog. -/
structure Catalog where
  products : List ProductRow
  bundle_items : List BundleItemRow
  recipes : List RecipeItem
deriving DecidableEq

/-- The row `productData` of lines 146-147 and 168-169: a bundle is stored with
stock 0. -/
def App.productData (id : Nat) (formData : ProductForm) (production_cost : Option ℚ) :
    ProductRow :=
  { id := id, is_bundle := formData.is_bundle
    price := jsOr formData.selling_price 0
    stock := if formData.is_bundle then 0 else jsOr (Option.map (fun n : ℤ => (n : ℚ)) formData.stock) 0
    production_cost := production_cost }

/-- The writes of `addProduct` (lines 144-164) when every request succeeds:
the product row, with the id `newProductId` that the store gives it, then the
bundle rows of a bundle, or the recipe rows of a non-bundle. -/
def App.addProduct (catalog : Catalog) (newProductId : Nat) (formData : ProductForm) :
    Catalog :=
  { products := catalog.products ++ [App.productData newProductId formData none]
    bundle_items :=
      if formData.is_bundle then
        catalog.bundle_items ++ formData.items.map (fun item =>
          { bundle_product_id := newProductId, item_product_id := item.item_product_id
            quantity := item.quantity })
      else catalog.bundle_items
    recipes :=
      if formData.is_bundle then catalog.recipes
      else
        catalog.recipes ++ formData.recipeItems.map (fun item =>
          { product_id := newProductId, ingredient_id := item.ingredient_id
            quantity := item.quantity }) }

/-- The writes of `updateProduct` (lines 166-189) when every request succeeds:
the product row is updated, its bundle rows and recipe rows are deleted, and
the rows of the form are inserted. -/
def App.updateProduct (catalog : Catalog) (productId : Nat) (formData : ProductForm) :
    Catalog :=
  { products := catalog.products.map (fun p =>
      if p.id = productId then App.productData productId formData p.production_cost else p)
    bundle_items :=
      catalog.bundle_items.filter (fun row => ¬ row.bundle_product_id = productId) ++
        (if formData.is_bundle ∧ 0 < formData.items.length then
          formData.items.map (fun item =>
            { bundle_product_id := productId, item_product_id := item.item_product_id
              quantity := item.quantity })
        else [])
    recipes :=
      catalog.recipes.filter (fun row => ¬ row.product_id = productId) ++
        (if formData.is_bundle = false ∧ 0 < formData.recipeItems.length then
          formData.recipeItems.map (fun item =>
            { product_id := productId, ingredient_id := item.ingredient_id
              quantity := item.quantity })
        else []) }

/-- The `addableProducts` of line 87 of the editor: the non-bundles other
than the product being edited (`none` when a product is being added). -/
def ProductModal.addableProducts (allProducts : List Product) (product : Option Product) :
    List Product :=
  allProducts.filter (fun p => !p.is_bundle && decide (¬ some p.id = product.map Product.id))

/-- The product list that `fetchData` builds from the tables (no ingredient is
needed for the shape of the list). The rows are taken in the order of the
table, where the query of `fetchData` sorts them by `id`: the list is the same
up to the order of its products. -/
def Catalog.allProducts (catalog : Catalog) : List Product :=
  App.enrichedProducts catalog.products (some catalog.bundle_items) (some catalog.recipes) []

/-- Every bundle row names a component that is a non-bundle product of the
catalog (no nested bundle). -/
def Catalog.NoNestedBundles (catalog : Catalog) : Prop :=
  ∀ row ∈ catalog.bundle_items,
    ∃ p ∈ catalog.products, p.id = row.item_product_id ∧ p.is_bundle = false

/-- A catalog with the two non-bundles Fries (1) and Sauce (3). -/
def nestedEdit.start : Catalog :=
  { products :=
      [ { id := 1, is_bundle := false, price := 3, stock := 10, production_cost := none },
        { id := 3, is_bundle := false, price := 1, stock := 10, production_cost := none } ]
    bundle_items := [], recipes := [] }

/-- The form of a bundle whose one component is the product `component`. -/
def nestedEdit.bundleForm (component : Nat) : ProductForm :=
  { selling_price := some 6, stock := some 0, is_bundle := true
    items := [ { item_product_id := component, quantity := 1 } ], recipeItems := [] }

/-- The bundle Combo (2) = 1 x Fries is added. -/
def nestedEdit.afterAdd : Catalog :=
  App.addProduct nestedEdit.start 2 (nestedEdit.bundleForm 1)

/-- Then Fries (1) is edited into a bundle of 1 x Sauce. -/
def nestedEdit.afterUpdate : Catalog :=
  App.updateProduct nestedEdit.afterAdd 1 (nestedEdit.bundleForm 3)

/-! ## The bundle editor and the recipe editor (ProductModal.js, lines 48-78) -/

/-- The handler `handleAddItemToBundle` (lines 48-53) on `formData.items`.
`selectedProductToAdd` is the id chosen in the select, `none` for the empty
selection `''`. -/
def ProductModal.handleAddItemToBundle (items : List BundleFormItem)
    (selectedProductToAdd : Option Nat) : List BundleFormItem :=
  match selectedProductToAdd with
  | none => items
  | some id =>
      if items.any (fun item => item.item_product_id = id) then items
      else items ++ [{ item_product_id := id, quantity := 1 }]

/-- The handler `handleRemoveItemFromBundle` (lines 55-57). -/
def ProductModal.handleRemoveItemFromBundle (items : List BundleFormItem) (productId : Nat) :
    List BundleFormItem :=
  items.filter (fun item => ¬ item.item_product_id = productId)

/-- The quantity `Math.max(1, parseInt(newQuantity, 10) || 1)` of line 60;
`parsed` is the result of `parseInt`, `none` when it is `NaN`. -/
def ProductModal.itemQuantity (parsed : Option ℤ) : ℚ :=
  max 1 (jsOr (Option.map (fun n : ℤ => (n : ℚ)) parsed) 1)

/-- The handler `handleItemQuantityChange` (lines 59-62). -/
def ProductModal.handleItemQuantityChange (items : List BundleFormItem) (productId : Nat)
    (parsed : Option ℤ) : List BundleFormItem :=
  items.map (fun item =>
    if item.item_product_id = productId then
      { item with quantity := ProductModal.itemQuantity parsed }
    else item)

/-- The handler `handleAddIngredientToRecipe` (lines 64-69) on
`formData.recipeItems`. -/
def ProductModal.handleAddIngredientToRecipe (recipeItems : List RecipeFormItem)
    (selectedIngredientToAdd : Option Nat) : List RecipeFormItem :=
  match selectedIngredientToAdd with
  | none => recipeItems
  | some id =>
      if recipeItems.any (fun item => item.ingredient_id = id) then recipeItems
      else recipeItems ++ [{ ingredient_id := id, quantity := 1 }]

/-- The handler `handleRemoveIngredientFromRecipe` (lines 71-73). -/
def ProductModal.handleRemoveIngredientFromRecipe (recipeItems : List RecipeFormItem)
    (ingredientId : Nat) : List RecipeFormItem :=
  recipeItems.filter (fun item => ¬ item.ingredient_id = ingredientId)

/-- The quantity `Math.max(0.01, parseFloat(newQuantity) || 0.01)` of line 76;
`parsed` is the result of `parseFloat`, `none` when it is `NaN`. -/
def ProductModal.recipeQuantity (parsed : Option ℚ) : ℚ :=
  max (1 / 100) (jsOr parsed (1 / 100))

/-- The handler `handleRecipeItemQuantityChange` (lines 75-78). -/
def ProductModal.handleRecipeItemQuantityChange (recipeItems : List RecipeFormItem)
    (ingredientId : Nat) (parsed : Option ℚ) : List RecipeFormItem :=
  recipeItems.map (fun item =>
    if item.ingredient_id = ingredientId then
      { item with quantity := ProductModal.recipeQuantity parsed }
    else item)

/-- The items of a bundle form are a set with quantities at least 1:
pairwise distinct ids, every quantity at least 1. -/
def BundleFormOk (items : List BundleFormItem) : Prop :=
  (items.map BundleFormItem.item_product_id).Nodup ∧ ∀ item ∈ items, 1 ≤ item.quantity

/-- Every quantity of a bundle form is an integer. -/
def BundleFormIntegral (items : List BundleFormItem) : Prop :=
  ∀ item ∈ items, ∃ n : ℤ, item.quantity = n

/-- The rows of a recipe form are unique per ingredient with quantities
greater than 0. -/
def RecipeFormOk (recipeItems : List RecipeFormItem) : Prop :=
  (recipeItems.map RecipeFormItem.ingredient_id).Nodup ∧
    ∀ item ∈ recipeItems, 0 < item.quantity

/-! ## Totals at the point of sale (POSView.js, lines 63-73) -/

/-- The `cartSubtotal` of lines 63-66. -/
def POSView.cartSubtotal (cart : List CartItem) : ℚ :=
  cart.foldl (fun total item => total + item.price * item.quantity) 0

/-- The `cartTotal` of line 73: the subtotal, no tax. -/
def POSView.cartTotal (cart : List CartItem) : ℚ := POSView.cartSubtotal cart

/-! ## Sales in the reports (ReportsView.js, lines 53-83) -/

/-- An element of `sales`: the rows of `transaction_items` of the sale and its
`total` (`total_amount`, which may be absent). -/
structure Sale where
  items : List TransactionItem
  total : Option ℚ

/-- The function `calcSaleCost` of lines 53-58. -/
def ReportsView.calcSaleCost (allProducts : List Product) (sale : Sale) : ℚ :=
  sale.items.foldl
    (fun acc it =>
      acc + ReportsView.getUnitCost allProducts
        (JSMap.get (ReportsView.byId allProducts) it.product_id) * it.quantity)
    0

/-- The object `kpis` of lines 68-83. -/
structure Kpis where
  revenue : ℚ
  cost : ℚ
  profit : ℚ
  marginPct : ℚ
  transactions : Nat
  avgSale : ℚ
  itemsPerSale : ℚ

/-- The computation of `kpis` (lines 68-83); `revenue ? x : 0` and `tx ? x : 0`
take `0` when the tested number is `0`. -/
def ReportsView.kpis (allProducts : List Product) (sales : List Sale) : Kpis :=
  let revenue := sales.foldl (fun acc s => acc + jsNullish s.total 0) 0
  let cost := sales.foldl (fun acc s => acc + ReportsView.calcSaleCost allProducts s) 0
  let profit := revenue - cost
  let tx := sales.length
  let items := sales.foldl
    (fun acc s => acc + s.items.foldl (fun a i => a + i.quantity) 0) (0 : ℚ)
  { revenue := revenue
    cost := cost
    profit := profit
    marginPct := if revenue = 0 then 0 else profit / revenue * 100
    transactions := tx
    avgSale := if tx = 0 then 0 else revenue / tx
    itemsPerSale := if tx = 0 then 0 else items / tx }

/-- Scenario B: a sale of `2 x ComboMeal` at 12.00. -/
def scenarioB.sale : Sale :=
  { items := [ { transaction_id := 7, product_id := 3, quantity := 2, price_at_sale := 12 } ]
    total := some 24 }

/-! ## Double-precision arithmetic

The numbers of JavaScript are IEEE 754 doubles (binary64). A finite double is
a rational, and an arithmetic operation on doubles returns the double nearest
to the exact result. The definitions above compute with exact results; those
of this section round after every operation, as the code does. Infinities and
`NaN` are not represented: a result beyond the largest finite double is outside
this model. -/

/-- Rounding of a rational to an integer, a tie going to the even neighbour. -/
def F64.roundHalfEven (x : ℚ) : ℤ :=
  if x - ⌊x⌋ < 1 / 2 then ⌊x⌋
  else if 1 / 2 < x - ⌊x⌋ then ⌊x⌋ + 1
  else if ⌊x⌋ % 2 = 0 then ⌊x⌋ else ⌊x⌋ + 1

/-- The exponent of the spacing of the doubles around `x`: `e - 52` when
`2 ^ e ≤ |x| < 2 ^ (e + 1)` (53 significant bits), and `-1074` in the
subnormal range `|x| < 2 ^ (-1022)`. -/
def F64.exponent (x : ℚ) : ℤ := max (Int.log 2 |x|) (-1022) - 52

/-- The double nearest to the rational `x`, a tie going to the double whose
significand is even (the rounding mode of JavaScript). -/
def F64.round (x : ℚ) : ℚ :=
  F64.roundHalfEven (x / 2 ^ F64.exponent x) * 2 ^ F64.exponent x

/-- The sum `a + b` of two doubles. -/
def F64.add (a b : ℚ) : ℚ := F64.round (a + b)

/-- The product `a * b` of two doubles. -/
def F64.mul (a b : ℚ) : ℚ := F64.round (a * b)

/-- The statement `map.set(k, (map.get(k) || 0) + q)` on doubles. -/
def JSMap.accumulate64 {κ : Type} [DecidableEq κ] (m : JSMap κ ℚ) (k : κ) (q : ℚ) :
    JSMap κ ℚ :=
  JSMap.set m k (F64.add (jsOr (JSMap.get m k) 0) q)

/-- The inner loop of lines 256-258 of `handleCheckout` on doubles. -/
def App.addBundleItems64 (m : JSMap (Option Nat) ℚ) (items : List BundleSubItem)
    (quantity : ℚ) : JSMap (Option Nat) ℚ :=
  items.foldl
    (fun acc bundleSubItem =>
      JSMap.accumulate64 acc bundleSubItem.id
        (F64.mul bundleSubItem.quantityInBundle quantity))
    m

/-- The inner loop of lines 260-262 of `handleCheckout` on doubles. -/
def App.addRecipeItems64 (m : JSMap Nat ℚ) (recipeItems : List RecipeItem)
    (quantity : ℚ) : JSMap Nat ℚ :=
  recipeItems.foldl
    (fun acc recipeItem =>
      JSMap.accumulate64 acc recipeItem.ingredient_id (F64.mul recipeItem.quantity quantity))
    m

/-- The body of the loop of lines 252-266 of `handleCheckout` on doubles. -/
def App.planStep64 (products : List Product) (plan : Plan) (cartItem : CartItem) : Plan :=
  match products.find? (fun p => p.id = cartItem.id) with
  | none => plan
  | some fullProduct =>
    match fullProduct.is_bundle, fullProduct.items, fullProduct.recipeItems with
    | true, some items, _ =>
        { plan with
          productStockDecrements :=
            App.addBundleItems64 plan.productStockDecrements items cartItem.quantity }
    | _, _, some (r :: rs) =>
        { plan with
          ingredientStockDecrements :=
            App.addRecipeItems64 plan.ingredientStockDecrements (r :: rs) cartItem.quantity }
    | _, _, _ =>
        { plan with
          productStockDecrements :=
            JSMap.accumulate64 plan.productStockDecrements (some fullProduct.id)
              cartItem.quantity }

/-- The plan built by lines 250-266 of `handleCheckout` on doubles. -/
def App.buildPlan64 (cart : List CartItem) (products : List Product) : Plan :=
  cart.foldl (App.planStep64 products)
    { productStockDecrements := [], ingredientStockDecrements := [] }

/-- The `reduce` of lines 102-105 of `fetchData` on doubles. -/
def App.recipeCost64 (formattedIngredients : List Ingredient)
    (productRecipeItems : List RecipeItem) : ℚ :=
  productRecipeItems.foldl
    (fun totalCost recipeItem =>
      match formattedIngredients.find? (fun ing => ing.id = recipeItem.ingredient_id) with
      | some ingredient =>
          F64.add totalCost (F64.mul ingredient.cost_per_unit recipeItem.quantity)
      | none => totalCost)
    0

/-- Lines 99-107 of `fetchData` on doubles. -/
def App.attachRecipe64 (recipesData : Option (List RecipeItem))
    (formattedIngredients : List Ingredient) (product : ProductRow)
    (finalProduct : Product) : Product :=
  match product.is_bundle, recipesData with
  | false, some rows =>
      { finalProduct with
        recipeItems := some (rows.filter (fun r => r.product_id = product.id))
        production_cost :=
          some (App.recipeCost64 formattedIngredients
            (rows.filter (fun r => r.product_id = product.id))) }
  | _, _ => finalProduct

/-- The callback of `productsWithPrice.map` at lines 91-109 on doubles. -/
def App.enrichProduct64 (productsWithPrice : List ProductRow)
    (bundleItemsData : Option (List BundleItemRow)) (recipesData : Option (List RecipeItem))
    (formattedIngredients : List Ingredient) (product : ProductRow) : Product :=
  App.attachRecipe64 recipesData formattedIngredients product
    (App.attachItems productsWithPrice bundleItemsData product (App.copyProduct product))

/-- The list `enrichedProducts` of `fetchData` on doubles. -/
def App.enrichedProducts64 (productsWithPrice : List ProductRow)
    (bundleItemsData : Option (List BundleItemRow)) (recipesData : Option (List RecipeItem))
    (formattedIngredients : List Ingredient) : List Product :=
  productsWithPrice.map
    (App.enrichProduct64 productsWithPrice bundleItemsData recipesData formattedIngredients)

/-- The sum of the quantities of a map. -/
def JSMap.total {κ : Type} (m : JSMap κ ℚ) : ℚ := (m.map Prod.snd).sum

/-! ### The doubles of the rounding scenarios -/

/-- The double written `0.01`. -/
def F64.d0_01 : ℚ := 5764607523034235 / 2 ^ 59

/-- The double written `0.02`. -/
def F64.d0_02 : ℚ := 5764607523034235 / 2 ^ 58

/-- The double written `0.04`. -/
def F64.d0_04 : ℚ := 5764607523034235 / 2 ^ 57

/-- The double written `0.05`. -/
def F64.d0_05 : ℚ := 3602879701896397 / 2 ^ 56

/-- The double written `0.06`. -/
def F64.d0_06 : ℚ := 1080863910568919 / 2 ^ 54

/-- The double written `0.060000000000000005`. -/
def F64.d0_060000000000000005 : ℚ := 8646911284551353 / 2 ^ 57

/-- The double written `0.1`. -/
def F64.d0_1 : ℚ := 3602879701896397 / 2 ^ 55

/-- The double written `0.2`. -/
def F64.d0_2 : ℚ := 3602879701896397 / 2 ^ 54

/-- The double written `0.3`. -/
def F64.d0_3 : ℚ := 5404319552844595 / 2 ^ 54

/-- The double written `0.30000000000000004`. -/
def F64.d0_30000000000000004 : ℚ := 1351079888211149 / 2 ^ 52

/-- The double written `0.5`. -/
def F64.d0_5 : ℚ := 1 / 2

/-- The double written `0.6`. -/
def F64.d0_6 : ℚ := 5404319552844595 / 2 ^ 53

/-- The double written `0.6000000000000001`. -/
def F64.d0_6000000000000001 : ℚ := 1351079888211149 / 2 ^ 51

/-! ### Loads with fractional quantities -/

/-- The ingredient Syrup (1), 1.00 per unit. -/
def fractions.formattedIngredients : List Ingredient :=
  [ { id := 1, cost_per_unit := 1, stock_quantity := 10 } ]

/-- The rows of the non-bundles Small (1) and Large (2). -/
def fractions.productsWithPrice : List ProductRow :=
  [ { id := 1, is_bundle := false, price := 2, stock := 0, production_cost := none },
    { id := 2, is_bundle := false, price := 5, stock := 0, production_cost := none } ]

/-- Small is made of 0.01 Syrup, Large of 0.04 Syrup. -/
def fractions.recipesData : List RecipeItem :=
  [ { product_id := 1, ingredient_id := 1, quantity := F64.d0_01 },
    { product_id := 2, ingredient_id := 1, quantity := F64.d0_04 } ]

/-- The product list that `fetchData` builds from Small and Large. -/
def fractions.products : List Product :=
  App.enrichedProducts64 fractions.productsWithPrice (some []) (some fractions.recipesData)
    fractions.formattedIngredients

/-- The enriched product Small. -/
def fractions.small : Product :=
  App.enrichProduct64 fractions.productsWithPrice (some []) (some fractions.recipesData)
    fractions.formattedIngredients
    { id := 1, is_bundle := false, price := 2, stock := 0, production_cost := none }

/-- The enriched product Large. -/
def fractions.large : Product :=
  App.enrichProduct64 fractions.productsWithPrice (some []) (some fractions.recipesData)
    fractions.formattedIngredients
    { id := 2, is_bundle := false, price := 5, stock := 0, production_cost := none }

/-- The cart `[1 x Small, 1 x Large, 1 x Small]`, Small being on two lines. -/
def fractions.cart : List CartItem :=
  [ { product := fractions.small, quantity := 1 },
    { product := fractions.large, quantity := 1 },
    { product := fractions.small, quantity := 1 } ]

/-- The rows of the non-bundles Mild (1), Medium (2) and Strong (3). -/
def tenths.productsWithPrice : List ProductRow :=
  [ { id := 1, is_bundle := false, price := 2, stock := 0, production_cost := none },
    { id := 2, is_bundle := false, price := 3, stock := 0, production_cost := none },
    { id := 3, is_bundle := false, price := 4, stock := 0, production_cost := none } ]

/-- Mild is made of 0.1 Syrup, Medium of 0.2 Syrup, Strong of 0.3 Syrup. -/
def tenths.recipesData : List RecipeItem :=
  [ { product_id := 1, ingredient_id := 1, quantity := F64.d0_1 },
    { product_id := 2, ingredient_id := 1, quantity := F64.d0_2 },
    { product_id := 3, ingredient_id := 1, quantity := F64.d0_3 } ]

/-- The product list that `fetchData` builds from Mild, Medium and Strong. -/
def tenths.products : List Product :=
  App.enrichedProducts64 tenths.productsWithPrice (some []) (some tenths.recipesData)
    fractions.formattedIngredients

/-- The cart `[1 x Mild, 1 x Medium, 1 x Strong]`. -/
def tenths.cart : List CartItem :=
  tenths.products.map (fun p => { product := p, quantity := 1 })

/-- The ingredients Milk (1), 0.20 per unit, and Sugar (2), 0.10 per unit. -/
def repricing.formattedIngredients : List Ingredient :=
  [ { id := 1, cost_per_unit := F64.d0_2, stock_quantity := 10 },
    { id := 2, cost_per_unit := F64.d0_1, stock_quantity := 10 } ]

/-- The row of the non-bundle Cake (1). -/
def repricing.cake : ProductRow :=
  { id := 1, is_bundle := false, price := 4, stock := 0, production_cost := none }

/-- Cake is made of 1 Milk and 1 Sugar. -/
def repricing.recipesData : List RecipeItem :=
  [ { product_id := 1, ingredient_id := 1, quantity := 1 },
    { product_id := 1, ingredient_id := 2, quantity := 1 } ]

/-- The quantity of the ingredient `ingredient_id` in the recipe of the product
`product_id`: the sum of the quantities of the rows of the recipe for that
ingredient. -/
def recipeQuantity (recipesData : List RecipeItem) (product_id ingredient_id : Nat) : ℚ :=
  (((recipesData.filter (fun r => r.product_id = product_id)).filter
    (fun r => r.ingredient_id = ingredient_id)).map RecipeItem.quantity).sum

/-! # Theorems -/
/-! ## Lemmas on `JSMap` -/

theorem jsOr_zero (x : Option ℚ) : jsOr x 0 = x.getD 0 := by
  cases x with
  | none => rfl
  | some v =>
    by_cases h : v = 0
    · simp [jsOr, h]
    · simp [jsOr, h]

theorem JSMap.get_set {κ ν : Type} [DecidableEq κ] (m : JSMap κ ν) (k k' : κ) (v : ν) :
    JSMap.get (JSMap.set m k v) k' = if k = k' then some v else JSMap.get m k' := by
  induction m with
  | nil => simp [JSMap.set, JSMap.get]
  | cons e m ih =>
    obtain ⟨a, b⟩ := e
    by_cases h1 : a = k
    · subst h1
      by_cases h2 : a = k'
      · simp [JSMap.set, JSMap.get, h2]
      · simp [JSMap.set, JSMap.get, h2]
    · by_cases h2 : a = k'
      · subst h2
        have h3 : ¬ k = a := fun h => h1 h.symm
        simp [JSMap.set, JSMap.get, h1, h3]
      · simp [JSMap.set, JSMap.get, h1, h2, ih]

theorem JSMap.mem_keys_set {κ ν : Type} [DecidableEq κ] (m : JSMap κ ν) (k k' : κ) (v : ν) :
    k' ∈ JSMap.keys (JSMap.set m k v) ↔ k' = k ∨ k' ∈ JSMap.keys m := by
  induction m with
  | nil => simp [JSMap.set, JSMap.keys]
  | cons e m ih =>
    obtain ⟨a, b⟩ := e
    by_cases h1 : a = k
    · subst h1
      simp [JSMap.set, JSMap.keys]
    · simp only [JSMap.keys] at ih
      simp [JSMap.set, JSMap.keys, h1, ih]
      tauto

theorem JSMap.nodup_keys_set {κ ν : Type} [DecidableEq κ] (m : JSMap κ ν) (k : κ) (v : ν)
    (h : (JSMap.keys m).Nodup) : (JSMap.keys (JSMap.set m k v)).Nodup := by
  induction m with
  | nil => simp [JSMap.set, JSMap.keys]
  | cons e m ih =>
    obtain ⟨a, b⟩ := e
    have hk : JSMap.keys ((a, b) :: m) = a :: JSMap.keys m := rfl
    rw [hk, List.nodup_cons] at h
    by_cases h1 : a = k
    · subst h1
      have : JSMap.keys (JSMap.set ((a, b) :: m) a v) = a :: JSMap.keys m := by
        simp [JSMap.set, JSMap.keys]
      rw [this, List.nodup_cons]
      exact h
    · have : JSMap.keys (JSMap.set ((a, b) :: m) k v) = a :: JSMap.keys (JSMap.set m k v) := by
        simp [JSMap.set, JSMap.keys, h1]
      rw [this, List.nodup_cons]
      refine ⟨?_, ih h.2⟩
      rw [JSMap.mem_keys_set]
      rintro (h2 | h2)
      · exact h1 h2
      · exact h.1 h2

theorem JSMap.mem_keys_iff {κ ν : Type} [DecidableEq κ] (m : JSMap κ ν) (k : κ) :
    k ∈ JSMap.keys m ↔ (JSMap.get m k).isSome = true := by
  induction m with
  | nil => simp [JSMap.keys, JSMap.get]
  | cons e m ih =>
    obtain ⟨a, b⟩ := e
    simp only [JSMap.keys] at ih
    by_cases h1 : a = k
    · simp [JSMap.keys, JSMap.get, h1]
    · have h2 : ¬ k = a := fun h => h1 h.symm
      simp [JSMap.keys, JSMap.get, h1, h2, ih]

theorem JSMap.get_accumulate {κ : Type} [DecidableEq κ] (m : JSMap κ ℚ) (k k' : κ) (q : ℚ) :
    (JSMap.get (JSMap.accumulate m k q) k').getD 0 =
      (JSMap.get m k').getD 0 + (if k = k' then q else 0) := by
  unfold JSMap.accumulate
  rw [JSMap.get_set, jsOr_zero]
  by_cases h : k = k'
  · subst h; simp
  · simp [h]

/-- A loop of `map.set(key x, (map.get(key x) || 0) + qty x)` over a list adds,
at every key, the quantities of the elements with that key. -/
theorem JSMap.get_foldl_accumulate {κ α : Type} [DecidableEq κ] (key : α → κ) (qty : α → ℚ)
    (xs : List α) (m : JSMap κ ℚ) (k : κ) :
    (JSMap.get (xs.foldl (fun acc x => JSMap.accumulate acc (key x) (qty x)) m) k).getD 0 =
      (JSMap.get m k).getD 0 + ((xs.filter (fun x => key x = k)).map qty).sum := by
  induction xs generalizing m with
  | nil => simp
  | cons x xs ih =>
    rw [List.foldl_cons, ih, JSMap.get_accumulate]
    by_cases h : key x = k
    · simp [List.filter_cons, h, add_assoc]
    · simp [List.filter_cons, h]

theorem JSMap.nodup_keys_foldl_accumulate {κ α : Type} [DecidableEq κ] (key : α → κ)
    (qty : α → ℚ) (xs : List α) (m : JSMap κ ℚ) (h : (JSMap.keys m).Nodup) :
    (JSMap.keys (xs.foldl (fun acc x => JSMap.accumulate acc (key x) (qty x)) m)).Nodup := by
  induction xs generalizing m with
  | nil => simpa using h
  | cons x xs ih =>
    rw [List.foldl_cons]
    exact ih _ (JSMap.nodup_keys_set _ _ _ h)

theorem JSMap.mem_keys_foldl_accumulate {κ α : Type} [DecidableEq κ] (key : α → κ)
    (qty : α → ℚ) (xs : List α) (m : JSMap κ ℚ) (k : κ) :
    k ∈ JSMap.keys (xs.foldl (fun acc x => JSMap.accumulate acc (key x) (qty x)) m) ↔
      k ∈ JSMap.keys m ∨ ∃ x ∈ xs, key x = k := by
  induction xs generalizing m with
  | nil => simp
  | cons x xs ih =>
    rw [List.foldl_cons, ih]
    unfold JSMap.accumulate
    rw [JSMap.mem_keys_set]
    constructor
    · rintro ((h | h) | ⟨y, hy, h⟩)
      · exact Or.inr ⟨x, List.mem_cons_self _ _, h.symm⟩
      · exact Or.inl h
      · exact Or.inr ⟨y, List.mem_cons_of_mem _ hy, h⟩
    · rintro (h | ⟨y, hy, h⟩)
      · exact Or.inl (Or.inr h)
      · rcases List.mem_cons.mp hy with rfl | hy
        · exact Or.inl (Or.inl h.symm)
        · exact Or.inr ⟨y, hy, h⟩

/-! ## The decrement plan of `handleCheckout` -/

theorem App.addBundleItems_eq (m : JSMap (Option Nat) ℚ) (items : List BundleSubItem) (q : ℚ) :
    App.addBundleItems m items q =
      items.foldl (fun acc x => JSMap.accumulate acc (BundleSubItem.id x)
        ((fun s : BundleSubItem => s.quantityInBundle * q) x)) m := rfl

theorem App.addRecipeItems_eq (m : JSMap Nat ℚ) (rows : List RecipeItem) (q : ℚ) :
    App.addRecipeItems m rows q =
      rows.foldl (fun acc x => JSMap.accumulate acc (RecipeItem.ingredient_id x)
        ((fun r : RecipeItem => r.quantity * q) x)) m := rfl

/-- One cart line adds `productContribution` to every entry of the product map. -/
theorem App.planStep_product (products : List Product) (plan : Plan) (line : CartItem)
    (P : Option Nat) :
    (JSMap.get (App.planStep products plan line).productStockDecrements P).getD 0 =
      (JSMap.get plan.productStockDecrements P).getD 0 + productContribution products P line := by
  unfold App.planStep productContribution
  cases hf : products.find? (fun p => p.id = line.id) with
  | none => simp
  | some p =>
    obtain ⟨id, b, price, stock, pc, items, recipe⟩ := p
    cases b <;> cases items <;> rcases recipe with _ | _ | ⟨r, rs⟩ <;>
      simp [App.addBundleItems_eq, JSMap.get_foldl_accumulate, JSMap.get_accumulate]

/-- One cart line keeps the keys of both maps pairwise distinct. -/
theorem App.planStep_nodup (products : List Product) (plan : Plan) (line : CartItem)
    (h : (JSMap.keys plan.productStockDecrements).Nodup ∧
      (JSMap.keys plan.ingredientStockDecrements).Nodup) :
    (JSMap.keys (App.planStep products plan line).productStockDecrements).Nodup ∧
      (JSMap.keys (App.planStep products plan line).ingredientStockDecrements).Nodup := by
  unfold App.planStep
  cases hf : products.find? (fun p => p.id = line.id) with
  | none => simpa using h
  | some p =>
    obtain ⟨id, b, price, stock, pc, items, recipe⟩ := p
    cases b <;> cases items <;> rcases recipe with _ | _ | ⟨r, rs⟩ <;>
      simp only [] <;>
      first
        | exact ⟨JSMap.nodup_keys_set _ _ _ h.1, h.2⟩
        | exact ⟨h.1, JSMap.nodup_keys_foldl_accumulate _ _ _ _ h.2⟩
        | exact ⟨JSMap.nodup_keys_foldl_accumulate _ _ _ _ h.1, h.2⟩

theorem App.foldl_planStep_nodup (products : List Product) (cart : List CartItem) (plan : Plan)
    (h : (JSMap.keys plan.productStockDecrements).Nodup ∧
      (JSMap.keys plan.ingredientStockDecrements).Nodup) :
    (JSMap.keys (cart.foldl (App.planStep products) plan).productStockDecrements).Nodup ∧
      (JSMap.keys (cart.foldl (App.planStep products) plan).ingredientStockDecrements).Nodup := by
  induction cart generalizing plan with
  | nil => simpa using h
  | cons line cart ih =>
    rw [List.foldl_cons]
    exact ih _ (App.planStep_nodup products plan line h)

theorem App.buildPlan_nodup (cart : List CartItem) (products : List Product) :
    (JSMap.keys (App.buildPlan cart products).productStockDecrements).Nodup ∧
      (JSMap.keys (App.buildPlan cart products).ingredientStockDecrements).Nodup :=
  App.foldl_planStep_nodup products cart _ ⟨List.nodup_nil, List.nodup_nil⟩

theorem App.foldl_planStep_product (products : List Product) (cart : List CartItem)
    (plan : Plan) (P : Option Nat) :
    (JSMap.get (cart.foldl (App.planStep products) plan).productStockDecrements P).getD 0 =
      (JSMap.get plan.productStockDecrements P).getD 0 +
        (cart.map (productContribution products P)).sum := by
  induction cart generalizing plan with
  | nil => simp
  | cons line cart ih =>
    rw [List.foldl_cons, ih, App.planStep_product, List.map_cons, List.sum_cons, add_assoc]

/-- C1 (amended): for every cart and product list the product-stock map has
pairwise distinct keys and maps each key `P` to the sum over the cart lines of
their contribution to `P`: for a bundle line carrying an `items` list,
`quantityInBundle x quantity` for each item with id `P`; for any other line
with id `P` whose recipe is empty or absent, `quantity`. Contributions of
different lines add up in one entry. -/
theorem handleCheckout_product_map (cart : List CartItem) (products : List Product) :
    (JSMap.keys (App.buildPlan cart products).productStockDecrements).Nodup ∧
      ∀ P : Option Nat,
        (JSMap.get (App.buildPlan cart products).productStockDecrements P).getD 0 =
          (cart.map (productContribution products P)).sum := by
  refine ⟨(App.buildPlan_nodup cart products).1, fun P => ?_⟩
  unfold App.buildPlan
  rw [App.foldl_planStep_product]
  simp [JSMap.get]

/-- C1 as stated fails for a bundle whose `items` were not loaded: the line
`2 x bundle 1` puts `2` on the product-stock entry of the bundle itself, where
the claim counts nothing (no item of the bundle, no non-bundle line). -/
theorem handleCheckout_product_map_unloaded_bundle :
    JSMap.get (App.buildPlan unloadedBundle.cart unloadedBundle.products).productStockDecrements
        (some 1) = some 2 ∧
      (unloadedBundle.cart.map
        (claimedProductContribution unloadedBundle.products (some 1))).sum = 0 := by
  constructor
  · norm_num [App.buildPlan, App.planStep, unloadedBundle.cart, unloadedBundle.products,
      App.enrichedProducts, App.enrichProduct, App.attachItems, App.attachRecipe,
      App.copyProduct, CartItem.id, JSMap.accumulate, JSMap.set, JSMap.get, jsOr]
  · norm_num [claimedProductContribution, unloadedBundle.cart, unloadedBundle.products,
      App.enrichedProducts, App.enrichProduct, App.attachItems, App.attachRecipe,
      App.copyProduct, CartItem.id]

/-- The product list built by `fetchData` carries recipes on non-bundles only. -/
theorem App.enrichedProducts_recipesOnSimpleItems (productsWithPrice : List ProductRow)
    (bundleItemsData : Option (List BundleItemRow)) (recipesData : Option (List RecipeItem))
    (formattedIngredients : List Ingredient) :
    RecipesOnSimpleItems
      (App.enrichedProducts productsWithPrice bundleItemsData recipesData
        formattedIngredients) := by
  intro p hp hb
  unfold App.enrichedProducts at hp
  obtain ⟨row, -, rfl⟩ := List.mem_map.mp hp
  obtain ⟨id, b, price, stock, pc⟩ := row
  cases b <;> cases bundleItemsData <;> cases recipesData <;>
    simp_all [App.enrichProduct, App.attachItems, App.attachRecipe, App.copyProduct]

theorem App.get_addRecipeItems (m : JSMap Nat ℚ) (rows : List RecipeItem) (q : ℚ) (I : Nat) :
    (JSMap.get (App.addRecipeItems m rows q) I).getD 0 =
      (JSMap.get m I).getD 0 +
        ((rows.filter (fun r => r.ingredient_id = I)).map (fun r => r.quantity * q)).sum := by
  rw [App.addRecipeItems_eq, JSMap.get_foldl_accumulate]

/-- One cart line adds `ingredientContribution` to every entry of the
ingredient map. -/
theorem App.planStep_ingredient (products : List Product) (h : RecipesOnSimpleItems products)
    (plan : Plan) (line : CartItem) (I : Nat) :
    (JSMap.get (App.planStep products plan line).ingredientStockDecrements I).getD 0 =
      (JSMap.get plan.ingredientStockDecrements I).getD 0 +
        ingredientContribution products I line := by
  unfold App.planStep ingredientContribution
  cases hf : products.find? (fun p => p.id = line.id) with
  | none => simp
  | some p =>
    have hmem : p ∈ products := List.mem_of_find?_eq_some hf
    have hwf := h p hmem
    obtain ⟨id, b, price, stock, pc, items, recipe⟩ := p
    cases b <;> cases items <;> rcases recipe with _ | _ | ⟨r, rs⟩ <;>
      simp_all [App.get_addRecipeItems]

theorem App.foldl_planStep_ingredient (products : List Product)
    (h : RecipesOnSimpleItems products) (cart : List CartItem) (plan : Plan) (I : Nat) :
    (JSMap.get (cart.foldl (App.planStep products) plan).ingredientStockDecrements I).getD 0 =
      (JSMap.get plan.ingredientStockDecrements I).getD 0 +
        (cart.map (ingredientContribution products I)).sum := by
  induction cart generalizing plan with
  | nil => simp
  | cons line cart ih =>
    rw [List.foldl_cons, ih, App.planStep_ingredient products h, List.map_cons, List.sum_cons,
      add_assoc]

/-- A line whose product is a non-bundle with a non-empty recipe leaves the
product map as it is. -/
theorem App.planStep_recipe_line (products : List Product) (plan : Plan) (line : CartItem)
    (p : Product) (r : RecipeItem) (rs : List RecipeItem)
    (hf : products.find? (fun p => p.id = line.id) = some p) (hb : p.is_bundle = false)
    (hr : p.recipeItems = some (r :: rs)) :
    (App.planStep products plan line).productStockDecrements = plan.productStockDecrements := by
  unfold App.planStep
  rw [hf]
  obtain ⟨id, b, price, stock, pc, items, recipe⟩ := p
  simp only at hb hr
  subst hb hr
  cases items <;> rfl

/-- C2: for every cart and every product list of the shape `fetchData` builds
(recipes on non-bundles only), the ingredient-stock map has pairwise distinct
keys and maps each ingredient `I` to the sum, over the cart lines whose product
is a non-bundle with a non-empty recipe, of `recipe quantity of I x quantity`;
such a line leaves the product-stock map unchanged. -/
theorem handleCheckout_ingredient_map (cart : List CartItem) (products : List Product)
    (h : RecipesOnSimpleItems products) :
    (JSMap.keys (App.buildPlan cart products).ingredientStockDecrements).Nodup ∧
      (∀ I : Nat,
        (JSMap.get (App.buildPlan cart products).ingredientStockDecrements I).getD 0 =
          (cart.map (ingredientContribution products I)).sum) ∧
      ∀ (plan : Plan) (line : CartItem) (p : Product) (r : RecipeItem) (rs : List RecipeItem),
        products.find? (fun p => p.id = line.id) = some p → p.is_bundle = false →
        p.recipeItems = some (r :: rs) →
        (App.planStep products plan line).productStockDecrements =
          plan.productStockDecrements := by
  refine ⟨(App.buildPlan_nodup cart products).2, fun I => ?_, ?_⟩
  · unfold App.buildPlan
    rw [App.foldl_planStep_ingredient products h]
    simp [JSMap.get]
  · intro plan line p r rs hf hb hr
    exact App.planStep_recipe_line products plan line p r rs hf hb hr

/-- Witness of C2 on scenario A with the cart `[3 x Bread]`: the entry of
Flour is the sum of the contributions. -/
theorem handleCheckout_ingredient_map_witness :
    RecipesOnSimpleItems scenarioA.products ∧
      (JSMap.get (App.buildPlan scenarioA.cart scenarioA.products).ingredientStockDecrements
        1).getD 0 = (scenarioA.cart.map (ingredientContribution scenarioA.products 1)).sum :=
  ⟨App.enrichedProducts_recipesOnSimpleItems _ _ _ _,
    (handleCheckout_ingredient_map scenarioA.cart scenarioA.products
      (App.enrichedProducts_recipesOnSimpleItems _ _ _ _)).2.1 1⟩

/-- C3: in the catalog where ComboMeal is 1 x Burger and 2 x Fries, both
without recipe, the cart `[2 x ComboMeal]` yields exactly the plan
Burger 2, Fries 4 in the product map, one entry each, and an empty ingredient
map. -/
theorem handleCheckout_scenarioC :
    App.buildPlan scenarioC.cart scenarioC.products =
      { productStockDecrements := [(some 1, 2), (some 2, 4)]
        ingredientStockDecrements := [] } := by
  norm_num [App.buildPlan, App.planStep, scenarioC.cart, scenarioC.products,
    scenarioC.productsWithPrice, scenarioC.bundleItemsData, App.enrichedProducts,
    App.enrichProduct, App.attachItems, App.attachRecipe, App.copyProduct, CartItem.id,
    App.addBundleItems, JSMap.accumulate, JSMap.set, JSMap.get, jsOr, BundleSubItem.id,
    App.recipeCost]

/-! ## Costs -/

theorem App.foldl_recipeCost (formattedIngredients : List Ingredient) (costOf : Nat → ℚ)
    (hcost : ∀ ing ∈ formattedIngredients, costOf ing.id = ing.cost_per_unit)
    (rows : List RecipeItem)
    (hpresent : ∀ r ∈ rows, ∃ ing ∈ formattedIngredients, ing.id = r.ingredient_id) (a : ℚ) :
    rows.foldl
        (fun totalCost recipeItem =>
          match formattedIngredients.find? (fun ing => ing.id = recipeItem.ingredient_id) with
          | some ingredient => totalCost + ingredient.cost_per_unit * recipeItem.quantity
          | none => totalCost)
        a =
      a + (rows.map (fun r => costOf r.ingredient_id * r.quantity)).sum := by
  induction rows generalizing a with
  | nil => simp
  | cons r rows ih =>
    have hrest : ∀ r' ∈ rows, ∃ ing ∈ formattedIngredients, ing.id = r'.ingredient_id :=
      fun r' hr' => hpresent r' (List.mem_cons_of_mem _ hr')
    obtain ⟨ing, hing, hid⟩ := hpresent r (List.mem_cons_self _ _)
    rw [List.foldl_cons, ih hrest]
    cases hf : formattedIngredients.find? (fun ing => ing.id = r.ingredient_id) with
    | none =>
      have := List.find?_eq_none.mp hf ing hing
      simp [hid] at this
    | some found =>
      have hmem : found ∈ formattedIngredients := List.mem_of_find?_eq_some hf
      have hfid : found.id = r.ingredient_id := by
        have := List.find?_some hf
        simpa using this
      have hc : found.cost_per_unit = costOf r.ingredient_id := by
        rw [← hfid, hcost found hmem]
      simp [hc, add_assoc]

/-- The cost of a recipe all of whose ingredients are in the list. -/
theorem App.recipeCost_eq_sum (formattedIngredients : List Ingredient) (costOf : Nat → ℚ)
    (hcost : ∀ ing ∈ formattedIngredients, costOf ing.id = ing.cost_per_unit)
    (rows : List RecipeItem)
    (hpresent : ∀ r ∈ rows, ∃ ing ∈ formattedIngredients, ing.id = r.ingredient_id) :
    App.recipeCost formattedIngredients rows =
      (rows.map (fun r => costOf r.ingredient_id * r.quantity)).sum := by
  unfold App.recipeCost
  rw [App.foldl_recipeCost formattedIngredients costOf hcost rows hpresent]
  simp

/-- What `fetchData` makes of a non-bundle row when the recipes are loaded. -/
theorem App.enrichProduct_simple (productsWithPrice : List ProductRow)
    (bundleItemsData : Option (List BundleItemRow)) (recipesData : List RecipeItem)
    (formattedIngredients : List Ingredient) (row : ProductRow) (hnb : row.is_bundle = false) :
    App.enrichProduct productsWithPrice bundleItemsData (some recipesData) formattedIngredients
        row =
      { id := row.id, is_bundle := false, price := row.price, stock := row.stock
        production_cost := some (App.recipeCost formattedIngredients
          (recipesData.filter (fun r => r.product_id = row.id)))
        items := none
        recipeItems := some (recipesData.filter (fun r => r.product_id = row.id)) } := by
  obtain ⟨id, b, price, stock, pc⟩ := row
  simp only at hnb
  subst hnb
  cases bundleItemsData <;>
    simp [App.enrichProduct, App.attachItems, App.attachRecipe, App.copyProduct]

/-- C4: in every catalog load (recipes loaded), a non-bundle product whose
recipe rows all reference ingredients of the list gets as `production_cost`
the sum over its recipe rows of `ingredient.cost_per_unit x row.quantity`
(`costOf` gives the cost per unit of each ingredient id); with Flour at 2.00
and a Bread recipe of 0.5 Flour, the cost of Bread is 1.00. -/
theorem fetchData_production_cost (productsWithPrice : List ProductRow)
    (bundleItemsData : Option (List BundleItemRow)) (recipesData : List RecipeItem)
    (formattedIngredients : List Ingredient) (costOf : Nat → ℚ) (product : Product)
    (hp : product ∈ App.enrichedProducts productsWithPrice bundleItemsData (some recipesData)
      formattedIngredients)
    (hnb : product.is_bundle = false)
    (hpresent : ∀ r ∈ recipesData, r.product_id = product.id →
      ∃ ing ∈ formattedIngredients, ing.id = r.ingredient_id)
    (hcost : ∀ ing ∈ formattedIngredients, costOf ing.id = ing.cost_per_unit) :
    product.production_cost =
        some (((recipesData.filter (fun r => r.product_id = product.id)).map
          (fun r => costOf r.ingredient_id * r.quantity)).sum) ∧
      scenarioA.products.map Product.production_cost = [some 1] := by
  constructor
  · unfold App.enrichedProducts at hp
    obtain ⟨row, -, rfl⟩ := List.mem_map.mp hp
    have hrow : row.is_bundle = false := by
      obtain ⟨id, b, price, stock, pc⟩ := row
      cases b
      · rfl
      · cases bundleItemsData <;>
          simp [App.enrichProduct, App.attachItems, App.attachRecipe, App.copyProduct] at hnb
    rw [App.enrichProduct_simple _ _ _ _ _ hrow] at hpresent ⊢
    simp only at hpresent ⊢
    rw [App.recipeCost_eq_sum formattedIngredients costOf hcost]
    intro r hr
    rw [List.mem_filter] at hr
    exact hpresent r hr.1 (by simpa using hr.2)
  · norm_num [scenarioA.products, scenarioA.bread, scenarioA.recipesData,
      scenarioA.formattedIngredients, App.enrichedProducts, App.enrichProduct,
      App.attachItems, App.attachRecipe, App.copyProduct, App.recipeCost]

/-- Witness of C4 on scenario A: Bread, its one recipe row of 0.5 Flour, and
Flour at 2.00 per unit. -/
theorem fetchData_production_cost_witness :
    (App.enrichProduct [scenarioA.bread] (some []) (some scenarioA.recipesData)
        scenarioA.formattedIngredients scenarioA.bread).production_cost =
      some (((scenarioA.recipesData.filter (fun r => r.product_id = 1)).map
        (fun r => (2 : ℚ) * r.quantity)).sum) :=
  (fetchData_production_cost [scenarioA.bread] (some []) scenarioA.recipesData
    scenarioA.formattedIngredients (fun _ => 2)
    (App.enrichProduct [scenarioA.bread] (some []) (some scenarioA.recipesData)
      scenarioA.formattedIngredients scenarioA.bread)
    (by simp [App.enrichedProducts])
    (by simp [App.enrichProduct, App.attachItems, App.attachRecipe, App.copyProduct,
      scenarioA.bread])
    (by simp [scenarioA.recipesData, scenarioA.formattedIngredients])
    (by simp [scenarioA.formattedIngredients])).1

/-- C5 (divergence): in scenario B the catalog built by `fetchData` gives
Burger the cost 3.00 and Fries the cost 1.00, and `ReportsView.getUnitCost`
of ComboMeal is 5.00, but `POSView.getUnitCost` of ComboMeal is 0: the items of
a bundle are copies of the rows of `productsWithPrice`, which do not carry the
computed `production_cost`. -/
theorem POSView_getUnitCost_scenarioB :
    scenarioB.products.map Product.production_cost = [some 3, some 1, none] ∧
      scenarioB.products.map
          (fun p => ReportsView.getUnitCost scenarioB.products (some p)) = [3, 1, 5] ∧
      scenarioB.products.map (POSView.getUnitCost scenarioB.formattedIngredients) =
        [3, 1, 0] := by
  refine ⟨?_, ?_, ?_⟩
  · norm_num [scenarioB.products, scenarioB.productsWithPrice, scenarioB.bundleItemsData,
      scenarioB.recipesData, scenarioB.formattedIngredients, App.enrichedProducts,
      App.enrichProduct, App.attachItems, App.attachRecipe, App.copyProduct, App.recipeCost]
  · norm_num [scenarioB.products, scenarioB.productsWithPrice, scenarioB.bundleItemsData,
      scenarioB.recipesData, scenarioB.formattedIngredients, App.enrichedProducts,
      App.enrichProduct, App.attachItems, App.attachRecipe, App.copyProduct, App.recipeCost,
      ReportsView.getUnitCost, ReportsView.childCost, ReportsView.child, ReportsView.byId,
      BundleSubItem.id, JSMap.get, JSMap.set, jsNullish]
  · norm_num [scenarioB.products, scenarioB.productsWithPrice, scenarioB.bundleItemsData,
      scenarioB.recipesData, scenarioB.formattedIngredients, App.enrichedProducts,
      App.enrichProduct, App.attachItems, App.attachRecipe, App.copyProduct, App.recipeCost,
      POSView.getUnitCost, POSView.ingredientsMap, BundleSubItem.production_cost,
      JSMap.get, JSMap.set, jsOr]

theorem JSMap.get_foldl_set {α κ : Type} [DecidableEq κ] (key : α → κ) (xs : List α)
    (m : JSMap κ α) (k : κ) (c : α)
    (h : JSMap.get (xs.foldl (fun map x => JSMap.set map (key x) x) m) k = some c) :
    (c ∈ xs ∧ key c = k) ∨ JSMap.get m k = some c := by
  induction xs generalizing m with
  | nil => exact Or.inr h
  | cons x xs ih =>
    rw [List.foldl_cons] at h
    rcases ih _ h with ⟨hc, hk⟩ | h'
    · exact Or.inl ⟨List.mem_cons_of_mem _ hc, hk⟩
    · rw [JSMap.get_set] at h'
      by_cases hx : key x = k
      · rw [if_pos hx] at h'
        have hxc : x = c := Option.some.inj h'
        subst hxc
        exact Or.inl ⟨List.mem_cons_self _ _, hx⟩
      · rw [if_neg hx] at h'
        exact Or.inr h'

/-- A product found in the index `byId` is a product of the list, with the
id looked up. -/
theorem ReportsView.byId_get (allProducts : List Product) (id : Nat) (c : Product)
    (h : JSMap.get (ReportsView.byId allProducts) id = some c) :
    c ∈ allProducts ∧ c.id = id := by
  unfold ReportsView.byId at h
  rcases JSMap.get_foldl_set Product.id allProducts [] id c h with h' | h'
  · exact h'
  · simp [JSMap.get] at h'

theorem ReportsView.foldl_childCost (allProducts : List Product) (items : List BundleSubItem)
    (a : ℚ) :
    items.foldl
        (fun sum bi => sum + ReportsView.childCost allProducts bi * bi.quantityInBundle) a =
      a + (items.map
        (fun bi => ReportsView.childCost allProducts bi * bi.quantityInBundle)).sum := by
  induction items generalizing a with
  | nil => simp
  | cons bi items ih =>
    rw [List.foldl_cons, ih, List.map_cons, List.sum_cons, add_assoc]

/-- C7: a non-bundle product without recipe rows gets `production_cost` 0
from `fetchData` (recipes loaded), and `POSView.getUnitCost` of it is 0,
whatever the list of ingredients. -/
theorem simple_item_without_recipe_costs_zero (productsWithPrice : List ProductRow)
    (bundleItemsData : Option (List BundleItemRow)) (recipesData : List RecipeItem)
    (formattedIngredients ingredients : List Ingredient) (product : ProductRow)
    (hnb : product.is_bundle = false)
    (hnone : ∀ r ∈ recipesData, r.product_id ≠ product.id) :
    (App.enrichProduct productsWithPrice bundleItemsData (some recipesData)
        formattedIngredients product).production_cost = some 0 ∧
      POSView.getUnitCost ingredients
        (App.enrichProduct productsWithPrice bundleItemsData (some recipesData)
          formattedIngredients product) = 0 := by
  have hfilter : recipesData.filter (fun r => r.product_id = product.id) = [] := by
    rw [List.filter_eq_nil_iff]
    intro r hr
    simpa using hnone r hr
  rw [App.enrichProduct_simple _ _ _ _ _ hnb, hfilter]
  constructor
  · simp [App.recipeCost]
  · simp [POSView.getUnitCost, App.recipeCost, jsOr]

/-- Witness of C7: Burger of scenario C, a non-bundle with no recipe row. -/
theorem simple_item_without_recipe_costs_zero_witness :
    POSView.getUnitCost scenarioA.formattedIngredients
      (App.enrichProduct scenarioC.productsWithPrice (some scenarioC.bundleItemsData)
        (some []) []
        { id := 1, is_bundle := false, price := 8, stock := 10, production_cost := none }) = 0 :=
  (simple_item_without_recipe_costs_zero scenarioC.productsWithPrice
    (some scenarioC.bundleItemsData) [] [] scenarioA.formattedIngredients
    { id := 1, is_bundle := false, price := 8, stock := 10, production_cost := none }
    rfl (by simp)).2

/-! ## The handler `handleCheckout` -/

theorem App.planStep_unknown (products : List Product) (plan : Plan) (line : CartItem)
    (h : (products.find? (fun p => p.id = line.id)).isSome = false) :
    App.planStep products plan line = plan := by
  unfold App.planStep
  cases hf : products.find? (fun p => p.id = line.id) with
  | none => rfl
  | some p => rw [hf] at h; simp at h

theorem App.foldl_planStep_knownLines (products : List Product) (cart : List CartItem)
    (plan : Plan) :
    cart.foldl (App.planStep products) plan =
      (knownLines cart products).foldl (App.planStep products) plan := by
  induction cart generalizing plan with
  | nil => rfl
  | cons line cart ih =>
    unfold knownLines at ih ⊢
    cases h : (products.find? (fun p => p.id = line.id)).isSome with
    | true =>
      rw [List.filter_cons_of_pos (by simpa using h), List.foldl_cons, List.foldl_cons, ih]
    | false =>
      rw [List.filter_cons_of_neg (by simp [h]), List.foldl_cons,
        App.planStep_unknown products plan line h, ih]

/-- What `handleCheckout` does once the cart is not empty and both inserts
succeeded. -/
theorem App.handleCheckout_settled (cart : List CartItem) (products : List Product)
    (paymentMethod : String) (store : StoreReplies) (transaction_id : Nat) (hne : cart ≠ [])
    (ht : store.transaction = some transaction_id) (hi : store.itemsError = false) :
    App.handleCheckout cart products paymentMethod store =
      { calls := [Call.insertTransaction (App.subtotal cart) paymentMethod,
          Call.insertTransactionItems (App.transactionItems transaction_id cart)] ++
          App.decrementCalls (App.buildPlan cart products) ++ [Call.fetchData]
        cart := [], toast := some Toast.checkoutSuccessful } := by
  have hlen : ¬ cart.length = 0 := fun h => hne (List.length_eq_zero.mp h)
  unfold App.handleCheckout
  rw [if_neg hlen]
  simp only [ht, hi]
  rfl

/-- C8 as stated fails: with a first line whose product (9) is not in the
product list, the checkout still records the sale, issues the decrement call of
the other line (`2 x Burger`), empties the cart and reports success. -/
theorem handleCheckout_unknown_line_not_aborted :
    App.handleCheckout unknownLine.cart scenarioC.products cash acceptingStore =
      { calls := [Call.insertTransaction 21 cash,
          Call.insertTransactionItems
            [ { transaction_id := 7, product_id := 9, quantity := 1, price_at_sale := 5 },
              { transaction_id := 7, product_id := 1, quantity := 2, price_at_sale := 8 } ],
          Call.decrement_stock (some 1) 2, Call.fetchData]
        cart := [], toast := some Toast.checkoutSuccessful } := by
  rw [App.handleCheckout_settled unknownLine.cart scenarioC.products cash acceptingStore 7
    (by simp [unknownLine.cart]) rfl rfl]
  norm_num [App.subtotal, App.transactionItems, App.decrementCalls, App.buildPlan,
    App.planStep, unknownLine.cart, scenarioC.products, scenarioC.productsWithPrice,
    scenarioC.bundleItemsData, App.enrichedProducts, App.enrichProduct, App.attachItems,
    App.attachRecipe, App.copyProduct, CartItem.id, CartItem.price, JSMap.accumulate,
    JSMap.set, JSMap.get, jsOr, App.recipeCost]

/-- C8 (amended): a cart line whose product id is not found is skipped: the
plan of a cart is the plan of its lines that are found, and once the cart is
not empty and both inserts succeeded, the decrement calls of those lines are
issued, the cart is emptied and the checkout is reported successful. -/
theorem handleCheckout_skips_unknown_lines (cart : List CartItem) (products : List Product)
    (paymentMethod : String) (store : StoreReplies) (transaction_id : Nat) (hne : cart ≠ [])
    (ht : store.transaction = some transaction_id) (hi : store.itemsError = false) :
    App.buildPlan cart products = App.buildPlan (knownLines cart products) products ∧
      App.handleCheckout cart products paymentMethod store =
        { calls := [Call.insertTransaction (App.subtotal cart) paymentMethod,
            Call.insertTransactionItems (App.transactionItems transaction_id cart)] ++
            App.decrementCalls (App.buildPlan (knownLines cart products) products) ++
            [Call.fetchData]
          cart := [], toast := some Toast.checkoutSuccessful } := by
  have hplan : App.buildPlan cart products =
      App.buildPlan (knownLines cart products) products := by
    unfold App.buildPlan
    exact App.foldl_planStep_knownLines products cart _
  refine ⟨hplan, ?_⟩
  rw [App.handleCheckout_settled cart products paymentMethod store transaction_id hne ht hi,
    ← hplan]

/-- Witness of C8 (amended): the cart with an unknown first line. -/
theorem handleCheckout_skips_unknown_lines_witness :
    App.buildPlan unknownLine.cart scenarioC.products =
      App.buildPlan (knownLines unknownLine.cart scenarioC.products) scenarioC.products :=
  (handleCheckout_skips_unknown_lines unknownLine.cart scenarioC.products cash acceptingStore 7
    (by simp [unknownLine.cart]) rfl rfl).1

/-- C9 as stated fails: in scenario C with a store whose decrement calls all
report an error, the call for Burger is issued, its reply carries an error, and
the checkout is reported successful with an emptied cart. -/
theorem handleCheckout_ignores_failed_decrement :
    Call.decrement_stock (some 1) 2 ∈
        (App.handleCheckout scenarioC.cart scenarioC.products cash refusingStore).calls ∧
      refusingStore.rpcError (Call.decrement_stock (some 1) 2) = true ∧
      (App.handleCheckout scenarioC.cart scenarioC.products cash refusingStore).toast =
        some Toast.checkoutSuccessful ∧
      (App.handleCheckout scenarioC.cart scenarioC.products cash refusingStore).cart = [] := by
  rw [App.handleCheckout_settled scenarioC.cart scenarioC.products cash refusingStore 7
    (by simp [scenarioC.cart]) rfl rfl]
  refine ⟨?_, rfl, rfl, rfl⟩
  norm_num [App.decrementCalls, App.buildPlan, App.planStep, scenarioC.cart,
    scenarioC.products, scenarioC.productsWithPrice, scenarioC.bundleItemsData,
    App.enrichedProducts, App.enrichProduct, App.attachItems, App.attachRecipe,
    App.copyProduct, CartItem.id, App.addBundleItems, JSMap.accumulate, JSMap.set, JSMap.get,
    jsOr, BundleSubItem.id, App.recipeCost]

/-- C9 (amended): `handleCheckout` does not read the replies of the decrement
calls: two stores that differ only in those replies give the same outcome, and
once the cart is not empty and both inserts succeeded the outcome is an emptied
cart and the toast of success, whatever the decrement calls report. -/
theorem handleCheckout_outcome_independent_of_decrement_replies (cart : List CartItem)
    (products : List Product) (paymentMethod : String) (transaction : Option Nat)
    (itemsError : Bool) (rpcError rpcError' : Call → Bool) :
    App.handleCheckout cart products paymentMethod
        { transaction := transaction, itemsError := itemsError, rpcError := rpcError } =
      App.handleCheckout cart products paymentMethod
        { transaction := transaction, itemsError := itemsError, rpcError := rpcError' } ∧
    (cart ≠ [] → transaction.isSome = true → itemsError = false →
      (App.handleCheckout cart products paymentMethod
        { transaction := transaction, itemsError := itemsError, rpcError := rpcError }).toast =
          some Toast.checkoutSuccessful ∧
      (App.handleCheckout cart products paymentMethod
        { transaction := transaction, itemsError := itemsError, rpcError := rpcError }).cart =
          []) := by
  refine ⟨rfl, fun hne ht hi => ?_⟩
  obtain ⟨tid, rfl⟩ := Option.isSome_iff_exists.mp ht
  rw [App.handleCheckout_settled cart products paymentMethod _ tid hne rfl hi]
  exact ⟨rfl, rfl⟩

/-- Witness of C9 (amended): scenario C with a store that refuses every
decrement. -/
theorem handleCheckout_outcome_independent_of_decrement_replies_witness :
    (App.handleCheckout scenarioC.cart scenarioC.products cash
        { transaction := some 7, itemsError := false, rpcError := fun _ => true }).toast =
      some Toast.checkoutSuccessful :=
  ((handleCheckout_outcome_independent_of_decrement_replies scenarioC.cart scenarioC.products
    cash (some 7) false (fun _ => true) (fun _ => false)).2
    (by simp [scenarioC.cart]) rfl rfl).1

theorem JSMap.get_eq_none_of_not_mem {κ ν : Type} [DecidableEq κ] (m : JSMap κ ν) (k : κ)
    (h : k ∉ JSMap.keys m) : JSMap.get m k = none := by
  rw [JSMap.mem_keys_iff] at h
  cases hg : JSMap.get m k with
  | none => rfl
  | some v => rw [hg] at h; simp at h

/-- In the calls made from the entries of a map with pairwise distinct keys,
the call for `(k, q)` occurs once when the map sends `k` to `q`, never
otherwise. -/
theorem JSMap.count_calls {κ : Type} [DecidableEq κ] (mk : κ → ℚ → Call)
    (hmk : ∀ a b a' b', mk a b = mk a' b' → a = a' ∧ b = b') (m : JSMap κ ℚ)
    (hnd : (JSMap.keys m).Nodup) (k : κ) (q : ℚ) :
    (m.map (fun e => mk e.1 e.2)).count (mk k q) =
      if JSMap.get m k = some q then 1 else 0 := by
  induction m with
  | nil => simp [JSMap.get]
  | cons e m ih =>
    obtain ⟨a, b⟩ := e
    have hk : JSMap.keys ((a, b) :: m) = a :: JSMap.keys m := rfl
    rw [hk, List.nodup_cons] at hnd
    rw [List.map_cons, List.count_cons, ih hnd.2]
    by_cases h1 : a = k
    · subst h1
      rw [JSMap.get_eq_none_of_not_mem m a hnd.1]
      by_cases h2 : b = q
      · subst h2
        simp [JSMap.get]
      · have hne : ¬ mk a b = mk a q := fun h => h2 (hmk _ _ _ _ h).2
        simp [JSMap.get, h2, hne]
    · have hne : ¬ mk a b = mk k q := fun h => h1 (hmk _ _ _ _ h).1
      simp [JSMap.get, h1, hne]

/-- C10: once the cart is not empty and both inserts succeeded,
`handleCheckout` issues, for every key of the product map, exactly one
`decrement_stock` call, carrying the quantity of that key, and for every key of
the ingredient map exactly one `decrement_ingredient_stock` call, carrying the
quantity of that key; it issues no other decrement call. -/
theorem handleCheckout_one_call_per_key (cart : List CartItem) (products : List Product)
    (paymentMethod : String) (store : StoreReplies) (transaction_id : Nat) (hne : cart ≠ [])
    (ht : store.transaction = some transaction_id) (hi : store.itemsError = false) :
    (∀ (k : Option Nat) (q : ℚ),
      (App.handleCheckout cart products paymentMethod store).calls.count
          (Call.decrement_stock k q) =
        if JSMap.get (App.buildPlan cart products).productStockDecrements k = some q
        then 1 else 0) ∧
    (∀ (k : Nat) (q : ℚ),
      (App.handleCheckout cart products paymentMethod store).calls.count
          (Call.decrement_ingredient_stock k q) =
        if JSMap.get (App.buildPlan cart products).ingredientStockDecrements k = some q
        then 1 else 0) := by
  rw [App.handleCheckout_settled cart products paymentMethod store transaction_id hne ht hi]
  obtain ⟨hp, hg⟩ := App.buildPlan_nodup cart products
  constructor
  · intro k q
    have hc := JSMap.count_calls Call.decrement_stock
      (fun a b a' b' h => by injection h with h1 h2; exact ⟨h1, h2⟩)
      (App.buildPlan cart products).productStockDecrements hp k q
    have h0 : ((App.buildPlan cart products).ingredientStockDecrements.map
        (fun e => Call.decrement_ingredient_stock e.1 e.2)).count
          (Call.decrement_stock k q) = 0 := by
      rw [List.count_eq_zero]
      simp
    simp only [App.decrementCalls, List.count_append, hc, h0]
    simp [List.count_cons]
  · intro k q
    have hc := JSMap.count_calls Call.decrement_ingredient_stock
      (fun a b a' b' h => by injection h with h1 h2; exact ⟨h1, h2⟩)
      (App.buildPlan cart products).ingredientStockDecrements hg k q
    have h0 : ((App.buildPlan cart products).productStockDecrements.map
        (fun e => Call.decrement_stock e.1 e.2)).count
          (Call.decrement_ingredient_stock k q) = 0 := by
      rw [List.count_eq_zero]
      simp
    simp only [App.decrementCalls, List.count_append, hc, h0]
    simp [List.count_cons]

/-- Witness of C10 on scenario C: the call for Fries with quantity 4 is
issued as often as the product map sends Fries to 4. -/
theorem handleCheckout_one_call_per_key_witness :
    (App.handleCheckout scenarioC.cart scenarioC.products cash acceptingStore).calls.count
        (Call.decrement_stock (some 2) 4) =
      if JSMap.get (App.buildPlan scenarioC.cart scenarioC.products).productStockDecrements
        (some 2) = some 4 then 1 else 0 :=
  (handleCheckout_one_call_per_key scenarioC.cart scenarioC.products cash acceptingStore 7
    (by simp [scenarioC.cart]) rfl rfl).1 (some 2) 4

/-! ## Dangling references and nested bundles -/

/-- C11 as stated fails: the load with a recipe row for the absent ingredient
99 and a bundle row for the absent product 77 yields an ordinary product list
and no fault; Bread costs 1.00, the row of ingredient 99 counting for nothing,
and Box has an item without details. -/
theorem fetchData_dangling_rows_raise_no_fault :
    dangling.products =
      [ { id := 1, is_bundle := false, price := 5, stock := 4, production_cost := some 1
          items := none
          recipeItems := some
            [ { product_id := 1, ingredient_id := 1, quantity := 1 / 2 },
              { product_id := 1, ingredient_id := 99, quantity := 3 } ] },
        { id := 2, is_bundle := true, price := 9, stock := 0, production_cost := none
          items := some
            [ { productDetails := some
                  { id := 1, is_bundle := false, price := 5, stock := 4
                    production_cost := none }
                quantityInBundle := 1 },
              { productDetails := none, quantityInBundle := 2 } ]
          recipeItems := none } ] := by
  norm_num [dangling.products, dangling.productsWithPrice, dangling.recipesData,
    dangling.bundleItemsData, scenarioA.formattedIngredients, App.enrichedProducts,
    App.enrichProduct, App.attachItems, App.attachRecipe, App.copyProduct, App.recipeCost]

theorem App.foldl_recipeCost_present (formattedIngredients : List Ingredient)
    (rows : List RecipeItem) (a : ℚ) :
    rows.foldl
        (fun totalCost recipeItem =>
          match formattedIngredients.find? (fun ing => ing.id = recipeItem.ingredient_id) with
          | some ingredient => totalCost + ingredient.cost_per_unit * recipeItem.quantity
          | none => totalCost)
        a =
      (rows.filter (fun r =>
          (formattedIngredients.find? (fun ing => ing.id = r.ingredient_id)).isSome)).foldl
        (fun totalCost recipeItem =>
          match formattedIngredients.find? (fun ing => ing.id = recipeItem.ingredient_id) with
          | some ingredient => totalCost + ingredient.cost_per_unit * recipeItem.quantity
          | none => totalCost)
        a := by
  induction rows generalizing a with
  | nil => rfl
  | cons r rows ih =>
    cases hf : formattedIngredients.find? (fun ing => ing.id = r.ingredient_id) with
    | none =>
      rw [List.filter_cons_of_neg (by simp [hf]), List.foldl_cons, hf]
      exact ih a
    | some ing =>
      rw [List.filter_cons_of_pos (by simp [hf]), List.foldl_cons, List.foldl_cons, hf]
      exact ih _

/-- The cost of a recipe is the cost of its rows whose ingredient is in the
list. -/
theorem App.recipeCost_present (formattedIngredients : List Ingredient)
    (rows : List RecipeItem) :
    App.recipeCost formattedIngredients rows =
      App.recipeCost formattedIngredients
        (rows.filter (fun r =>
          (formattedIngredients.find? (fun ing => ing.id = r.ingredient_id)).isSome)) := by
  unfold App.recipeCost
  exact App.foldl_recipeCost_present formattedIngredients rows 0

/-- What `fetchData` makes of a bundle row when the bundle rows are loaded. -/
theorem App.enrichProduct_bundle (productsWithPrice : List ProductRow)
    (bundleItemsData : List BundleItemRow) (recipesData : Option (List RecipeItem))
    (formattedIngredients : List Ingredient) (row : ProductRow) (hb : row.is_bundle = true) :
    App.enrichProduct productsWithPrice (some bundleItemsData) recipesData formattedIngredients
        row =
      { id := row.id, is_bundle := true, price := row.price, stock := row.stock
        production_cost := row.production_cost
        items := some ((bundleItemsData.filter
          (fun item => item.bundle_product_id = row.id)).map
            (fun bundleItem =>
              { productDetails :=
                  productsWithPrice.find? (fun p => p.id = bundleItem.item_product_id)
                quantityInBundle := bundleItem.quantity }))
        recipeItems := none } := by
  obtain ⟨id, b, price, stock, pc⟩ := row
  simp only at hb
  subst hb
  cases recipesData <;>
    simp [App.enrichProduct, App.attachItems, App.attachRecipe, App.copyProduct]

/-- C11 (amended): a catalog load raises no fault and builds one product per
row of `products`. A non-bundle keeps all its recipe rows, and its
`production_cost` is the cost of the rows whose ingredient is in the list: a
row with an absent ingredient counts for nothing. A bundle gets one item per
bundle row, with the quantities of the rows, and a row whose product is absent
yields the item that carries only `quantityInBundle`. -/
theorem fetchData_keeps_dangling_rows (productsWithPrice : List ProductRow)
    (bundleItemsData : List BundleItemRow) (recipesData : List RecipeItem)
    (formattedIngredients : List Ingredient) :
    (App.enrichedProducts productsWithPrice (some bundleItemsData) (some recipesData)
        formattedIngredients).map Product.id = productsWithPrice.map ProductRow.id ∧
    (∀ row : ProductRow, row.is_bundle = false →
      (App.enrichProduct productsWithPrice (some bundleItemsData) (some recipesData)
          formattedIngredients row).recipeItems =
        some (recipesData.filter (fun r => r.product_id = row.id)) ∧
      (App.enrichProduct productsWithPrice (some bundleItemsData) (some recipesData)
          formattedIngredients row).production_cost =
        some (App.recipeCost formattedIngredients
          ((recipesData.filter (fun r => r.product_id = row.id)).filter (fun r =>
            (formattedIngredients.find? (fun ing => ing.id = r.ingredient_id)).isSome)))) ∧
    (∀ row : ProductRow, row.is_bundle = true →
      ∃ items : List BundleSubItem,
        (App.enrichProduct productsWithPrice (some bundleItemsData) (some recipesData)
          formattedIngredients row).items = some items ∧
        items.map BundleSubItem.quantityInBundle =
          (bundleItemsData.filter (fun item => item.bundle_product_id = row.id)).map
            BundleItemRow.quantity ∧
        ∀ bundleItem ∈ bundleItemsData, bundleItem.bundle_product_id = row.id →
          (∀ p ∈ productsWithPrice, p.id ≠ bundleItem.item_product_id) →
          { productDetails := none, quantityInBundle := bundleItem.quantity } ∈ items) := by
  refine ⟨?_, ?_, ?_⟩
  · unfold App.enrichedProducts
    rw [List.map_map]
    apply List.map_congr_left
    intro row _
    obtain ⟨id, b, price, stock, pc⟩ := row
    cases b <;>
      simp [App.enrichProduct, App.attachItems, App.attachRecipe, App.copyProduct]
  · intro row hnb
    rw [App.enrichProduct_simple _ _ _ _ _ hnb]
    exact ⟨rfl, by rw [← App.recipeCost_present]⟩
  · intro row hb
    rw [App.enrichProduct_bundle _ _ _ _ _ hb]
    refine ⟨_, rfl, ?_, ?_⟩
    · rw [List.map_map]
      rfl
    · intro bundleItem hmem hid habsent
      rw [List.mem_map]
      refine ⟨bundleItem, ?_, ?_⟩
      · rw [List.mem_filter]
        exact ⟨hmem, by simpa using hid⟩
      · have hnone : productsWithPrice.find? (fun p => p.id = bundleItem.item_product_id) =
            none := by
          rw [List.find?_eq_none]
          intro p hp
          simpa using habsent p hp
        rw [hnone]

/-- Witness of C11 (amended) on the dangling load: Bread keeps both recipe
rows, and its cost is the cost of the rows whose ingredient is in the list. -/
theorem fetchData_keeps_dangling_rows_witness :
    (App.enrichProduct dangling.productsWithPrice (some dangling.bundleItemsData)
        (some dangling.recipesData) scenarioA.formattedIngredients
        { id := 1, is_bundle := false, price := 5, stock := 4,
          production_cost := none }).recipeItems =
      some (dangling.recipesData.filter (fun r => r.product_id = 1)) ∧
    (App.enrichProduct dangling.productsWithPrice (some dangling.bundleItemsData)
        (some dangling.recipesData) scenarioA.formattedIngredients
        { id := 1, is_bundle := false, price := 5, stock := 4,
          production_cost := none }).production_cost =
      some (App.recipeCost scenarioA.formattedIngredients
        ((dangling.recipesData.filter (fun r => r.product_id = 1)).filter (fun r =>
          (scenarioA.formattedIngredients.find?
            (fun ing => ing.id = r.ingredient_id)).isSome))) :=
  (fetchData_keeps_dangling_rows dangling.productsWithPrice dangling.bundleItemsData
    dangling.recipesData scenarioA.formattedIngredients).2.1
    { id := 1, is_bundle := false, price := 5, stock := 4, production_cost := none } rfl

theorem POSView.foldl_bundle_cost (items : List BundleSubItem) (a : ℚ) :
    items.foldl
        (fun sum sub => sum + jsOr sub.production_cost 0 * jsOr (some sub.quantityInBundle) 1)
        a =
      a + (items.map
        (fun sub => jsOr sub.production_cost 0 * jsOr (some sub.quantityInBundle) 1)).sum := by
  induction items generalizing a with
  | nil => simp
  | cons sub items ih =>
    rw [List.foldl_cons, ih, List.map_cons, List.sum_cons, add_assoc]

/-- C12 as stated fails: in the nested load Mega is a bundle whose component
Combo is itself a bundle, and both cost functions return a number for it (0,
Combo having no `production_cost`) instead of failing. -/
theorem getUnitCost_nested_bundle_returns_number :
    nested.mega.items =
        some [ { productDetails := some
                   { id := 2, is_bundle := true, price := 6, stock := 0
                     production_cost := none }
                 quantityInBundle := 2 } ] ∧
      (nested.products.map (fun p => (p.id, p.is_bundle))) =
        [(1, false), (2, true), (3, true)] ∧
      POSView.getUnitCost scenarioB.formattedIngredients nested.mega = 0 ∧
      ReportsView.getUnitCost nested.products (some nested.mega) = 0 := by
  refine ⟨?_, ?_, ?_, ?_⟩
  · norm_num [nested.mega, nested.productsWithPrice, nested.bundleItemsData,
      App.enrichProduct, App.attachItems, App.attachRecipe, App.copyProduct]
  · norm_num [nested.products, nested.productsWithPrice, nested.bundleItemsData,
      nested.recipesData, App.enrichedProducts, App.enrichProduct, App.attachItems,
      App.attachRecipe, App.copyProduct]
  · norm_num [nested.mega, nested.productsWithPrice, nested.bundleItemsData,
      App.enrichProduct, App.attachItems, App.attachRecipe, App.copyProduct,
      POSView.getUnitCost, BundleSubItem.production_cost, jsOr]
  · norm_num [nested.mega, nested.products, nested.productsWithPrice,
      nested.bundleItemsData, nested.recipesData, scenarioB.formattedIngredients,
      App.enrichedProducts, App.enrichProduct, App.attachItems, App.attachRecipe,
      App.copyProduct, App.recipeCost, ReportsView.getUnitCost, ReportsView.childCost,
      ReportsView.child, ReportsView.byId, BundleSubItem.id, JSMap.get, JSMap.set,
      jsNullish]

/-- C12 (amended): for every bundle carrying an `items` list, whatever its
components are (bundles included), both cost functions return the flat sum
over the items: `POSView.getUnitCost` the sum of
`(sub.production_cost || 0) x (sub.quantityInBundle || 1)`, and
`ReportsView.getUnitCost` the sum of
`(child?.production_cost ?? 0) x quantityInBundle`; a component that is a
bundle is neither rejected nor expanded. -/
theorem getUnitCost_bundle_flat_sum (allProducts : List Product)
    (ingredients : List Ingredient) (product : Product) (items : List BundleSubItem)
    (hb : product.is_bundle = true) (hi : product.items = some items) :
    POSView.getUnitCost ingredients product =
        (items.map
          (fun sub =>
            jsOr sub.production_cost 0 * jsOr (some sub.quantityInBundle) 1)).sum ∧
      ReportsView.getUnitCost allProducts (some product) =
        (items.map
          (fun bi => ReportsView.childCost allProducts bi * bi.quantityInBundle)).sum := by
  obtain ⟨id, b, price, stock, pc, its, recipe⟩ := product
  simp only at hb hi
  subst hb hi
  constructor
  · simp [POSView.getUnitCost, POSView.foldl_bundle_cost]
  · simp [ReportsView.getUnitCost, ReportsView.foldl_childCost]

/-- Witness of C12 (amended): Mega of the nested load. -/
theorem getUnitCost_bundle_flat_sum_witness :
    POSView.getUnitCost scenarioB.formattedIngredients nested.mega =
      ([ { productDetails := some
             { id := 2, is_bundle := true, price := 6, stock := 0, production_cost := none }
           quantityInBundle := 2 } ].map
        (fun sub : BundleSubItem =>
          jsOr sub.production_cost 0 * jsOr (some sub.quantityInBundle) 1)).sum :=
  (getUnitCost_bundle_flat_sum nested.products scenarioB.formattedIngredients nested.mega
    [ { productDetails := some
          { id := 2, is_bundle := true, price := 6, stock := 0, production_cost := none }
        quantityInBundle := 2 } ]
    (by simp [nested.mega, App.enrichProduct, App.attachItems, App.attachRecipe,
      App.copyProduct])
    (by simp [nested.mega, nested.productsWithPrice, nested.bundleItemsData,
      App.enrichProduct, App.attachItems, App.attachRecipe, App.copyProduct])).1

/-- C13: checkout of a cart with zero lines does nothing: `handleCheckout`
issues no call at all (no transaction, no items, no decrement, no reload),
shows no toast, and leaves the cart empty; the plan of the empty cart has no
entry. -/
theorem handleCheckout_empty_cart (products : List Product) (paymentMethod : String)
    (store : StoreReplies) :
    App.handleCheckout [] products paymentMethod store =
        { calls := [], cart := [], toast := none } ∧
      App.buildPlan [] products =
        { productStockDecrements := [], ingredientStockDecrements := [] } ∧
      App.decrementCalls (App.buildPlan [] products) = [] :=
  ⟨rfl, rfl, rfl⟩

/-! ## The plan does not read stock counters -/

theorem BundleSubItem.id_eraseStock (sub : BundleSubItem) :
    (BundleSubItem.eraseStock sub).id = sub.id := by
  obtain ⟨details, q⟩ := sub
  cases details <;> rfl

theorem App.addBundleItems_eraseStock (m : JSMap (Option Nat) ℚ) (items : List BundleSubItem)
    (q : ℚ) :
    App.addBundleItems m (items.map BundleSubItem.eraseStock) q =
      App.addBundleItems m items q := by
  unfold App.addBundleItems
  rw [List.foldl_map]
  have hf : (fun (acc : JSMap (Option Nat) ℚ) (sub : BundleSubItem) =>
        JSMap.accumulate acc (BundleSubItem.eraseStock sub).id
          ((BundleSubItem.eraseStock sub).quantityInBundle * q)) =
      (fun acc sub => JSMap.accumulate acc sub.id (sub.quantityInBundle * q)) := by
    funext acc sub
    rw [BundleSubItem.id_eraseStock]
    rfl
  exact congrArg (fun f => List.foldl f m items) hf

/-- One step of the plan reads the same from a product list and from the list
with the stock counters erased. -/
theorem App.planStep_eraseStock (products : List Product) (plan : Plan) (line : CartItem) :
    App.planStep (products.map Product.eraseStock) plan line =
      App.planStep products plan line := by
  unfold App.planStep
  rw [List.find?_map]
  have hp : ((fun p : Product => decide (p.id = line.id)) ∘ Product.eraseStock) =
      (fun p : Product => decide (p.id = line.id)) := rfl
  rw [hp]
  cases hf : products.find? (fun p => p.id = line.id) with
  | none => rfl
  | some p =>
    obtain ⟨id, b, price, stock, pc, items, recipe⟩ := p
    cases b <;> cases items <;> rcases recipe with _ | _ | ⟨r, rs⟩ <;>
      simp [Product.eraseStock, App.addBundleItems_eraseStock]

theorem App.buildPlan_eraseStock (cart : List CartItem) (products : List Product) :
    App.buildPlan cart (products.map Product.eraseStock) = App.buildPlan cart products := by
  unfold App.buildPlan
  have hf : App.planStep (products.map Product.eraseStock) = App.planStep products := by
    funext plan line
    exact App.planStep_eraseStock products plan line
  rw [hf]

theorem App.recipeCost_eraseStock (formattedIngredients : List Ingredient)
    (rows : List RecipeItem) :
    App.recipeCost (formattedIngredients.map Ingredient.eraseStock) rows =
      App.recipeCost formattedIngredients rows := by
  unfold App.recipeCost
  congr 1
  funext totalCost recipeItem
  rw [List.find?_map]
  have hp : ((fun ing : Ingredient => decide (ing.id = recipeItem.ingredient_id)) ∘
      Ingredient.eraseStock) = (fun ing : Ingredient =>
        decide (ing.id = recipeItem.ingredient_id)) := rfl
  rw [hp]
  cases formattedIngredients.find? (fun ing => ing.id = recipeItem.ingredient_id) <;> rfl

/-- The enrichment commutes with erasing the stock counters of the load. -/
theorem App.enrichProduct_eraseStock (productsWithPrice : List ProductRow)
    (bundleItemsData : Option (List BundleItemRow)) (recipesData : Option (List RecipeItem))
    (formattedIngredients : List Ingredient) (row : ProductRow) :
    App.enrichProduct (productsWithPrice.map ProductRow.eraseStock) bundleItemsData recipesData
        (formattedIngredients.map Ingredient.eraseStock) (ProductRow.eraseStock row) =
      Product.eraseStock
        (App.enrichProduct productsWithPrice bundleItemsData recipesData formattedIngredients
          row) := by
  have hfind : ∀ i : Nat,
      (productsWithPrice.map ProductRow.eraseStock).find? (fun p => p.id = i) =
        (productsWithPrice.find? (fun p => p.id = i)).map ProductRow.eraseStock := by
    intro i
    rw [List.find?_map]
    rfl
  obtain ⟨id, b, price, stock, pc⟩ := row
  cases b <;> cases bundleItemsData <;> cases recipesData <;>
    simp [App.enrichProduct, App.attachItems, App.attachRecipe, App.copyProduct,
      Product.eraseStock, ProductRow.eraseStock, BundleSubItem.eraseStock, hfind,
      App.recipeCost_eraseStock]

theorem App.enrichedProducts_eraseStock (productsWithPrice : List ProductRow)
    (bundleItemsData : Option (List BundleItemRow)) (recipesData : Option (List RecipeItem))
    (formattedIngredients : List Ingredient) :
    (App.enrichedProducts productsWithPrice bundleItemsData recipesData
        formattedIngredients).map Product.eraseStock =
      App.enrichedProducts (productsWithPrice.map ProductRow.eraseStock) bundleItemsData
        recipesData (formattedIngredients.map Ingredient.eraseStock) := by
  unfold App.enrichedProducts
  rw [List.map_map, List.map_map]
  apply List.map_congr_left
  intro row _
  exact (App.enrichProduct_eraseStock productsWithPrice bundleItemsData recipesData
    formattedIngredients row).symm

/-- Two loads that differ only in stock fields give product lists that differ
only in stock fields. -/
theorem App.enrichedProducts_sameUpToStock (productsWithPrice productsWithPrice' : List ProductRow)
    (bundleItemsData : Option (List BundleItemRow)) (recipesData : Option (List RecipeItem))
    (formattedIngredients formattedIngredients' : List Ingredient)
    (hp : productsWithPrice.map ProductRow.eraseStock =
      productsWithPrice'.map ProductRow.eraseStock)
    (hi : formattedIngredients.map Ingredient.eraseStock =
      formattedIngredients'.map Ingredient.eraseStock) :
    SameProductsUpToStock
      (App.enrichedProducts productsWithPrice bundleItemsData recipesData formattedIngredients)
      (App.enrichedProducts productsWithPrice' bundleItemsData recipesData
        formattedIngredients') := by
  unfold SameProductsUpToStock
  rw [App.enrichedProducts_eraseStock, App.enrichedProducts_eraseStock, hp, hi]

/-- C14: for every cart and every two product lists that differ only in stock
fields, `handleCheckout` builds the same two decrement maps and issues the same
calls; and two loads that differ only in the stock of products and of
ingredients give product lists that differ only in stock fields. -/
theorem handleCheckout_independent_of_stock (cart : List CartItem)
    (products products' : List Product) (paymentMethod : String) (store : StoreReplies)
    (h : SameProductsUpToStock products products') :
    App.buildPlan cart products = App.buildPlan cart products' ∧
      (App.handleCheckout cart products paymentMethod store).calls =
        (App.handleCheckout cart products' paymentMethod store).calls ∧
      ∀ (productsWithPrice productsWithPrice' : List ProductRow)
        (bundleItemsData : Option (List BundleItemRow))
        (recipesData : Option (List RecipeItem))
        (formattedIngredients formattedIngredients' : List Ingredient),
        productsWithPrice.map ProductRow.eraseStock =
          productsWithPrice'.map ProductRow.eraseStock →
        formattedIngredients.map Ingredient.eraseStock =
          formattedIngredients'.map Ingredient.eraseStock →
        SameProductsUpToStock
          (App.enrichedProducts productsWithPrice bundleItemsData recipesData
            formattedIngredients)
          (App.enrichedProducts productsWithPrice' bundleItemsData recipesData
            formattedIngredients') := by
  have hplan : App.buildPlan cart products = App.buildPlan cart products' := by
    rw [← App.buildPlan_eraseStock cart products, ← App.buildPlan_eraseStock cart products']
    unfold SameProductsUpToStock at h
    rw [h]
  refine ⟨hplan, ?_, ?_⟩
  · unfold App.handleCheckout
    rw [hplan]
  · intro pw pw' b r ings ings' hp hi
    exact App.enrichedProducts_sameUpToStock pw pw' b r ings ings' hp hi

/-- Witness of C14: scenario C and the same load with every stock at 0 give
the same plan for the cart `[2 x ComboMeal]`. -/
theorem handleCheckout_independent_of_stock_witness :
    App.buildPlan scenarioC.cart scenarioC.products =
      App.buildPlan scenarioC.cart
        (App.enrichedProducts scenarioC.soldOut (some scenarioC.bundleItemsData) (some [])
          []) :=
  (handleCheckout_independent_of_stock scenarioC.cart scenarioC.products
    (App.enrichedProducts scenarioC.soldOut (some scenarioC.bundleItemsData) (some []) [])
    cash acceptingStore
    (App.enrichedProducts_sameUpToStock scenarioC.productsWithPrice scenarioC.soldOut
      (some scenarioC.bundleItemsData) (some []) [] [] rfl rfl)).1

/-! ## Leaf targets -/

/-- One step of the plan, told through the leaf targets of the line's product. -/
theorem App.planStep_eq_targets (products : List Product) (plan : Plan) (line : CartItem) :
    App.planStep products plan line =
      { productStockDecrements :=
          (App.productTargets products line.id).foldl
            (fun acc e => JSMap.accumulate acc e.1 (e.2 * line.quantity))
            plan.productStockDecrements
        ingredientStockDecrements :=
          (App.ingredientTargets products line.id).foldl
            (fun acc e => JSMap.accumulate acc e.1 (e.2 * line.quantity))
            plan.ingredientStockDecrements } := by
  unfold App.planStep App.productTargets App.ingredientTargets
  cases hf : products.find? (fun p => p.id = line.id) with
  | none => rfl
  | some p =>
    obtain ⟨id, b, price, stock, pc, items, recipe⟩ := p
    cases b <;> cases items <;> rcases recipe with _ | _ | ⟨r, rs⟩ <;>
      simp [App.addBundleItems, App.addRecipeItems, List.foldl_map]

theorem App.foldl_planStep_eq_addLines (products : List Product) (cart : List CartItem)
    (plan : Plan) :
    cart.foldl (App.planStep products) plan =
      { productStockDecrements :=
          JSMap.addLines (App.productTargets products) cart plan.productStockDecrements
        ingredientStockDecrements :=
          JSMap.addLines (App.ingredientTargets products) cart
            plan.ingredientStockDecrements } := by
  induction cart generalizing plan with
  | nil => rfl
  | cons line cart ih =>
    rw [List.foldl_cons, ih, App.planStep_eq_targets]
    rfl

/-- The plan of `handleCheckout`, told through leaf targets. -/
theorem App.buildPlan_eq_addLines (cart : List CartItem) (products : List Product) :
    App.buildPlan cart products =
      { productStockDecrements := JSMap.addLines (App.productTargets products) cart []
        ingredientStockDecrements := JSMap.addLines (App.ingredientTargets products) cart [] } := by
  unfold App.buildPlan
  rw [App.foldl_planStep_eq_addLines]

theorem JSMap.get_addLines {κ : Type} [DecidableEq κ] (targets : Nat → List (κ × ℚ))
    (cart : List CartItem) (m : JSMap κ ℚ) (k : κ) :
    (JSMap.get (JSMap.addLines targets cart m) k).getD 0 =
      (JSMap.get m k).getD 0 +
        (cart.map (fun line => JSMap.perUnit targets k line.id * line.quantity)).sum := by
  induction cart generalizing m with
  | nil => simp [JSMap.addLines]
  | cons line cart ih =>
    have hstep : JSMap.addLines targets (line :: cart) m =
        JSMap.addLines targets cart
          ((targets line.id).foldl
            (fun a e => JSMap.accumulate a e.1 (e.2 * line.quantity)) m) := rfl
    rw [hstep, ih,
      JSMap.get_foldl_accumulate Prod.fst (fun e => e.2 * line.quantity) (targets line.id) m k,
      List.map_cons, List.sum_cons, add_assoc]
    congr 2
    unfold JSMap.perUnit
    rw [List.sum_map_mul_right]

theorem JSMap.mem_keys_addLines {κ : Type} [DecidableEq κ] (targets : Nat → List (κ × ℚ))
    (cart : List CartItem) (m : JSMap κ ℚ) (k : κ) :
    k ∈ JSMap.keys (JSMap.addLines targets cart m) ↔
      k ∈ JSMap.keys m ∨ ∃ id ∈ cart.map CartItem.id, ∃ e ∈ targets id, e.1 = k := by
  induction cart generalizing m with
  | nil => simp [JSMap.addLines]
  | cons line cart ih =>
    have hstep : JSMap.addLines targets (line :: cart) m =
        JSMap.addLines targets cart
          ((targets line.id).foldl
            (fun a e => JSMap.accumulate a e.1 (e.2 * line.quantity)) m) := rfl
    rw [hstep, ih,
      JSMap.mem_keys_foldl_accumulate Prod.fst (fun e => e.2 * line.quantity)
        (targets line.id) m k]
    constructor
    · rintro ((h | ⟨e, he, hk⟩) | ⟨id, hid, e, he, hk⟩)
      · exact Or.inl h
      · exact Or.inr ⟨line.id, List.mem_cons_self _ _, e, he, hk⟩
      · exact Or.inr ⟨id, List.mem_cons_of_mem _ hid, e, he, hk⟩
    · rintro (h | ⟨id, hid, e, he, hk⟩)
      · exact Or.inl (Or.inl h)
      · rw [List.map_cons] at hid
        rcases List.mem_cons.mp hid with rfl | hid
        · exact Or.inl (Or.inr ⟨e, he, hk⟩)
        · exact Or.inr ⟨id, hid, e, he, hk⟩

theorem JSMap.nodup_keys_addLines {κ : Type} [DecidableEq κ] (targets : Nat → List (κ × ℚ))
    (cart : List CartItem) (m : JSMap κ ℚ) (h : (JSMap.keys m).Nodup) :
    (JSMap.keys (JSMap.addLines targets cart m)).Nodup := by
  induction cart generalizing m with
  | nil => simpa [JSMap.addLines] using h
  | cons line cart ih =>
    exact ih _ (JSMap.nodup_keys_foldl_accumulate Prod.fst (fun e => e.2 * line.quantity)
      (targets line.id) m h)

/-- Two maps with the same keys and the same quantities (0 for an absent key)
give the same answer to `get`. -/
theorem JSMap.get_eq_of_keys_of_getD {κ : Type} [DecidableEq κ] (m m' : JSMap κ ℚ) (k : κ)
    (hk : k ∈ JSMap.keys m ↔ k ∈ JSMap.keys m')
    (hv : (JSMap.get m k).getD 0 = (JSMap.get m' k).getD 0) :
    JSMap.get m k = JSMap.get m' k := by
  rw [JSMap.mem_keys_iff, JSMap.mem_keys_iff] at hk
  cases h1 : JSMap.get m k <;> cases h2 : JSMap.get m' k <;> simp_all

/-! ## Merged carts -/

theorem mergeLines_cons (line : CartItem) (rest : List CartItem) :
    mergeLines (line :: rest) =
      { line with
        quantity := line.quantity +
          ((rest.filter (fun l => l.id = line.id)).map CartItem.quantity).sum } ::
        mergeLines (rest.filter (fun l => ¬ l.id = line.id)) := by
  rw [mergeLines]

theorem List.sum_map_filter_split {α : Type} (l : List α) (p : α → Bool) (g : α → ℚ) :
    (l.map g).sum =
      ((l.filter p).map g).sum + ((l.filter (fun x => ! p x)).map g).sum := by
  induction l with
  | nil => simp
  | cons x l ih =>
    cases hp : p x
    · simp [List.filter_cons, hp, ih]
      ring
    · simp [List.filter_cons, hp, ih]
      ring

/-- A sum weighted by product id is the same over a cart and over the merged
cart. -/
theorem mergeLines_sum (f : Nat → ℚ) (cart : List CartItem) :
    ((mergeLines cart).map (fun l => f l.id * l.quantity)).sum =
      (cart.map (fun l => f l.id * l.quantity)).sum := by
  induction cart using mergeLines.induct with
  | case1 => simp [mergeLines]
  | case2 line rest ih =>
    rw [mergeLines_cons, List.map_cons, List.sum_cons, ih, List.map_cons, List.sum_cons,
      List.sum_map_filter_split rest (fun l => decide (l.id = line.id))
        (fun l => f l.id * l.quantity)]
    have hsame : ((rest.filter (fun l => decide (l.id = line.id))).map
        (fun l => f l.id * l.quantity)).sum =
        f line.id * ((rest.filter (fun l => l.id = line.id)).map CartItem.quantity).sum := by
      rw [← List.sum_map_mul_left]
      congr 1
      apply List.map_congr_left
      intro l hl
      have hid : l.id = line.id := by simpa using (List.mem_filter.mp hl).2
      rw [hid]
    have hfilter : rest.filter (fun x => ! decide (x.id = line.id)) =
        rest.filter (fun l => decide (¬ l.id = line.id)) := by
      congr 1
      funext x
      simp
    rw [hsame, hfilter]
    simp only [CartItem.id]
    ring

/-- The merged cart has the product ids of the cart. -/
theorem mergeLines_mem_ids (cart : List CartItem) (id : Nat) :
    id ∈ (mergeLines cart).map CartItem.id ↔ id ∈ cart.map CartItem.id := by
  induction cart using mergeLines.induct with
  | case1 => simp [mergeLines]
  | case2 line rest ih =>
    rw [mergeLines_cons, List.map_cons, List.mem_cons, ih, List.map_cons, List.mem_cons]
    simp only [List.mem_map, List.mem_filter, CartItem.id]
    constructor
    · rintro (h | ⟨l, ⟨hl, -⟩, hid⟩)
      · exact Or.inl h
      · exact Or.inr ⟨l, hl, hid⟩
    · rintro (h | ⟨l, hl, hid⟩)
      · exact Or.inl h
      · by_cases hsame : id = line.product.id
        · exact Or.inl hsame
        · refine Or.inr ⟨l, ⟨hl, ?_⟩, hid⟩
          rw [← hid] at hsame
          simpa using hsame

/-- The merged cart has pairwise distinct product ids. -/
theorem mergeLines_nodup (cart : List CartItem) :
    ((mergeLines cart).map CartItem.id).Nodup := by
  induction cart using mergeLines.induct with
  | case1 => simp [mergeLines]
  | case2 line rest ih =>
    rw [mergeLines_cons, List.map_cons, List.nodup_cons]
    refine ⟨?_, ih⟩
    have hid : CartItem.id { line with
        quantity := line.quantity +
          ((rest.filter (fun l => l.id = line.id)).map CartItem.quantity).sum } = line.id := rfl
    rw [hid, mergeLines_mem_ids]
    simp [List.mem_map, List.mem_filter]

theorem JSMap.get_addLines_mergeLines {κ : Type} [DecidableEq κ]
    (targets : Nat → List (κ × ℚ)) (cart : List CartItem) (k : κ) :
    JSMap.get (JSMap.addLines targets (mergeLines cart) []) k =
      JSMap.get (JSMap.addLines targets cart []) k := by
  apply JSMap.get_eq_of_keys_of_getD
  · rw [JSMap.mem_keys_addLines, JSMap.mem_keys_addLines]
    simp only [mergeLines_mem_ids]
  · rw [JSMap.get_addLines, JSMap.get_addLines]
    congr 1
    exact mergeLines_sum (fun id => JSMap.perUnit targets k id) cart

/-- With exact sums and products, merging the lines of a same product id into
one line with the summed quantity does not change the plan: the merged cart
has pairwise distinct product ids, and each of the two decrement maps built
from it has the same entry (or none) at every key as the map built from the
cart. -/
theorem App.buildPlan_mergeLines_exact (cart : List CartItem) (products : List Product) :
    ((mergeLines cart).map CartItem.id).Nodup ∧
      (∀ k : Option Nat,
        JSMap.get (App.buildPlan (mergeLines cart) products).productStockDecrements k =
          JSMap.get (App.buildPlan cart products).productStockDecrements k) ∧
      (∀ I : Nat,
        JSMap.get (App.buildPlan (mergeLines cart) products).ingredientStockDecrements I =
          JSMap.get (App.buildPlan cart products).ingredientStockDecrements I) := by
  refine ⟨mergeLines_nodup cart, fun k => ?_, fun I => ?_⟩
  · rw [App.buildPlan_eq_addLines, App.buildPlan_eq_addLines]
    exact JSMap.get_addLines_mergeLines (App.productTargets products) cart k
  · rw [App.buildPlan_eq_addLines, App.buildPlan_eq_addLines]
    exact JSMap.get_addLines_mergeLines (App.ingredientTargets products) cart I

/-! ## Changing the cost of an ingredient -/

theorem App.foldl_recipeCost_rowCost (formattedIngredients : List Ingredient)
    (rows : List RecipeItem) (a : ℚ) :
    rows.foldl
        (fun totalCost recipeItem =>
          match formattedIngredients.find? (fun ing => ing.id = recipeItem.ingredient_id) with
          | some ingredient => totalCost + ingredient.cost_per_unit * recipeItem.quantity
          | none => totalCost)
        a =
      a + (rows.map (App.rowCost formattedIngredients)).sum := by
  induction rows generalizing a with
  | nil => simp
  | cons r rows ih =>
    rw [List.foldl_cons, ih, List.map_cons, List.sum_cons]
    unfold App.rowCost
    cases formattedIngredients.find? (fun ing => ing.id = r.ingredient_id) with
    | none => simp
    | some ing => simp [add_assoc]

/-- The cost of a recipe is the sum of the costs of its rows. -/
theorem App.recipeCost_eq_sum_rowCost (formattedIngredients : List Ingredient)
    (rows : List RecipeItem) :
    App.recipeCost formattedIngredients rows =
      (rows.map (App.rowCost formattedIngredients)).sum := by
  unfold App.recipeCost
  rw [App.foldl_recipeCost_rowCost]
  simp

theorem find?_setCostPerUnit (I : Nat) (c' : ℚ) (ingredients : List Ingredient) (j : Nat) :
    (setCostPerUnit I c' ingredients).find? (fun ing => ing.id = j) =
      (ingredients.find? (fun ing => ing.id = j)).map
        (fun ing => if ing.id = I then { ing with cost_per_unit := c' } else ing) := by
  unfold setCostPerUnit
  rw [List.find?_map]
  congr 1
  congr 1
  funext ing
  by_cases h : ing.id = I <;> simp [h]

theorem App.rowCost_setCostPerUnit (I : Nat) (c' : ℚ) (ingredients : List Ingredient)
    (ing : Ingredient) (hfind : ingredients.find? (fun x => x.id = I) = some ing)
    (r : RecipeItem) :
    App.rowCost (setCostPerUnit I c' ingredients) r =
      App.rowCost ingredients r +
        (if r.ingredient_id = I then (c' - ing.cost_per_unit) * r.quantity else 0) := by
  unfold App.rowCost
  rw [find?_setCostPerUnit]
  by_cases h : r.ingredient_id = I
  · rw [h, hfind]
    have hid : ing.id = I := by
      have := List.find?_some hfind
      simpa using this
    simp [hid]
    ring
  · cases hf : ingredients.find? (fun x => x.id = r.ingredient_id) with
    | none => simp [h]
    | some found =>
      have hid : found.id = r.ingredient_id := by
        have := List.find?_some hf
        simpa using this
      have hne : ¬ found.id = I := by rw [hid]; exact h
      simp [h, hne]

/-- Changing the cost of the ingredient `I` from `c` to `c'` changes the cost
of a recipe by `(c' - c)` times the quantities of its rows for `I`. -/
theorem App.recipeCost_setCostPerUnit (I : Nat) (c' : ℚ) (ingredients : List Ingredient)
    (ing : Ingredient) (hfind : ingredients.find? (fun x => x.id = I) = some ing)
    (rows : List RecipeItem) :
    App.recipeCost (setCostPerUnit I c' ingredients) rows =
      App.recipeCost ingredients rows +
        (c' - ing.cost_per_unit) *
          ((rows.filter (fun r => r.ingredient_id = I)).map RecipeItem.quantity).sum := by
  rw [App.recipeCost_eq_sum_rowCost, App.recipeCost_eq_sum_rowCost]
  induction rows with
  | nil => simp
  | cons r rows ih =>
    rw [List.map_cons, List.sum_cons, ih, App.rowCost_setCostPerUnit I c' ingredients ing hfind,
      List.map_cons, List.sum_cons]
    by_cases h : r.ingredient_id = I
    · simp [List.filter_cons, h]
      ring
    · simp [List.filter_cons, h]
      ring

theorem JSMap.set_of_not_mem {κ ν : Type} [DecidableEq κ] (m : JSMap κ ν) (k : κ) (v : ν)
    (h : k ∉ JSMap.keys m) : JSMap.set m k v = m ++ [(k, v)] := by
  induction m with
  | nil => rfl
  | cons e m ih =>
    obtain ⟨a, b⟩ := e
    have hk : JSMap.keys ((a, b) :: m) = a :: JSMap.keys m := rfl
    rw [hk, List.mem_cons, not_or] at h
    have hne : ¬ a = k := fun hak => h.1 hak.symm
    simp [JSMap.set, hne, ih h.2]

theorem JSMap.foldl_set_nodup {α κ : Type} [DecidableEq κ] (key : α → κ) (xs : List α)
    (m : JSMap κ α) (hnd : (xs.map key).Nodup) (hdis : ∀ x ∈ xs, key x ∉ JSMap.keys m) :
    xs.foldl (fun map x => JSMap.set map (key x) x) m = m ++ xs.map (fun x => (key x, x)) := by
  induction xs generalizing m with
  | nil => simp
  | cons x xs ih =>
    rw [List.map_cons, List.nodup_cons] at hnd
    rw [List.foldl_cons, JSMap.set_of_not_mem m (key x) x (hdis x (List.mem_cons_self _ _)),
      ih _ hnd.2]
    · simp
    · intro y hy hmem
      have hkeys : JSMap.keys (m ++ [(key x, x)]) = JSMap.keys m ++ [key x] := by
        simp [JSMap.keys]
      rw [hkeys, List.mem_append, List.mem_singleton] at hmem
      rcases hmem with hmem | hmem
      · exact hdis y (List.mem_cons_of_mem _ hy) hmem
      · exact hnd.1 (hmem ▸ List.mem_map_of_mem key hy)

theorem JSMap.get_map_key {α κ : Type} [DecidableEq κ] (key : α → κ) (xs : List α) (j : κ) :
    JSMap.get (xs.map (fun x => (key x, x))) j = xs.find? (fun x => key x = j) := by
  induction xs with
  | nil => rfl
  | cons x xs ih =>
    by_cases h : key x = j
    · simp [JSMap.get, List.find?_cons, h]
    · rw [List.map_cons]
      simp only [JSMap.get, h, if_false, List.find?_cons, decide_False]
      exact ih

/-- With pairwise distinct ingredient ids, the lookup in `ingredientsMap` is
the lookup `find` of `fetchData`. -/
theorem POSView.ingredientsMap_get (ingredients : List Ingredient)
    (hnd : (ingredients.map Ingredient.id).Nodup) (j : Nat) :
    JSMap.get (POSView.ingredientsMap ingredients) j =
      ingredients.find? (fun ing => ing.id = j) := by
  unfold POSView.ingredientsMap
  rw [JSMap.foldl_set_nodup Ingredient.id ingredients [] hnd (by simp [JSMap.keys])]
  rw [List.nil_append]
  exact JSMap.get_map_key Ingredient.id ingredients j

theorem POSView.foldl_fromRecipe (ingredients : List Ingredient)
    (hnd : (ingredients.map Ingredient.id).Nodup) (rows : List RecipeItem) (a : ℚ) :
    rows.foldl
        (fun sum r =>
          sum + jsOr ((JSMap.get (POSView.ingredientsMap ingredients) r.ingredient_id).map
            Ingredient.cost_per_unit) 0 * jsOr (some r.quantity) 0)
        a =
      a + (rows.map (App.rowCost ingredients)).sum := by
  induction rows generalizing a with
  | nil => simp
  | cons r rows ih =>
    rw [List.foldl_cons, ih, List.map_cons, List.sum_cons,
      POSView.ingredientsMap_get ingredients hnd]
    unfold App.rowCost
    cases ingredients.find? (fun ing => ing.id = r.ingredient_id) with
    | none => simp [jsOr]
    | some ing =>
      by_cases hc : ing.cost_per_unit = 0 <;> by_cases hq : r.quantity = 0 <;>
        simp [jsOr, hc, hq, add_assoc]

/-- With pairwise distinct ingredient ids, `POSView.getUnitCost` of a
non-bundle built by `fetchData` from the same ingredients is the cost of its
recipe. -/
theorem POSView.getUnitCost_enrichProduct_simple (productsWithPrice : List ProductRow)
    (bundleItemsData : Option (List BundleItemRow)) (recipesData : List RecipeItem)
    (ingredients : List Ingredient) (hnd : (ingredients.map Ingredient.id).Nodup)
    (row : ProductRow) (hnb : row.is_bundle = false) :
    POSView.getUnitCost ingredients
        (App.enrichProduct productsWithPrice bundleItemsData (some recipesData) ingredients
          row) =
      App.recipeCost ingredients (recipesData.filter (fun r => r.product_id = row.id)) := by
  rw [App.enrichProduct_simple _ _ _ _ _ hnb, App.recipeCost_eq_sum_rowCost]
  unfold POSView.getUnitCost
  simp only [Bool.false_eq_true, if_false, Option.getD_some]
  rw [POSView.foldl_fromRecipe ingredients hnd]
  simp only [zero_add]
  by_cases h0 : ((recipesData.filter (fun r => r.product_id = row.id)).map
      (App.rowCost ingredients)).sum = 0
  · simp [h0, jsOr]
  · simp [h0]

theorem setCostPerUnit_ids (I : Nat) (c' : ℚ) (ingredients : List Ingredient) :
    (setCostPerUnit I c' ingredients).map Ingredient.id = ingredients.map Ingredient.id := by
  unfold setCostPerUnit
  rw [List.map_map]
  apply List.map_congr_left
  intro ing _
  by_cases h : ing.id = I <;> simp [h]

theorem find?_of_mem_nodup_ids (ingredients : List Ingredient)
    (hnd : (ingredients.map Ingredient.id).Nodup) (ing : Ingredient) (hing : ing ∈ ingredients) :
    ingredients.find? (fun x => x.id = ing.id) = some ing := by
  induction ingredients with
  | nil => simp at hing
  | cons x xs ih =>
    rw [List.map_cons, List.nodup_cons] at hnd
    rcases List.mem_cons.mp hing with rfl | hmem
    · simp
    · have hne : ¬ x.id = ing.id := by
        intro h
        exact hnd.1 (h ▸ List.mem_map_of_mem Ingredient.id hmem)
      rw [List.find?_cons]
      simp only [hne, decide_False]
      exact ih hnd.2 hmem

/-! ## Invariants of the plan -/

theorem App.buildPlan_mem_product_keys (cart : List CartItem) (products : List Product)
    (k : Option Nat) :
    k ∈ JSMap.keys (App.buildPlan cart products).productStockDecrements ↔
      ∃ id ∈ cart.map CartItem.id, ∃ e ∈ App.productTargets products id, e.1 = k := by
  rw [App.buildPlan_eq_addLines]
  simp only
  rw [JSMap.mem_keys_addLines]
  simp [JSMap.keys]

/-- C17 as stated fails for a bundle whose `items` were not loaded: it has no
component, so the components of all bundles are non-bundles, and the line
`2 x bundle 1` makes the id of the bundle a key of the product map. -/
theorem handleCheckout_targets_unloaded_bundle :
    ComponentsAreSimple unloadedBundle.products ∧
      some 1 ∈ JSMap.keys
        (App.buildPlan unloadedBundle.cart unloadedBundle.products).productStockDecrements ∧
      ResolvesToBundle unloadedBundle.products (some 1) := by
  refine ⟨?_, ?_, ?_⟩
  · intro p hp items hitems
    simp [unloadedBundle.products, App.enrichedProducts, App.enrichProduct, App.attachItems,
      App.attachRecipe, App.copyProduct] at hp
    subst hp
    simp at hitems
  · norm_num [App.buildPlan, App.planStep, unloadedBundle.cart, unloadedBundle.products,
      App.enrichedProducts, App.enrichProduct, App.attachItems, App.attachRecipe,
      App.copyProduct, CartItem.id, JSMap.accumulate, JSMap.set, JSMap.get, JSMap.keys, jsOr]
  · have hfind : unloadedBundle.products.find? (fun p => p.id = 1) =
        some (App.copyProduct
          { id := 1, is_bundle := true, price := 12, stock := 0, production_cost := none }) := by
      simp [unloadedBundle.products, App.enrichedProducts, App.enrichProduct, App.attachItems,
        App.attachRecipe, App.copyProduct]
    exact ⟨1, _, rfl, hfind, rfl⟩

theorem find?_product_of_mem_nodup_ids (products : List Product)
    (hnd : (products.map Product.id).Nodup) (p : Product) (hp : p ∈ products) :
    products.find? (fun x => x.id = p.id) = some p := by
  induction products with
  | nil => simp at hp
  | cons x xs ih =>
    rw [List.map_cons, List.nodup_cons] at hnd
    rcases List.mem_cons.mp hp with rfl | hmem
    · simp
    · have hne : ¬ x.id = p.id := by
        intro h
        exact hnd.1 (h ▸ List.mem_map_of_mem Product.id hmem)
      rw [List.find?_cons]
      simp only [hne, decide_False]
      exact ih hnd.2 hmem

/-- C17 (amended): for every cart and every product list whose bundles all
carry an `items` list and whose bundle components are non-bundle products, no
key of the product-stock map is the id of a bundle product: the product a key
resolves to is never a bundle and, when the ids of the list are pairwise
distinct, no bundle of the list has a key as its id. -/
theorem handleCheckout_never_targets_bundle (cart : List CartItem) (products : List Product)
    (hitems : BundlesCarryItems products) (hsimple : ComponentsAreSimple products)
    (k : Option Nat)
    (hk : k ∈ JSMap.keys (App.buildPlan cart products).productStockDecrements) :
    ¬ ResolvesToBundle products k ∧
      ((products.map Product.id).Nodup →
        ∀ b ∈ products, b.is_bundle = true → k ≠ some b.id) := by
  have hmain : ¬ ResolvesToBundle products k := by
    rw [App.buildPlan_mem_product_keys] at hk
    obtain ⟨id, -, e, he, hek⟩ := hk
    unfold App.productTargets at he
    cases hf : products.find? (fun p => p.id = id) with
    | none => rw [hf] at he; simp at he
    | some p =>
      rw [hf] at he
      have hmem : p ∈ products := List.mem_of_find?_eq_some hf
      have hpid : p.id = id := by
        have := List.find?_some hf
        simpa using this
      have hcarry := hitems p hmem
      have hcomp := hsimple p hmem
      obtain ⟨pid, b, price, stock, pc, items, recipe⟩ := p
      simp only at hpid hcarry hcomp
      cases b <;> cases items <;> rcases recipe with _ | _ | ⟨r, rs⟩ <;>
        simp only [List.mem_map, List.mem_singleton, List.not_mem_nil] at he
      all_goals first
        | exact absurd (hcarry rfl) Bool.false_ne_true
        | exact he.elim
        | (obtain ⟨sub, hsub, rfl⟩ := he
           rw [← hek]
           exact hcomp _ rfl sub hsub)
        | (subst he
           rw [← hek]
           rintro ⟨i, q, hi, hq, hqb⟩
           have hi' : pid = i := Option.some.inj hi
           rw [← hi', hpid, hf] at hq
           have := Option.some.inj hq
           rw [← this] at hqb
           simp at hqb)
  refine ⟨hmain, fun hnd b hb hbundle hkb => hmain ?_⟩
  exact ⟨b.id, b, hkb, find?_product_of_mem_nodup_ids products hnd b hb, hbundle⟩

/-- When the bundle rows are loaded, every bundle built by `fetchData` carries
an `items` list. -/
theorem App.enrichedProducts_bundlesCarryItems (productsWithPrice : List ProductRow)
    (bundleItemsData : List BundleItemRow) (recipesData : Option (List RecipeItem))
    (formattedIngredients : List Ingredient) :
    BundlesCarryItems
      (App.enrichedProducts productsWithPrice (some bundleItemsData) recipesData
        formattedIngredients) := by
  intro p hp hb
  unfold App.enrichedProducts at hp
  obtain ⟨row, -, rfl⟩ := List.mem_map.mp hp
  obtain ⟨id, b, price, stock, pc⟩ := row
  cases b <;> cases recipesData <;>
    simp_all [App.enrichProduct, App.attachItems, App.attachRecipe, App.copyProduct]

/-- Witness of C17 (amended) on scenario C: the key of Burger in the plan of
`[2 x ComboMeal]` does not resolve to a bundle. -/
theorem handleCheckout_never_targets_bundle_witness :
    ¬ ResolvesToBundle scenarioC.products (some 1) :=
  (handleCheckout_never_targets_bundle scenarioC.cart scenarioC.products
    (App.enrichedProducts_bundlesCarryItems _ _ _ _)
    (by
      intro p hp items hitems sub hsub
      simp [scenarioC.products, scenarioC.productsWithPrice, scenarioC.bundleItemsData,
        App.enrichedProducts, App.enrichProduct, App.attachItems, App.attachRecipe,
        App.copyProduct] at hp
      rcases hp with rfl | rfl | rfl
      · simp at hitems
      · simp at hitems
      · simp at hitems
        subst hitems
        simp at hsub
        rcases hsub with rfl | rfl
        · rintro ⟨i, q, hi, hq, hqb⟩
          simp [BundleSubItem.id] at hi
          subst hi
          simp [scenarioC.products, scenarioC.productsWithPrice, scenarioC.bundleItemsData,
            App.enrichedProducts, App.enrichProduct, App.attachItems, App.attachRecipe,
            App.copyProduct] at hq
          subst hq
          simp at hqb
        · rintro ⟨i, q, hi, hq, hqb⟩
          simp [BundleSubItem.id] at hi
          subst hi
          simp [scenarioC.products, scenarioC.productsWithPrice, scenarioC.bundleItemsData,
            App.enrichedProducts, App.enrichProduct, App.attachItems, App.attachRecipe,
            App.copyProduct] at hq
          subst hq
          simp at hqb)
    (some 1)
    (by
      norm_num [App.buildPlan, App.planStep, scenarioC.cart, scenarioC.products,
        scenarioC.productsWithPrice, scenarioC.bundleItemsData, App.enrichedProducts,
        App.enrichProduct, App.attachItems, App.attachRecipe, App.copyProduct, CartItem.id,
        App.addBundleItems, JSMap.accumulate, JSMap.set, JSMap.get, JSMap.keys, jsOr,
        BundleSubItem.id, App.recipeCost])).1

theorem JSMap.mem_of_get {κ ν : Type} [DecidableEq κ] (m : JSMap κ ν) (k : κ) (v : ν)
    (h : JSMap.get m k = some v) : (k, v) ∈ m := by
  induction m with
  | nil => simp [JSMap.get] at h
  | cons e m ih =>
    obtain ⟨a, b⟩ := e
    by_cases h1 : a = k
    · subst h1
      simp [JSMap.get] at h
      subst h
      exact List.mem_cons_self _ _
    · simp [JSMap.get, h1] at h
      exact List.mem_cons_of_mem _ (ih h)

theorem JSMap.mem_set {κ ν : Type} [DecidableEq κ] (m : JSMap κ ν) (k : κ) (v : ν)
    (e : κ × ν) (h : e ∈ JSMap.set m k v) : e ∈ m ∨ e = (k, v) := by
  induction m with
  | nil =>
    simp [JSMap.set] at h
    exact Or.inr h
  | cons x m ih =>
    obtain ⟨a, b⟩ := x
    by_cases h1 : a = k
    · subst h1
      simp [JSMap.set] at h
      rcases h with h | h
      · exact Or.inr h
      · exact Or.inl (List.mem_cons_of_mem _ h)
    · simp [JSMap.set, h1] at h
      rcases h with h | h
      · exact Or.inl (h ▸ List.mem_cons_self _ _)
      · rcases ih h with h' | h'
        · exact Or.inl (List.mem_cons_of_mem _ h')
        · exact Or.inr h'

theorem JSMap.accumulate_pos {κ : Type} [DecidableEq κ] (m : JSMap κ ℚ) (k : κ) (q : ℚ)
    (hm : ∀ e ∈ m, 0 < e.2) (hq : 0 < q) : ∀ e ∈ JSMap.accumulate m k q, 0 < e.2 := by
  intro e he
  unfold JSMap.accumulate at he
  rcases JSMap.mem_set _ _ _ _ he with h | h
  · exact hm e h
  · subst h
    rw [jsOr_zero]
    cases hg : JSMap.get m k with
    | none => simpa using hq
    | some v =>
      have hv : 0 < v := hm (k, v) (JSMap.mem_of_get m k v hg)
      simp only [Option.getD_some]
      linarith

theorem JSMap.foldl_accumulate_pos {κ α : Type} [DecidableEq κ] (key : α → κ) (qty : α → ℚ)
    (xs : List α) (m : JSMap κ ℚ) (hm : ∀ e ∈ m, 0 < e.2) (hq : ∀ x ∈ xs, 0 < qty x) :
    ∀ e ∈ xs.foldl (fun acc x => JSMap.accumulate acc (key x) (qty x)) m, 0 < e.2 := by
  induction xs generalizing m with
  | nil => simpa using hm
  | cons x xs ih =>
    rw [List.foldl_cons]
    exact ih _ (JSMap.accumulate_pos m (key x) (qty x) hm (hq x (List.mem_cons_self _ _)))
      (fun y hy => hq y (List.mem_cons_of_mem _ hy))

theorem JSMap.addLines_pos {κ : Type} [DecidableEq κ] (targets : Nat → List (κ × ℚ))
    (cart : List CartItem) (m : JSMap κ ℚ) (hm : ∀ e ∈ m, 0 < e.2)
    (hcart : ∀ line ∈ cart, 0 < line.quantity)
    (htargets : ∀ id : Nat, ∀ e ∈ targets id, 0 < e.2) :
    ∀ e ∈ JSMap.addLines targets cart m, 0 < e.2 := by
  induction cart generalizing m with
  | nil => simpa [JSMap.addLines] using hm
  | cons line cart ih =>
    have hstep : JSMap.addLines targets (line :: cart) m =
        JSMap.addLines targets cart
          ((targets line.id).foldl
            (fun a e => JSMap.accumulate a e.1 (e.2 * line.quantity)) m) := rfl
    rw [hstep]
    apply ih
    · apply JSMap.foldl_accumulate_pos Prod.fst (fun e => e.2 * line.quantity)
      · exact hm
      · intro x hx
        exact mul_pos (htargets line.id x hx) (hcart line (List.mem_cons_self _ _))
    · intro l hl
      exact hcart l (List.mem_cons_of_mem _ hl)

/-- C18: for every cart whose line quantities are at least 1 and every
product list whose bundle quantities and recipe quantities are strictly
positive, every value of the two decrement maps is strictly positive and the
keys of each map are pairwise distinct. -/
theorem handleCheckout_plan_positive (cart : List CartItem) (products : List Product)
    (hcart : ∀ line ∈ cart, 1 ≤ line.quantity)
    (hbundle : ∀ p ∈ products, ∀ items : List BundleSubItem, p.items = some items →
      ∀ sub ∈ items, 0 < sub.quantityInBundle)
    (hrecipe : ∀ p ∈ products, ∀ rows : List RecipeItem, p.recipeItems = some rows →
      ∀ r ∈ rows, 0 < r.quantity) :
    (∀ e ∈ (App.buildPlan cart products).productStockDecrements, 0 < e.2) ∧
      (∀ e ∈ (App.buildPlan cart products).ingredientStockDecrements, 0 < e.2) ∧
      (JSMap.keys (App.buildPlan cart products).productStockDecrements).Nodup ∧
      (JSMap.keys (App.buildPlan cart products).ingredientStockDecrements).Nodup := by
  have hpos : ∀ line ∈ cart, 0 < line.quantity := fun line hl =>
    lt_of_lt_of_le zero_lt_one (hcart line hl)
  have hpt : ∀ id : Nat, ∀ e ∈ App.productTargets products id, 0 < e.2 := by
    intro id e he
    unfold App.productTargets at he
    cases hf : products.find? (fun p => p.id = id) with
    | none => rw [hf] at he; simp at he
    | some p =>
      rw [hf] at he
      have hb := hbundle p (List.mem_of_find?_eq_some hf)
      obtain ⟨pid, b, price, stock, pc, items, recipe⟩ := p
      simp only at hb
      cases b <;> cases items <;> rcases recipe with _ | _ | ⟨r, rs⟩ <;>
        simp only [List.mem_map, List.mem_singleton, List.not_mem_nil] at he
      all_goals first
        | exact he.elim
        | (obtain ⟨sub, hsub, rfl⟩ := he
           exact hb _ rfl sub hsub)
        | (subst he
           exact zero_lt_one)
  have hit : ∀ id : Nat, ∀ e ∈ App.ingredientTargets products id, 0 < e.2 := by
    intro id e he
    unfold App.ingredientTargets at he
    cases hf : products.find? (fun p => p.id = id) with
    | none => rw [hf] at he; simp at he
    | some p =>
      rw [hf] at he
      have hr := hrecipe p (List.mem_of_find?_eq_some hf)
      obtain ⟨pid, b, price, stock, pc, items, recipe⟩ := p
      simp only at hr
      cases b <;> cases items <;> rcases recipe with _ | _ | ⟨r, rs⟩ <;>
        simp only [List.mem_map, List.not_mem_nil] at he
      all_goals first
        | exact he.elim
        | (obtain ⟨row, hrow, rfl⟩ := he
           exact hr _ rfl row hrow)
  rw [App.buildPlan_eq_addLines]
  refine ⟨?_, ?_, ?_, ?_⟩
  · exact JSMap.addLines_pos _ cart [] (by simp) hpos hpt
  · exact JSMap.addLines_pos _ cart [] (by simp) hpos hit
  · exact JSMap.nodup_keys_addLines _ cart [] List.nodup_nil
  · exact JSMap.nodup_keys_addLines _ cart [] List.nodup_nil

/-- Witness of C18 on scenario C with the cart `[2 x ComboMeal]`. -/
theorem handleCheckout_plan_positive_witness :
    (0 : ℚ) < ((some 2, 4) : Option Nat × ℚ).2 ∧
      (JSMap.keys (App.buildPlan scenarioC.cart scenarioC.products).productStockDecrements).Nodup :=
  (fun h => ⟨h.1 (some 2, 4) (by
      norm_num [App.buildPlan, App.planStep, scenarioC.cart, scenarioC.products,
        scenarioC.productsWithPrice, scenarioC.bundleItemsData, App.enrichedProducts,
        App.enrichProduct, App.attachItems, App.attachRecipe, App.copyProduct, CartItem.id,
        App.addBundleItems, JSMap.accumulate, JSMap.set, JSMap.get, jsOr,
        BundleSubItem.id, App.recipeCost]), h.2.2.1⟩)
  (handleCheckout_plan_positive scenarioC.cart scenarioC.products
    (by norm_num [scenarioC.cart])
    (by
      intro p hp items hitems sub hsub
      simp [scenarioC.products, scenarioC.productsWithPrice, scenarioC.bundleItemsData,
        App.enrichedProducts, App.enrichProduct, App.attachItems, App.attachRecipe,
        App.copyProduct] at hp
      rcases hp with rfl | rfl | rfl <;> simp at hitems
      subst hitems
      simp at hsub
      rcases hsub with rfl | rfl <;> norm_num)
    (by
      intro p hp rows hrows r hr
      simp [scenarioC.products, scenarioC.productsWithPrice, scenarioC.bundleItemsData,
        App.enrichedProducts, App.enrichProduct, App.attachItems, App.attachRecipe,
        App.copyProduct] at hp
      rcases hp with rfl | rfl | rfl <;> simp at hrows <;> subst hrows <;> simp at hr))

/-! ## The cart -/

theorem App.addToCart_present (prev : List CartItem) (productToAdd : Product)
    (h : ∃ item ∈ prev, item.id = productToAdd.id) :
    App.addToCart prev productToAdd =
      prev.map (fun item =>
        if item.id = productToAdd.id then { item with quantity := item.quantity + 1 }
        else item) := by
  unfold App.addToCart
  cases hf : prev.find? (fun item => item.id = productToAdd.id) with
  | some _ => rfl
  | none =>
    obtain ⟨item, hmem, hid⟩ := h
    have := List.find?_eq_none.mp hf item hmem
    simp [hid] at this

theorem App.addToCart_absent (prev : List CartItem) (productToAdd : Product)
    (h : ∀ item ∈ prev, item.id ≠ productToAdd.id) :
    App.addToCart prev productToAdd = prev ++ [{ product := productToAdd, quantity := 1 }] := by
  unfold App.addToCart
  cases hf : prev.find? (fun item => item.id = productToAdd.id) with
  | none => rfl
  | some item =>
    have hmem : item ∈ prev := List.mem_of_find?_eq_some hf
    have hid : item.id = productToAdd.id := by
      have := List.find?_some hf
      simpa using this
    exact absurd hid (h item hmem)

/-- In a cart with pairwise distinct ids, raising the quantity of the lines
of an id changes the one line of that id. -/
theorem map_bump_of_nodup (xs ys : List CartItem) (line : CartItem) (id : Nat)
    (hid : line.id = id) (hnd : ((xs ++ line :: ys).map CartItem.id).Nodup) :
    (xs ++ line :: ys).map (fun item =>
        if item.id = id then { item with quantity := item.quantity + 1 } else item) =
      xs ++ { line with quantity := line.quantity + 1 } :: ys := by
  rw [List.map_append, List.nodup_append] at hnd
  obtain ⟨-, hys, hdis⟩ := hnd
  rw [List.map_cons, List.nodup_cons] at hys
  have hxs : ∀ item ∈ xs, ¬ item.id = id := by
    intro item hitem h
    exact hdis (List.mem_map_of_mem CartItem.id hitem)
      (by rw [h, ← hid]; exact List.mem_cons_self _ _)
  have hys' : ∀ item ∈ ys, ¬ item.id = id := by
    intro item hitem h
    exact hys.1 (by rw [hid, ← h]; exact List.mem_map_of_mem CartItem.id hitem)
  rw [List.map_append, List.map_cons]
  have h1 : xs.map (fun item =>
      if item.id = id then { item with quantity := item.quantity + 1 } else item) = xs := by
    conv_rhs => rw [← List.map_id xs]
    apply List.map_congr_left
    intro item hitem
    simp [hxs item hitem]
  have h2 : ys.map (fun item =>
      if item.id = id then { item with quantity := item.quantity + 1 } else item) = ys := by
    conv_rhs => rw [← List.map_id ys]
    apply List.map_congr_left
    intro item hitem
    simp [hys' item hitem]
  rw [h1, h2]
  simp [hid]

/-- C19: for every cart with pairwise distinct product ids and every
product, the cart after `addToCart` has pairwise distinct product ids; when
the product is in the cart, the one line of that product has its quantity
raised by exactly 1, no line is added and the other lines are unchanged;
otherwise the line of the product with quantity 1 is appended and the other
lines are unchanged. -/
theorem addToCart_keeps_cart_merged (cart : List CartItem) (productToAdd : Product)
    (hnd : (cart.map CartItem.id).Nodup) :
    ((App.addToCart cart productToAdd).map CartItem.id).Nodup ∧
      (∀ (xs ys : List CartItem) (line : CartItem),
        cart = xs ++ line :: ys → line.id = productToAdd.id →
        App.addToCart cart productToAdd =
          xs ++ { line with quantity := line.quantity + 1 } :: ys) ∧
      ((∀ line ∈ cart, line.id ≠ productToAdd.id) →
        App.addToCart cart productToAdd =
          cart ++ [{ product := productToAdd, quantity := 1 }]) := by
  refine ⟨?_, ?_, ?_⟩
  · by_cases h : ∃ item ∈ cart, item.id = productToAdd.id
    · rw [App.addToCart_present cart productToAdd h, List.map_map]
      have hids : (CartItem.id ∘ fun item : CartItem =>
          if item.id = productToAdd.id then { item with quantity := item.quantity + 1 }
          else item) = CartItem.id := by
        funext item
        show CartItem.id (if item.id = productToAdd.id then
          { item with quantity := item.quantity + 1 } else item) = CartItem.id item
        by_cases hi : item.id = productToAdd.id
        · rw [if_pos hi]
          rfl
        · rw [if_neg hi]
      rw [hids]
      exact hnd
    · have habs : ∀ item ∈ cart, item.id ≠ productToAdd.id := by
        intro item hitem hid
        exact h ⟨item, hitem, hid⟩
      rw [App.addToCart_absent cart productToAdd habs, List.map_append, List.nodup_append]
      refine ⟨hnd, by simp, ?_⟩
      intro a ha hb
      simp only [List.map_cons, List.map_nil, List.mem_singleton] at hb
      obtain ⟨item, hitem, rfl⟩ := List.mem_map.mp ha
      exact habs item hitem hb
  · intro xs ys line hcart hid
    subst hcart
    rw [App.addToCart_present _ productToAdd ⟨line, by simp, hid⟩]
    exact map_bump_of_nodup xs ys line productToAdd.id hid hnd
  · intro habs
    exact App.addToCart_absent cart productToAdd habs

/-- Witness of C19: adding ComboMeal to the cart `[2 x ComboMeal]` of
scenario C keeps the ids of the cart pairwise distinct. -/
theorem addToCart_keeps_cart_merged_witness :
    ((App.addToCart scenarioC.cart
      (App.enrichProduct scenarioC.productsWithPrice (some scenarioC.bundleItemsData)
        (some []) []
        { id := 3, is_bundle := true, price := 12, stock := 0,
          production_cost := none })).map CartItem.id).Nodup :=
  (addToCart_keeps_cart_merged scenarioC.cart _ (by simp [scenarioC.cart])).1

theorem one_le_intCast_of_pos (n : ℤ) (h : ¬ ((n : ℚ) ≤ 0)) : (1 : ℚ) ≤ (n : ℚ) := by
  have hpos : (0 : ℚ) < (n : ℚ) := lt_of_not_ge h
  have hn : (0 : ℤ) < n := by exact_mod_cast hpos
  have h1 : (1 : ℤ) ≤ n := hn
  exact_mod_cast h1

/-- C20: in every cart reachable from the empty cart by `addToCart` and by
`updateCartQuantity` with integer quantities, every line has a quantity of at
least 1. -/
theorem reachable_cart_quantities_at_least_one (cart : List CartItem)
    (h : CartReachable cart) : ∀ line ∈ cart, 1 ≤ line.quantity := by
  induction h with
  | empty => simp
  | add cart productToAdd _ ih =>
    intro line hline
    unfold App.addToCart at hline
    cases hf : cart.find? (fun item => item.id = productToAdd.id) with
    | none =>
      rw [hf] at hline
      simp only [List.mem_append, List.mem_singleton] at hline
      rcases hline with hline | rfl
      · exact ih line hline
      · exact le_refl _
    | some found =>
      rw [hf] at hline
      simp only [List.mem_map] at hline
      obtain ⟨item, hitem, rfl⟩ := hline
      have := ih item hitem
      by_cases hid : item.id = productToAdd.id
      · simp only [hid, if_true]
        linarith
      · simp only [hid, if_false]
        exact this
  | update cart productId newQuantity _ ih =>
    intro line hline
    unfold App.updateCartQuantity at hline
    by_cases hq : (newQuantity : ℚ) ≤ 0
    · rw [if_pos hq] at hline
      exact ih line (List.mem_filter.mp hline).1
    · rw [if_neg hq] at hline
      simp only [List.mem_map] at hline
      obtain ⟨item, hitem, rfl⟩ := hline
      by_cases hid : item.id = productId
      · simp only [hid, if_true]
        exact one_le_intCast_of_pos newQuantity hq
      · simp only [hid, if_false]
        exact ih item hitem

/-- Witness of C20: the cart obtained from the empty cart by adding Bread
once, whose one line has quantity 1. -/
theorem reachable_cart_quantities_at_least_one_witness :
    (1 : ℚ) ≤
      ({ product := App.copyProduct scenarioA.bread, quantity := 1 } : CartItem).quantity :=
  reachable_cart_quantities_at_least_one
    (App.addToCart [] (App.copyProduct scenarioA.bread))
    (CartReachable.add [] (App.copyProduct scenarioA.bread) CartReachable.empty)
    { product := App.copyProduct scenarioA.bread, quantity := 1 }
    (by simp [App.addToCart])

/-! ## The inventory counters of the store -/

theorem Store.decrement_exact (available : ℚ) :
    Store.decrement available available = (true, 0) := by
  simp [Store.decrement]

theorem Store.decrement_one_more (available : ℚ) :
    Store.decrement available (available + 1) = (false, available) := by
  have h : ¬ (0 : ℚ) ≤ available - (available + 1) := by
    have : available - (available + 1) = -1 := by ring
    rw [this]
    norm_num
  simp [Store.decrement, h]

/-- C22: a request for exactly the available quantity succeeds and leaves the
counter at zero, and a request for one more than the available quantity fails
and leaves every counter unchanged, for `decrement_stock` and for
`decrement_ingredient_stock`. -/
theorem decrement_boundary (inventory : Inventory) (id : Nat) :
    Store.decrement_stock inventory id (inventory.productStock id) =
        (true, { inventory with
          productStock := Function.update inventory.productStock id 0 }) ∧
      Store.decrement_stock inventory id (inventory.productStock id + 1) =
        (false, inventory) ∧
      Store.decrement_ingredient_stock inventory id (inventory.ingredientStock id) =
        (true, { inventory with
          ingredientStock := Function.update inventory.ingredientStock id 0 }) ∧
      Store.decrement_ingredient_stock inventory id (inventory.ingredientStock id + 1) =
        (false, inventory) := by
  refine ⟨?_, ?_, ?_, ?_⟩
  · simp [Store.decrement_stock, Store.decrement_exact]
  · simp [Store.decrement_stock, Store.decrement_one_more]
  · simp [Store.decrement_ingredient_stock, Store.decrement_exact]
  · simp [Store.decrement_ingredient_stock, Store.decrement_one_more]

theorem Store.serveAll_granted (available : ℚ) (requests : List ℚ) :
    (Store.serveAll available requests).2 =
      available - Store.granted requests (Store.serveAll available requests).1 := by
  induction requests generalizing available with
  | nil => simp [Store.serveAll, Store.granted]
  | cons q rest ih =>
    simp only [Store.serveAll, Store.granted]
    rw [ih]
    by_cases h : 0 ≤ available - q
    · simp [Store.decrement, h]
      ring
    · simp [Store.decrement, h]

theorem Store.serveAll_nonneg (available : ℚ) (h : 0 ≤ available) (requests : List ℚ) :
    0 ≤ (Store.serveAll available requests).2 := by
  induction requests generalizing available with
  | nil => simpa [Store.serveAll] using h
  | cons q rest ih =>
    simp only [Store.serveAll]
    apply ih
    by_cases hq : 0 ≤ available - q
    · simp [Store.decrement, hq]
    · simpa [Store.decrement, hq] using h

theorem Store.serveAll_pair (available q1 q2 : ℚ) (h : available < q1 + q2) :
    (Store.serveAll available [q1, q2]).1 ≠ [true, true] := by
  intro hboth
  simp only [Store.serveAll, Store.decrement] at hboth
  by_cases h1 : 0 ≤ available - q1
  · by_cases h2 : 0 ≤ available - q1 - q2
    · linarith
    · simp [h1, h2] at hboth
  · simp [h1] at hboth

/-- C23 as stated fails: two checkouts of `[2 x Burger]` against a Burger
counter at 3 (combined demand 4) each issue `decrement_stock(1, 2)`; the store
grants the request it serves first and refuses the other, and both checkouts
are reported successful, the one whose decrement was refused included: it
empties its cart and shows 'Checkout successful!' like the other. -/
theorem checkouts_on_same_counter_both_report_success :
    contention.inventory.productStock 1 = 3 ∧
      App.decrementCalls (App.buildPlan contention.cart scenarioC.products) =
        [Call.decrement_stock (some 1) 2] ∧
      (Store.decrement_stock contention.inventory 1 2).1 = true ∧
      (Store.decrement_stock (Store.decrement_stock contention.inventory 1 2).2 1 2).1 =
        false ∧
      (App.handleCheckout contention.cart scenarioC.products cash acceptingStore).toast =
        some Toast.checkoutSuccessful ∧
      (App.handleCheckout contention.cart scenarioC.products cash refusingStore).toast =
        some Toast.checkoutSuccessful ∧
      (App.handleCheckout contention.cart scenarioC.products cash refusingStore).cart = [] := by
  refine ⟨?_, ?_, ?_, ?_, ?_, ?_, ?_⟩
  · simp [contention.inventory]
  · norm_num [App.decrementCalls, App.buildPlan, App.planStep, contention.cart,
      scenarioC.products, scenarioC.productsWithPrice, scenarioC.bundleItemsData,
      App.enrichedProducts, App.enrichProduct, App.attachItems, App.attachRecipe,
      App.copyProduct, CartItem.id, JSMap.accumulate, JSMap.set, JSMap.get, jsOr,
      App.recipeCost]
  · norm_num [Store.decrement_stock, Store.decrement, contention.inventory]
  · norm_num [Store.decrement_stock, Store.decrement, contention.inventory]
  · rw [App.handleCheckout_settled contention.cart scenarioC.products cash acceptingStore 7
      (by simp [contention.cart]) rfl rfl]
  · rw [App.handleCheckout_settled contention.cart scenarioC.products cash refusingStore 7
      (by simp [contention.cart]) rfl rfl]
  · rw [App.handleCheckout_settled contention.cart scenarioC.products cash refusingStore 7
      (by simp [contention.cart]) rfl rfl]

/-- C23 (amended): of two decrement requests on one counter whose combined
demand exceeds the available stock, the store does not grant both, in
whichever order it serves them; in every schedule of requests on a counter
that starts at 0 or more, the granted quantities add up to at most the
available stock and the counter stays at 0 or more. The checkouts that issued
the requests are all reported successful, whatever the store replies. -/
theorem decrements_on_same_counter_not_both_granted (available q1 q2 : ℚ)
    (h : available < q1 + q2) :
    (Store.serveAll available [q1, q2]).1 ≠ [true, true] ∧
      (Store.serveAll available [q2, q1]).1 ≠ [true, true] ∧
      (∀ requests : List ℚ, 0 ≤ available →
        Store.granted requests (Store.serveAll available requests).1 ≤ available ∧
        0 ≤ (Store.serveAll available requests).2) ∧
      ∀ (cart : List CartItem) (products : List Product) (paymentMethod : String)
        (transaction_id : Nat) (rpcError : Call → Bool), cart ≠ [] →
        (App.handleCheckout cart products paymentMethod
          { transaction := some transaction_id, itemsError := false,
            rpcError := rpcError }).toast = some Toast.checkoutSuccessful := by
  refine ⟨Store.serveAll_pair available q1 q2 h,
    Store.serveAll_pair available q2 q1 (by linarith), ?_, ?_⟩
  · intro requests h0
    have hfinal := Store.serveAll_nonneg available h0 requests
    refine ⟨?_, hfinal⟩
    have := Store.serveAll_granted available requests
    linarith
  · intro cart products paymentMethod transaction_id rpcError hne
    rw [App.handleCheckout_settled cart products paymentMethod _ transaction_id hne rfl rfl]

/-- Witness of C23 (amended): against a counter at 3, two requests of 2 are
not both granted. -/
theorem decrements_on_same_counter_not_both_granted_witness :
    (3 : ℚ) < 2 + 2 ∧ (Store.serveAll 3 [2, 2]).1 ≠ [true, true] :=
  ⟨by norm_num, (decrements_on_same_counter_not_both_granted 3 2 2 (by norm_num)).1⟩

/-! ## Product management -/

/-- C21 (divergence): from a catalog with the non-bundles Fries (1) and
Sauce (3), adding the bundle Combo (2) = 1 x Fries and then editing Fries into
a bundle of 1 x Sauce, each component being taken from the addable products of
the editor, leaves the bundle row of Combo naming Fries, which is now a bundle:
the catalog has a nested bundle. -/
theorem productManagement_nests_bundle :
    (ProductModal.addableProducts nestedEdit.start.allProducts none).map Product.id =
        [1, 3] ∧
      nestedEdit.afterAdd.NoNestedBundles ∧
      (ProductModal.addableProducts nestedEdit.afterAdd.allProducts
        (nestedEdit.afterAdd.allProducts.find? (fun p => p.id = 1))).map Product.id = [3] ∧
      nestedEdit.afterUpdate =
        { products :=
            [ { id := 1, is_bundle := true, price := 6, stock := 0, production_cost := none },
              { id := 3, is_bundle := false, price := 1, stock := 10,
                production_cost := none },
              { id := 2, is_bundle := true, price := 6, stock := 0,
                production_cost := none } ]
          bundle_items :=
            [ { bundle_product_id := 2, item_product_id := 1, quantity := 1 },
              { bundle_product_id := 1, item_product_id := 3, quantity := 1 } ]
          recipes := [] } ∧
      ¬ nestedEdit.afterUpdate.NoNestedBundles := by
  have hupdate : nestedEdit.afterUpdate =
      { products :=
          [ { id := 1, is_bundle := true, price := 6, stock := 0, production_cost := none },
            { id := 3, is_bundle := false, price := 1, stock := 10, production_cost := none },
            { id := 2, is_bundle := true, price := 6, stock := 0, production_cost := none } ]
        bundle_items :=
          [ { bundle_product_id := 2, item_product_id := 1, quantity := 1 },
            { bundle_product_id := 1, item_product_id := 3, quantity := 1 } ]
        recipes := [] } := by
    norm_num [nestedEdit.afterUpdate, nestedEdit.afterAdd, nestedEdit.start,
      nestedEdit.bundleForm, App.addProduct, App.updateProduct, App.productData, jsOr]
  refine ⟨?_, ?_, ?_, hupdate, ?_⟩
  · norm_num [ProductModal.addableProducts, Catalog.allProducts, nestedEdit.start,
      App.enrichedProducts, App.enrichProduct, App.attachItems, App.attachRecipe,
      App.copyProduct, App.recipeCost, List.filter_cons]
    rfl
  · intro row hrow
    norm_num [nestedEdit.afterAdd, nestedEdit.start, nestedEdit.bundleForm, App.addProduct,
      App.productData, jsOr] at hrow ⊢
    subst hrow
    simp
  · norm_num [ProductModal.addableProducts, Catalog.allProducts, nestedEdit.afterAdd,
      nestedEdit.start, nestedEdit.bundleForm, App.addProduct, App.productData, jsOr,
      App.enrichedProducts, App.enrichProduct, App.attachItems, App.attachRecipe,
      App.copyProduct, App.recipeCost, List.filter_cons]
  · intro h
    rw [hupdate] at h
    obtain ⟨p, hp, hid, hb⟩ :=
      h { bundle_product_id := 2, item_product_id := 1, quantity := 1 } (by simp)
    simp at hp
    rcases hp with rfl | rfl | rfl <;> simp at hid hb

/-! ## The bundle editor and the recipe editor -/

theorem ProductModal.itemQuantity_integer (parsed : Option ℤ) :
    ∃ n : ℤ, 1 ≤ n ∧ ProductModal.itemQuantity parsed = n := by
  unfold ProductModal.itemQuantity
  cases parsed with
  | none => exact ⟨1, le_refl _, by simp [jsOr]⟩
  | some m =>
    by_cases h0 : (m : ℚ) = 0
    · exact ⟨1, le_refl _, by simp [jsOr, h0]⟩
    · refine ⟨max 1 m, le_max_left _ _, ?_⟩
      simp only [Option.map_some', jsOr, h0, if_false]
      push_cast
      rfl

theorem ProductModal.one_le_itemQuantity (parsed : Option ℤ) :
    1 ≤ ProductModal.itemQuantity parsed := le_max_left _ _

theorem ProductModal.recipeQuantity_ge (parsed : Option ℚ) :
    1 / 100 ≤ ProductModal.recipeQuantity parsed := le_max_left _ _

theorem map_ids_of_map_if {α : Type} (key : α → Nat) (f : α → α) (id : Nat) (xs : List α)
    (hf : ∀ x, key (f x) = key x) :
    (xs.map (fun x => if key x = id then f x else x)).map key = xs.map key := by
  rw [List.map_map]
  apply List.map_congr_left
  intro x _
  show key (if key x = id then f x else x) = key x
  by_cases h : key x = id
  · rw [if_pos h, hf]
  · rw [if_neg h]

/-- C24: from every form state whose items have pairwise distinct
`item_product_id` and quantities at least 1, the three handlers of the bundle
editor yield items with pairwise distinct `item_product_id` and quantities at
least 1, for any selection and any text typed as quantity; the quantity that
`handleItemQuantityChange` writes is an integer at least 1, and integer
quantities stay integer. -/
theorem bundle_editor_keeps_form_ok (items : List BundleFormItem) (h : BundleFormOk items)
    (selectedProductToAdd : Option Nat) (productId : Nat) (parsed : Option ℤ) :
    BundleFormOk (ProductModal.handleAddItemToBundle items selectedProductToAdd) ∧
      BundleFormOk (ProductModal.handleRemoveItemFromBundle items productId) ∧
      BundleFormOk (ProductModal.handleItemQuantityChange items productId parsed) ∧
      (∃ n : ℤ, 1 ≤ n ∧ ProductModal.itemQuantity parsed = n) ∧
      (BundleFormIntegral items →
        BundleFormIntegral (ProductModal.handleAddItemToBundle items selectedProductToAdd) ∧
        BundleFormIntegral (ProductModal.handleRemoveItemFromBundle items productId) ∧
        BundleFormIntegral (ProductModal.handleItemQuantityChange items productId parsed)) := by
  obtain ⟨hnd, hq⟩ := h
  have hadd : ∀ id : Nat, ¬ items.any (fun item => item.item_product_id = id) = true →
      id ∉ items.map BundleFormItem.item_product_id := by
    intro id hany hmem
    apply hany
    obtain ⟨item, hitem, hid⟩ := List.mem_map.mp hmem
    rw [List.any_eq_true]
    exact ⟨item, hitem, by simpa using hid⟩
  refine ⟨?_, ?_, ?_, ProductModal.itemQuantity_integer parsed, ?_⟩
  · unfold ProductModal.handleAddItemToBundle
    cases selectedProductToAdd with
    | none => exact ⟨hnd, hq⟩
    | some id =>
      by_cases hany : items.any (fun item => item.item_product_id = id) = true
      · simp only [hany, if_true]
        exact ⟨hnd, hq⟩
      · have hfalse := Bool.eq_false_iff.mpr hany
        simp only [hfalse, Bool.false_eq_true, if_false]
        constructor
        · rw [List.map_append, List.nodup_append]
          refine ⟨hnd, by simp, ?_⟩
          intro a ha hb
          simp only [List.map_cons, List.map_nil, List.mem_singleton] at hb
          exact hadd id hany (hb ▸ ha)
        · intro item hitem
          rcases List.mem_append.mp hitem with hitem | hitem
          · exact hq item hitem
          · simp only [List.mem_singleton] at hitem
            subst hitem
            exact le_refl _
  · unfold ProductModal.handleRemoveItemFromBundle
    constructor
    · exact (List.filter_sublist _).map BundleFormItem.item_product_id |>.nodup hnd
    · intro item hitem
      exact hq item (List.mem_filter.mp hitem).1
  · unfold ProductModal.handleItemQuantityChange
    constructor
    · rw [map_ids_of_map_if BundleFormItem.item_product_id
        (fun item => { item with quantity := ProductModal.itemQuantity parsed }) productId
        items (fun _ => rfl)]
      exact hnd
    · intro item hitem
      obtain ⟨old, hold, rfl⟩ := List.mem_map.mp hitem
      by_cases hid : old.item_product_id = productId
      · simp only [hid, if_true]
        exact ProductModal.one_le_itemQuantity parsed
      · simp only [hid, if_false]
        exact hq old hold
  · intro hint
    refine ⟨?_, ?_, ?_⟩
    · unfold ProductModal.handleAddItemToBundle
      cases selectedProductToAdd with
      | none => exact hint
      | some id =>
        by_cases hany : items.any (fun item => item.item_product_id = id) = true
        · simp only [hany, if_true]
          exact hint
        · have hfalse := Bool.eq_false_iff.mpr hany
          simp only [hfalse, Bool.false_eq_true, if_false]
          intro item hitem
          rcases List.mem_append.mp hitem with hitem | hitem
          · exact hint item hitem
          · simp only [List.mem_singleton] at hitem
            subst hitem
            exact ⟨1, by simp⟩
    · intro item hitem
      exact hint item (List.mem_filter.mp hitem).1
    · intro item hitem
      unfold ProductModal.handleItemQuantityChange at hitem
      obtain ⟨old, hold, rfl⟩ := List.mem_map.mp hitem
      by_cases hid : old.item_product_id = productId
      · simp only [hid, if_true]
        obtain ⟨n, -, hn⟩ := ProductModal.itemQuantity_integer parsed
        exact ⟨n, hn⟩
      · simp only [hid, if_false]
        exact hint old hold

/-- Witness of C24: the form `[(1, 2)]`, to which the product 3 is added. -/
theorem bundle_editor_keeps_form_ok_witness :
    BundleFormOk
      (ProductModal.handleAddItemToBundle [{ item_product_id := 1, quantity := 2 }] (some 3)) :=
  (bundle_editor_keeps_form_ok [{ item_product_id := 1, quantity := 2 }]
    ⟨by simp, by simp⟩ (some 3) 1 (some 0)).1

/-- C25: from every form state whose recipe rows have pairwise distinct
`ingredient_id` and quantities greater than 0, the three handlers of the
recipe editor yield rows with pairwise distinct `ingredient_id` and quantities
greater than 0, for any selection and any text typed as quantity; the quantity
that `handleRecipeItemQuantityChange` writes is at least 0.01. -/
theorem recipe_editor_keeps_form_ok (recipeItems : List RecipeFormItem)
    (h : RecipeFormOk recipeItems) (selectedIngredientToAdd : Option Nat)
    (ingredientId : Nat) (parsed : Option ℚ) :
    RecipeFormOk
        (ProductModal.handleAddIngredientToRecipe recipeItems selectedIngredientToAdd) ∧
      RecipeFormOk (ProductModal.handleRemoveIngredientFromRecipe recipeItems ingredientId) ∧
      RecipeFormOk
        (ProductModal.handleRecipeItemQuantityChange recipeItems ingredientId parsed) ∧
      1 / 100 ≤ ProductModal.recipeQuantity parsed ∧
      ∀ item ∈ ProductModal.handleRecipeItemQuantityChange recipeItems ingredientId parsed,
        item.ingredient_id = ingredientId → 1 / 100 ≤ item.quantity := by
  obtain ⟨hnd, hq⟩ := h
  have hpos : (0 : ℚ) < ProductModal.recipeQuantity parsed :=
    lt_of_lt_of_le (by norm_num) (ProductModal.recipeQuantity_ge parsed)
  refine ⟨?_, ?_, ?_, ProductModal.recipeQuantity_ge parsed, ?_⟩
  · unfold ProductModal.handleAddIngredientToRecipe
    cases selectedIngredientToAdd with
    | none => exact ⟨hnd, hq⟩
    | some id =>
      by_cases hany : recipeItems.any (fun item => item.ingredient_id = id) = true
      · simp only [hany, if_true]
        exact ⟨hnd, hq⟩
      · have hfalse := Bool.eq_false_iff.mpr hany
        simp only [hfalse, Bool.false_eq_true, if_false]
        constructor
        · rw [List.map_append, List.nodup_append]
          refine ⟨hnd, by simp, ?_⟩
          intro a ha hb
          simp only [List.map_cons, List.map_nil, List.mem_singleton] at hb
          subst hb
          apply hany
          obtain ⟨item, hitem, hid⟩ := List.mem_map.mp ha
          rw [List.any_eq_true]
          exact ⟨item, hitem, by simpa using hid⟩
        · intro item hitem
          rcases List.mem_append.mp hitem with hitem | hitem
          · exact hq item hitem
          · simp only [List.mem_singleton] at hitem
            subst hitem
            exact zero_lt_one
  · unfold ProductModal.handleRemoveIngredientFromRecipe
    constructor
    · exact (List.filter_sublist _).map RecipeFormItem.ingredient_id |>.nodup hnd
    · intro item hitem
      exact hq item (List.mem_filter.mp hitem).1
  · unfold ProductModal.handleRecipeItemQuantityChange
    constructor
    · rw [map_ids_of_map_if RecipeFormItem.ingredient_id
        (fun item => { item with quantity := ProductModal.recipeQuantity parsed })
        ingredientId recipeItems (fun _ => rfl)]
      exact hnd
    · intro item hitem
      obtain ⟨old, hold, rfl⟩ := List.mem_map.mp hitem
      by_cases hid : old.ingredient_id = ingredientId
      · simp only [hid, if_true]
        exact hpos
      · simp only [hid, if_false]
        exact hq old hold
  · intro item hitem hid
    unfold ProductModal.handleRecipeItemQuantityChange at hitem
    obtain ⟨old, hold, rfl⟩ := List.mem_map.mp hitem
    by_cases hold_id : old.ingredient_id = ingredientId
    · simp only [hold_id, if_true]
      exact ProductModal.recipeQuantity_ge parsed
    · rw [if_neg hold_id] at hid
      exact absurd hid hold_id

/-- Witness of C25: the form `[(1, 0.5)]`, whose quantity is changed with a
text that is not a number. -/
theorem recipe_editor_keeps_form_ok_witness :
    RecipeFormOk
      (ProductModal.handleRecipeItemQuantityChange
        [{ ingredient_id := 1, quantity := 1 / 2 }] 1 none) :=
  (recipe_editor_keeps_form_ok [{ ingredient_id := 1, quantity := 1 / 2 }]
    ⟨by simp, by norm_num⟩ none 1 none).2.2.1

/-! ## Additivity and order-independence of the plan -/

theorem JSMap.get_addLines_nil {κ : Type} [DecidableEq κ] (targets : Nat → List (κ × ℚ))
    (cart : List CartItem) (k : κ) :
    (JSMap.get (JSMap.addLines targets cart []) k).getD 0 =
      (cart.map (fun line => JSMap.perUnit targets k line.id * line.quantity)).sum := by
  rw [JSMap.get_addLines]
  simp [JSMap.get]

theorem JSMap.mem_keys_addLines_nil {κ : Type} [DecidableEq κ] (targets : Nat → List (κ × ℚ))
    (cart : List CartItem) (k : κ) :
    k ∈ JSMap.keys (JSMap.addLines targets cart []) ↔
      ∃ id ∈ cart.map CartItem.id, ∃ e ∈ targets id, e.1 = k := by
  rw [JSMap.mem_keys_addLines]
  simp [JSMap.keys]

theorem JSMap.addLines_append {κ : Type} [DecidableEq κ] (targets : Nat → List (κ × ℚ))
    (c1 c2 : List CartItem) (k : κ) :
    (JSMap.get (JSMap.addLines targets (c1 ++ c2) []) k).getD 0 =
        (JSMap.get (JSMap.addLines targets c1 []) k).getD 0 +
          (JSMap.get (JSMap.addLines targets c2 []) k).getD 0 ∧
      (k ∈ JSMap.keys (JSMap.addLines targets (c1 ++ c2) []) ↔
        k ∈ JSMap.keys (JSMap.addLines targets c1 []) ∨
          k ∈ JSMap.keys (JSMap.addLines targets c2 [])) := by
  constructor
  · rw [JSMap.get_addLines_nil, JSMap.get_addLines_nil, JSMap.get_addLines_nil,
      List.map_append, List.sum_append]
  · rw [JSMap.mem_keys_addLines_nil, JSMap.mem_keys_addLines_nil,
      JSMap.mem_keys_addLines_nil, List.map_append]
    constructor
    · rintro ⟨id, hid, e, he, hk⟩
      rcases List.mem_append.mp hid with hid | hid
      · exact Or.inl ⟨id, hid, e, he, hk⟩
      · exact Or.inr ⟨id, hid, e, he, hk⟩
    · rintro (⟨id, hid, e, he, hk⟩ | ⟨id, hid, e, he, hk⟩)
      · exact ⟨id, List.mem_append_left _ hid, e, he, hk⟩
      · exact ⟨id, List.mem_append_right _ hid, e, he, hk⟩

theorem JSMap.addLines_perm {κ : Type} [DecidableEq κ] (targets : Nat → List (κ × ℚ))
    (cart cart' : List CartItem) (hperm : cart.Perm cart') (k : κ) :
    JSMap.get (JSMap.addLines targets cart' []) k =
      JSMap.get (JSMap.addLines targets cart []) k := by
  apply JSMap.get_eq_of_keys_of_getD
  · rw [JSMap.mem_keys_addLines_nil, JSMap.mem_keys_addLines_nil]
    have hids : ∀ id, id ∈ cart'.map CartItem.id ↔ id ∈ cart.map CartItem.id :=
      fun id => (hperm.map CartItem.id).symm.mem_iff
    constructor
    · rintro ⟨id, hid, e, he, hk⟩
      exact ⟨id, (hids id).mp hid, e, he, hk⟩
    · rintro ⟨id, hid, e, he, hk⟩
      exact ⟨id, (hids id).mpr hid, e, he, hk⟩
  · rw [JSMap.get_addLines_nil, JSMap.get_addLines_nil]
    exact ((hperm.map _).sum_eq).symm

/-- With exact sums and products, for every product list and all carts `c1`
and `c2`, each decrement map built from `c1 ++ c2` is the pointwise sum of the
maps built from `c1` and from `c2` (its keys are the keys of either, its
quantity at a key is the sum of theirs, an absent key counting 0), and the
maps built from a permutation of a cart have the same entry at every key as
those built from the cart. -/
theorem App.buildPlan_additive_exact (products : List Product)
    (c1 c2 : List CartItem) :
    (∀ k : Option Nat,
      (JSMap.get (App.buildPlan (c1 ++ c2) products).productStockDecrements k).getD 0 =
          (JSMap.get (App.buildPlan c1 products).productStockDecrements k).getD 0 +
            (JSMap.get (App.buildPlan c2 products).productStockDecrements k).getD 0 ∧
        (k ∈ JSMap.keys (App.buildPlan (c1 ++ c2) products).productStockDecrements ↔
          k ∈ JSMap.keys (App.buildPlan c1 products).productStockDecrements ∨
            k ∈ JSMap.keys (App.buildPlan c2 products).productStockDecrements)) ∧
    (∀ I : Nat,
      (JSMap.get (App.buildPlan (c1 ++ c2) products).ingredientStockDecrements I).getD 0 =
          (JSMap.get (App.buildPlan c1 products).ingredientStockDecrements I).getD 0 +
            (JSMap.get (App.buildPlan c2 products).ingredientStockDecrements I).getD 0 ∧
        (I ∈ JSMap.keys (App.buildPlan (c1 ++ c2) products).ingredientStockDecrements ↔
          I ∈ JSMap.keys (App.buildPlan c1 products).ingredientStockDecrements ∨
            I ∈ JSMap.keys (App.buildPlan c2 products).ingredientStockDecrements)) ∧
    (∀ cart' : List CartItem, c1.Perm cart' →
      (∀ k : Option Nat,
        JSMap.get (App.buildPlan cart' products).productStockDecrements k =
          JSMap.get (App.buildPlan c1 products).productStockDecrements k) ∧
      (∀ I : Nat,
        JSMap.get (App.buildPlan cart' products).ingredientStockDecrements I =
          JSMap.get (App.buildPlan c1 products).ingredientStockDecrements I)) := by
  simp only [App.buildPlan_eq_addLines]
  refine ⟨fun k => JSMap.addLines_append _ c1 c2 k, fun I => JSMap.addLines_append _ c1 c2 I,
    fun cart' hperm => ⟨fun k => JSMap.addLines_perm _ c1 cart' hperm k,
      fun I => JSMap.addLines_perm _ c1 cart' hperm I⟩⟩

/-! ## Agreement of the cost computations and totals -/

/-- C27: with pairwise distinct ingredient ids and the recipes loaded, for
every non-bundle product built by `fetchData`, `POSView.getUnitCost` of the
product over the same ingredient list is the `production_cost` of the product,
whether or not its recipe rows reference ingredients of the list. -/
theorem POSView_getUnitCost_eq_production_cost (productsWithPrice : List ProductRow)
    (bundleItemsData : Option (List BundleItemRow)) (recipesData : List RecipeItem)
    (ingredients : List Ingredient) (product : Product)
    (hnd : (ingredients.map Ingredient.id).Nodup)
    (hp : product ∈ App.enrichedProducts productsWithPrice bundleItemsData (some recipesData)
      ingredients)
    (hnb : product.is_bundle = false) :
    product.production_cost = some (POSView.getUnitCost ingredients product) := by
  unfold App.enrichedProducts at hp
  obtain ⟨row, -, rfl⟩ := List.mem_map.mp hp
  have hrow : row.is_bundle = false := by
    obtain ⟨id, b, price, stock, pc⟩ := row
    cases b
    · rfl
    · cases bundleItemsData <;>
        simp [App.enrichProduct, App.attachItems, App.attachRecipe, App.copyProduct] at hnb
  rw [POSView.getUnitCost_enrichProduct_simple _ _ _ _ hnd row hrow,
    App.enrichProduct_simple _ _ _ _ _ hrow]

/-- Witness of C27 on the dangling load: Bread, whose recipe has a row for an
absent ingredient. -/
theorem POSView_getUnitCost_eq_production_cost_witness :
    (App.enrichProduct dangling.productsWithPrice (some dangling.bundleItemsData)
        (some dangling.recipesData) scenarioA.formattedIngredients
        { id := 1, is_bundle := false, price := 5, stock := 4,
          production_cost := none }).production_cost =
      some (POSView.getUnitCost scenarioA.formattedIngredients
        (App.enrichProduct dangling.productsWithPrice (some dangling.bundleItemsData)
          (some dangling.recipesData) scenarioA.formattedIngredients
          { id := 1, is_bundle := false, price := 5, stock := 4, production_cost := none })) :=
  POSView_getUnitCost_eq_production_cost dangling.productsWithPrice
    (some dangling.bundleItemsData) dangling.recipesData scenarioA.formattedIngredients _
    (by simp [scenarioA.formattedIngredients])
    (by simp [App.enrichedProducts, dangling.productsWithPrice])
    (by simp [App.enrichProduct, App.attachItems, App.attachRecipe, App.copyProduct])

theorem App.foldl_subtotal (cart : List CartItem) (a : ℚ) :
    cart.foldl (fun total item => total + item.price * item.quantity) a =
      a + (cart.map (fun item => item.price * item.quantity)).sum := by
  induction cart generalizing a with
  | nil => simp
  | cons item cart ih =>
    rw [List.foldl_cons, ih, List.map_cons, List.sum_cons, add_assoc]

theorem App.subtotal_eq_sum (cart : List CartItem) :
    App.subtotal cart = (cart.map (fun item => item.price * item.quantity)).sum := by
  unfold App.subtotal
  rw [App.foldl_subtotal]
  simp

/-- C28: for every non-empty cart, the first request of `handleCheckout`
records as `total_amount` the sum of `price x quantity` over the cart lines,
which is the `cartTotal` displayed by `POSView`; when that insert succeeds, the
second request records one row per cart line, in cart order, with the id,
quantity and price of the line, and the sum of `quantity x price_at_sale`
over these rows is the recorded total. -/
theorem handleCheckout_records_consistent_sale (cart : List CartItem) (products : List Product)
    (paymentMethod : String) (store : StoreReplies) (hne : cart ≠ []) :
    (App.handleCheckout cart products paymentMethod store).calls.head? =
        some (Call.insertTransaction
          ((cart.map (fun item => item.price * item.quantity)).sum) paymentMethod) ∧
      POSView.cartTotal cart = (cart.map (fun item => item.price * item.quantity)).sum ∧
      ∀ transaction_id : Nat, store.transaction = some transaction_id →
        (App.handleCheckout cart products paymentMethod store).calls.take 2 =
          [Call.insertTransaction
              ((cart.map (fun item => item.price * item.quantity)).sum) paymentMethod,
            Call.insertTransactionItems (App.transactionItems transaction_id cart)] ∧
        (App.transactionItems transaction_id cart).length = cart.length ∧
        (App.transactionItems transaction_id cart).map
            (fun row => (row.product_id, row.quantity, row.price_at_sale)) =
          cart.map (fun item => (item.id, item.quantity, item.price)) ∧
        ((App.transactionItems transaction_id cart).map
            (fun row => row.quantity * row.price_at_sale)).sum =
          (cart.map (fun item => item.price * item.quantity)).sum := by
  have hlen : ¬ cart.length = 0 := fun h => hne (List.length_eq_zero.mp h)
  refine ⟨?_, ?_, ?_⟩
  · unfold App.handleCheckout
    rw [if_neg hlen, App.subtotal_eq_sum]
    cases store.transaction with
    | none => rfl
    | some tid => cases store.itemsError <;> rfl
  · unfold POSView.cartTotal POSView.cartSubtotal
    rw [App.foldl_subtotal]
    simp
  · intro tid ht
    refine ⟨?_, ?_, ?_, ?_⟩
    · unfold App.handleCheckout
      rw [if_neg hlen, App.subtotal_eq_sum, ht]
      cases store.itemsError <;> rfl
    · simp [App.transactionItems]
    · simp [App.transactionItems]
    · simp only [App.transactionItems, List.map_map]
      congr 1
      apply List.map_congr_left
      intro item _
      simp [mul_comm]

/-- Witness of C28 on scenario C: the sale of `[2 x ComboMeal]`. -/
theorem handleCheckout_records_consistent_sale_witness :
    (App.handleCheckout scenarioC.cart scenarioC.products cash acceptingStore).calls.head? =
      some (Call.insertTransaction
        ((scenarioC.cart.map (fun item => item.price * item.quantity)).sum) cash) :=
  (handleCheckout_records_consistent_sale scenarioC.cart scenarioC.products cash
    acceptingStore (by simp [scenarioC.cart])).1

/-! ## `updateCartQuantity` -/

theorem forall₂_map_if (cart : List CartItem) (productId : Nat) (q : ℚ) :
    List.Forall₂
      (fun old new : CartItem =>
        new.product = old.product ∧
          new.quantity = if old.id = productId then q else old.quantity)
      cart
      (cart.map (fun item => if item.id = productId then { item with quantity := q } else item)) := by
  induction cart with
  | nil => exact List.Forall₂.nil
  | cons item cart ih =>
    rw [List.map_cons]
    refine List.Forall₂.cons ?_ ih
    by_cases h : item.id = productId
    · simp [h]
    · simp [h]

/-- C29: for every cart, product id and integer `newQuantity`: when
`newQuantity <= 0` the result is the cart without the lines of that id, the
other lines unchanged and in order; otherwise the result has the length of the
cart and, position by position, the same product and the quantity
`newQuantity` on the lines of that id, the old quantity on the others; an id
that is not in the cart leaves the cart unchanged. -/
theorem updateCartQuantity_changes_only_addressed_line (cart : List CartItem)
    (productId : Nat) (newQuantity : ℤ) :
    (newQuantity ≤ 0 →
      App.updateCartQuantity cart productId newQuantity =
          cart.filter (fun line => ¬ line.id = productId) ∧
        (App.updateCartQuantity cart productId newQuantity).Sublist cart ∧
        ∀ line, line ∈ App.updateCartQuantity cart productId newQuantity ↔
          line ∈ cart ∧ line.id ≠ productId) ∧
    (0 < newQuantity →
      (App.updateCartQuantity cart productId newQuantity).length = cart.length ∧
        List.Forall₂
          (fun old new : CartItem =>
            new.product = old.product ∧
              new.quantity = if old.id = productId then (newQuantity : ℚ) else old.quantity)
          cart (App.updateCartQuantity cart productId newQuantity)) ∧
    ((∀ line ∈ cart, line.id ≠ productId) →
      App.updateCartQuantity cart productId newQuantity = cart) := by
  refine ⟨?_, ?_, ?_⟩
  · intro hq
    have hq' : (newQuantity : ℚ) ≤ 0 := by exact_mod_cast hq
    have hres : App.updateCartQuantity cart productId newQuantity =
        cart.filter (fun line => ¬ line.id = productId) := by
      unfold App.updateCartQuantity
      rw [if_pos hq']
    refine ⟨hres, ?_, ?_⟩
    · rw [hres]
      exact List.filter_sublist _
    · intro line
      rw [hres, List.mem_filter]
      simp
  · intro hq
    have hq' : ¬ (newQuantity : ℚ) ≤ 0 := by
      have : (0 : ℚ) < (newQuantity : ℚ) := by exact_mod_cast hq
      exact not_le.mpr this
    have hres : App.updateCartQuantity cart productId newQuantity =
        cart.map (fun item =>
          if item.id = productId then { item with quantity := (newQuantity : ℚ) }
          else item) := by
      unfold App.updateCartQuantity
      rw [if_neg hq']
    rw [hres]
    exact ⟨List.length_map _ _, forall₂_map_if cart productId newQuantity⟩
  · intro habsent
    unfold App.updateCartQuantity
    by_cases hq : (newQuantity : ℚ) ≤ 0
    · rw [if_pos hq, List.filter_eq_self]
      intro line hline
      simpa using habsent line hline
    · rw [if_neg hq]
      conv_rhs => rw [← List.map_id cart]
      apply List.map_congr_left
      intro line hline
      simp [habsent line hline]

/-- Witness of C29: setting the quantity of ComboMeal (3) to 5 in the cart
`[2 x ComboMeal]` keeps the length of the cart. -/
theorem updateCartQuantity_changes_only_addressed_line_witness :
    (App.updateCartQuantity scenarioC.cart 3 ((5 : ℤ) : ℚ)).length = scenarioC.cart.length :=
  ((updateCartQuantity_changes_only_addressed_line scenarioC.cart 3 5).2.1
    (by norm_num)).1

/-! ## Sales in the reports -/

theorem ReportsView.foldl_calcSaleCost (allProducts : List Product)
    (items : List TransactionItem) (a : ℚ) :
    items.foldl
        (fun acc it =>
          acc + ReportsView.getUnitCost allProducts
            (JSMap.get (ReportsView.byId allProducts) it.product_id) * it.quantity)
        a =
      a + (items.map (fun it =>
        ReportsView.getUnitCost allProducts
          (JSMap.get (ReportsView.byId allProducts) it.product_id) * it.quantity)).sum := by
  induction items generalizing a with
  | nil => simp
  | cons it items ih =>
    rw [List.foldl_cons, ih, List.map_cons, List.sum_cons, add_assoc]

theorem foldl_add_eq_sum {α : Type} (f : α → ℚ) (xs : List α) (a : ℚ) :
    xs.foldl (fun acc x => acc + f x) a = a + (xs.map f).sum := by
  induction xs generalizing a with
  | nil => simp
  | cons x xs ih =>
    rw [List.foldl_cons, ih, List.map_cons, List.sum_cons, add_assoc]

theorem ReportsView.byId_get_none (allProducts : List Product) (id : Nat)
    (h : ∀ p ∈ allProducts, p.id ≠ id) :
    JSMap.get (ReportsView.byId allProducts) id = none := by
  cases hg : JSMap.get (ReportsView.byId allProducts) id with
  | none => rfl
  | some c =>
    obtain ⟨hmem, hid⟩ := ReportsView.byId_get allProducts id c hg
    exact absurd hid (h c hmem)

/-! ## The index `byId` of the reports -/

theorem JSMap.get_foldl_set_eq {α κ : Type} [DecidableEq κ] (key : α → κ) (xs : List α)
    (m : JSMap κ α) (k : κ) :
    JSMap.get (xs.foldl (fun map x => JSMap.set map (key x) x) m) k =
      (xs.reverse.find? (fun x => key x = k)).or (JSMap.get m k) := by
  induction xs generalizing m with
  | nil => simp
  | cons x xs ih =>
    rw [List.foldl_cons, ih, List.reverse_cons, List.find?_append, JSMap.get_set]
    cases xs.reverse.find? (fun x => key x = k) with
    | some y => simp
    | none =>
      by_cases hx : key x = k <;> simp [hx]

/-- The index `byId` answers with the last product of the list that has the
id looked up. -/
theorem ReportsView.byId_get_eq (allProducts : List Product) (id : Nat) :
    JSMap.get (ReportsView.byId allProducts) id =
      allProducts.reverse.find? (fun p => p.id = id) := by
  unfold ReportsView.byId
  rw [JSMap.get_foldl_set_eq Product.id allProducts [] id]
  simp [JSMap.get]

/-- An id carried by a product of the list is found in the index `byId`. -/
theorem ReportsView.byId_get_of_mem (allProducts : List Product) (p : Product)
    (hp : p ∈ allProducts) :
    ∃ c ∈ allProducts, c.id = p.id ∧
      JSMap.get (ReportsView.byId allProducts) p.id = some c := by
  rw [ReportsView.byId_get_eq]
  cases hf : allProducts.reverse.find? (fun x => x.id = p.id) with
  | none =>
    rw [List.find?_eq_none] at hf
    have := hf p (List.mem_reverse.mpr hp)
    simp at this
  | some c =>
    have hmem := List.mem_reverse.mp (List.mem_of_find?_eq_some hf)
    have hid : c.id = p.id := by
      have := List.find?_some hf
      simpa using this
    exact ⟨c, hmem, hid, rfl⟩

/-- With pairwise distinct ids, the index `byId` answers with the product of
the list that has the id looked up. -/
theorem ReportsView.byId_get_of_mem_nodup (allProducts : List Product)
    (hnd : (allProducts.map Product.id).Nodup) (p : Product) (hp : p ∈ allProducts) :
    JSMap.get (ReportsView.byId allProducts) p.id = some p := by
  rw [ReportsView.byId_get_eq]
  apply find?_product_of_mem_nodup_ids
  · rw [List.map_reverse]
    exact List.nodup_reverse.mpr hnd
  · exact List.mem_reverse.mpr hp

/-- C6 as stated fails: in the nested load the only item of the bundle Mega
(3) is Combo (2), which resolves in the index `byId`; Combo is itself a bundle,
of resolved cost 1 (1 x Fries at 1.00), so the sum over the items of Mega of
`resolved cost of the component x quantity` is `1 x 2 = 2`, while
`ReportsView.getUnitCost` of Mega is 0: it reads the `production_cost` of
Combo, which a bundle does not have. -/
theorem ReportsView_getUnitCost_nested_component_not_resolved :
    nested.mega ∈ nested.products ∧ nested.mega.is_bundle = true ∧
      (nested.mega.items.getD []).map
          (fun bi => ((ReportsView.child nested.products bi).map Product.id,
            bi.quantityInBundle)) = [(some 2, 2)] ∧
      ((nested.mega.items.getD []).map
          (fun bi => ReportsView.getUnitCost nested.products
            (ReportsView.child nested.products bi) * bi.quantityInBundle)).sum = 2 ∧
      ReportsView.getUnitCost nested.products (some nested.mega) = 0 := by
  refine ⟨?_, ?_, ?_, ?_, ?_⟩
  · simp [nested.mega, nested.products, nested.productsWithPrice, App.enrichedProducts]
  · simp [nested.mega, App.enrichProduct, App.attachItems, App.attachRecipe,
      App.copyProduct]
  · norm_num [nested.mega, nested.products, nested.productsWithPrice,
      nested.bundleItemsData, nested.recipesData, scenarioB.formattedIngredients,
      App.enrichedProducts, App.enrichProduct, App.attachItems, App.attachRecipe,
      App.copyProduct, App.recipeCost, ReportsView.child, ReportsView.byId,
      BundleSubItem.id, JSMap.get, JSMap.set]
  · norm_num [nested.mega, nested.products, nested.productsWithPrice,
      nested.bundleItemsData, nested.recipesData, scenarioB.formattedIngredients,
      App.enrichedProducts, App.enrichProduct, App.attachItems, App.attachRecipe,
      App.copyProduct, App.recipeCost, ReportsView.getUnitCost, ReportsView.childCost,
      ReportsView.child, ReportsView.byId, BundleSubItem.id, JSMap.get, JSMap.set,
      jsNullish]
  · norm_num [nested.mega, nested.products, nested.productsWithPrice,
      nested.bundleItemsData, nested.recipesData, scenarioB.formattedIngredients,
      App.enrichedProducts, App.enrichProduct, App.attachItems, App.attachRecipe,
      App.copyProduct, App.recipeCost, ReportsView.getUnitCost, ReportsView.childCost,
      ReportsView.child, ReportsView.byId, BundleSubItem.id, JSMap.get, JSMap.set,
      jsNullish]

/-- C6 (amended): for every product list and every bundle each of whose items
names a product of the list, no product with the id of an item being a bundle,
every item resolves in the index `byId` to a product of the list with its id,
and `ReportsView.getUnitCost` of the bundle is the sum over its items of
`getUnitCost(component looked up in the index) x quantityInBundle`. -/
theorem ReportsView_getUnitCost_bundle_of_simple_components (allProducts : List Product)
    (product : Product) (items : List BundleSubItem) (hb : product.is_bundle = true)
    (hi : product.items = some items)
    (hres : ∀ bi ∈ items, ∃ c ∈ allProducts, bi.id = some c.id)
    (hsimple : ∀ bi ∈ items, ∀ c ∈ allProducts, bi.id = some c.id → c.is_bundle = false) :
    (∀ bi ∈ items, ∃ c ∈ allProducts, bi.id = some c.id ∧
        ReportsView.child allProducts bi = some c) ∧
      ReportsView.getUnitCost allProducts (some product) =
        (items.map (fun bi =>
          ReportsView.getUnitCost allProducts (ReportsView.child allProducts bi) *
            bi.quantityInBundle)).sum := by
  have hchild : ∀ bi ∈ items, ∃ c ∈ allProducts, bi.id = some c.id ∧
      ReportsView.child allProducts bi = some c := by
    intro bi hbi
    obtain ⟨p, hp, hid⟩ := hres bi hbi
    obtain ⟨c, hc, hcid, hget⟩ := ReportsView.byId_get_of_mem allProducts p hp
    refine ⟨c, hc, by rw [hid, hcid], ?_⟩
    unfold ReportsView.child
    rw [hid]
    exact hget
  refine ⟨hchild, ?_⟩
  obtain ⟨id, b, price, stock, pc, its, recipe⟩ := product
  simp only at hb hi
  subst hb hi
  simp only [ReportsView.getUnitCost, ReportsView.foldl_childCost, zero_add]
  congr 1
  apply List.map_congr_left
  intro bi hbi
  obtain ⟨c, hc, hid, hget⟩ := hchild bi hbi
  have hnb := hsimple bi hbi c hc hid
  obtain ⟨cid, cb, cprice, cstock, cpc, cits, crecipe⟩ := c
  simp only at hnb
  subst hnb
  simp [ReportsView.childCost, hget, ReportsView.getUnitCost]

/-- Witness of C6 (amended) on scenario B: ComboMeal, whose two items are the
non-bundles Burger and Fries, costs `3 x 1 + 1 x 2`. -/
theorem ReportsView_getUnitCost_bundle_of_simple_components_witness :
    ReportsView.getUnitCost scenarioB.products
        (some (App.enrichProduct scenarioB.productsWithPrice (some scenarioB.bundleItemsData)
          (some scenarioB.recipesData) scenarioB.formattedIngredients
          { id := 3, is_bundle := true, price := 12, stock := 0, production_cost := none })) =
      ([ { productDetails := some { id := 1, is_bundle := false, price := 8, stock := 10,
                                    production_cost := none },
           quantityInBundle := 1 },
         { productDetails := some { id := 2, is_bundle := false, price := 3, stock := 10,
                                    production_cost := none },
           quantityInBundle := 2 } ].map
        (fun bi => ReportsView.getUnitCost scenarioB.products
          (ReportsView.child scenarioB.products bi) * bi.quantityInBundle)).sum :=
  (ReportsView_getUnitCost_bundle_of_simple_components scenarioB.products _
    [ { productDetails := some { id := 1, is_bundle := false, price := 8, stock := 10,
                                 production_cost := none },
        quantityInBundle := 1 },
      { productDetails := some { id := 2, is_bundle := false, price := 3, stock := 10,
                                 production_cost := none },
        quantityInBundle := 2 } ]
    (by simp [App.enrichProduct, App.attachItems, App.attachRecipe, App.copyProduct])
    (by simp [App.enrichProduct, App.attachItems, App.attachRecipe, App.copyProduct,
      scenarioB.productsWithPrice, scenarioB.bundleItemsData])
    (by
      simp [BundleSubItem.id, scenarioB.products, scenarioB.productsWithPrice,
        App.enrichedProducts, App.enrichProduct, App.attachItems, App.attachRecipe,
        App.copyProduct])
    (by
      simp [BundleSubItem.id, scenarioB.products, scenarioB.productsWithPrice,
        App.enrichedProducts, App.enrichProduct, App.attachItems, App.attachRecipe,
        App.copyProduct])).2

/-- C30: for every sale and product list, `calcSaleCost` is the sum over the
items of the sale of `getUnitCost(product of the item) x quantity`, the
product of the item being the product of the list with the `product_id` of the
item (the index `byId` answers with the last such product, which with pairwise
distinct ids is the product itself); an item whose product id is not in the
product list contributes 0; the reported profit is the revenue (the sum of the
totals of the sales) minus the sum of `calcSaleCost` over the sales, and the
margin is 0 when the revenue is 0. -/
theorem ReportsView_calcSaleCost_and_profit (allProducts : List Product) (sales : List Sale)
    (sale : Sale) :
    ReportsView.calcSaleCost allProducts sale =
        (sale.items.map (fun it =>
          ReportsView.getUnitCost allProducts
            (allProducts.reverse.find? (fun p => p.id = it.product_id)) * it.quantity)).sum ∧
      (∀ id : Nat, JSMap.get (ReportsView.byId allProducts) id =
        allProducts.reverse.find? (fun p => p.id = id)) ∧
      ((allProducts.map Product.id).Nodup → ∀ p ∈ allProducts,
        JSMap.get (ReportsView.byId allProducts) p.id = some p) ∧
      (∀ it : TransactionItem, (∀ p ∈ allProducts, p.id ≠ it.product_id) →
        ReportsView.getUnitCost allProducts
          (JSMap.get (ReportsView.byId allProducts) it.product_id) * it.quantity = 0) ∧
      (ReportsView.kpis allProducts sales).revenue =
        (sales.map (fun s => jsNullish s.total 0)).sum ∧
      (ReportsView.kpis allProducts sales).profit =
        (ReportsView.kpis allProducts sales).revenue -
          (sales.map (ReportsView.calcSaleCost allProducts)).sum ∧
      ((ReportsView.kpis allProducts sales).revenue = 0 →
        (ReportsView.kpis allProducts sales).marginPct = 0) := by
  refine ⟨?_, ?_, ?_, ?_, ?_, ?_, ?_⟩
  · unfold ReportsView.calcSaleCost
    rw [ReportsView.foldl_calcSaleCost]
    simp [ReportsView.byId_get_eq]
  · exact ReportsView.byId_get_eq allProducts
  · exact ReportsView.byId_get_of_mem_nodup allProducts
  · intro it habsent
    rw [ReportsView.byId_get_none allProducts it.product_id habsent]
    simp [ReportsView.getUnitCost]
  · simp only [ReportsView.kpis]
    rw [foldl_add_eq_sum (fun s : Sale => jsNullish s.total 0)]
    simp
  · simp only [ReportsView.kpis]
    rw [foldl_add_eq_sum (fun s : Sale => jsNullish s.total 0),
      foldl_add_eq_sum (fun s : Sale => ReportsView.calcSaleCost allProducts s)]
    simp
  · intro hrev
    simp only [ReportsView.kpis] at hrev ⊢
    rw [if_pos hrev]

/-- Witness of C30 on scenario B: the index finds ComboMeal (3) in the product
list, and the sale of `2 x ComboMeal` costs `5 x 2`. -/
theorem ReportsView_calcSaleCost_and_profit_witness :
    JSMap.get (ReportsView.byId scenarioB.products) 3 =
        some (App.enrichProduct scenarioB.productsWithPrice (some scenarioB.bundleItemsData)
          (some scenarioB.recipesData) scenarioB.formattedIngredients
          { id := 3, is_bundle := true, price := 12, stock := 0, production_cost := none }) ∧
      ReportsView.calcSaleCost scenarioB.products scenarioB.sale = 10 :=
  ⟨(ReportsView_calcSaleCost_and_profit scenarioB.products [] scenarioB.sale).2.2.1
    (by simp [scenarioB.products, scenarioB.productsWithPrice, App.enrichedProducts,
      App.enrichProduct, App.attachItems, App.attachRecipe, App.copyProduct])
    (App.enrichProduct scenarioB.productsWithPrice (some scenarioB.bundleItemsData)
      (some scenarioB.recipesData) scenarioB.formattedIngredients
      { id := 3, is_bundle := true, price := 12, stock := 0, production_cost := none })
    (by simp [scenarioB.products, scenarioB.productsWithPrice, App.enrichedProducts]),
   by
    norm_num [ReportsView.calcSaleCost, scenarioB.sale, scenarioB.products,
      scenarioB.productsWithPrice, scenarioB.bundleItemsData, scenarioB.recipesData,
      scenarioB.formattedIngredients, App.enrichedProducts, App.enrichProduct,
      App.attachItems, App.attachRecipe, App.copyProduct, App.recipeCost,
      ReportsView.getUnitCost, ReportsView.childCost, ReportsView.child, ReportsView.byId,
      BundleSubItem.id, JSMap.get, JSMap.set, jsNullish]⟩

/-! ## Double-precision arithmetic -/

theorem F64.floor_eq (x : ℚ) (n : ℤ) (h1 : (n : ℚ) ≤ x) (h2 : x < n + 1) : ⌊x⌋ = n :=
  Int.floor_eq_iff.mpr ⟨h1, h2⟩

theorem F64.roundHalfEven_down (x : ℚ) (n : ℤ) (h1 : (n : ℚ) ≤ x) (h2 : x < n + 1 / 2) :
    F64.roundHalfEven x = n := by
  have hf : ⌊x⌋ = n := F64.floor_eq x n h1 (by linarith)
  unfold F64.roundHalfEven
  rw [hf, if_pos (by linarith)]

theorem F64.roundHalfEven_up (x : ℚ) (n : ℤ) (h1 : (n : ℚ) + 1 / 2 < x) (h2 : x < n + 1) :
    F64.roundHalfEven x = n + 1 := by
  have hf : ⌊x⌋ = n := F64.floor_eq x n (by linarith) h2
  unfold F64.roundHalfEven
  rw [hf, if_neg (by linarith), if_pos (by linarith)]

theorem F64.roundHalfEven_tie (x : ℚ) (n : ℤ) (h : x = n + 1 / 2) :
    F64.roundHalfEven x = if n % 2 = 0 then n else n + 1 := by
  have hf : ⌊x⌋ = n := F64.floor_eq x n (by linarith) (by linarith)
  unfold F64.roundHalfEven
  rw [hf, if_neg (by linarith), if_neg (by linarith)]

theorem F64.roundHalfEven_intCast (k : ℤ) : F64.roundHalfEven (k : ℚ) = k :=
  F64.roundHalfEven_down k k le_rfl (by linarith)

theorem F64.exponent_eq (x : ℚ) (e : ℤ) (hlo : (2 : ℚ) ^ e ≤ x) (hhi : x < 2 ^ (e + 1))
    (he : -1022 ≤ e) : F64.exponent x = e - 52 := by
  have hpos : 0 < x := lt_of_lt_of_le (zpow_pos (by norm_num) e) hlo
  have h1 : e ≤ Int.log 2 x :=
    (Int.zpow_le_iff_le_log (by norm_num) hpos).mp (by exact_mod_cast hlo)
  have h2 : Int.log 2 x < e + 1 :=
    (Int.lt_zpow_iff_log_lt (by norm_num) hpos).mp (by exact_mod_cast hhi)
  have h3 : Int.log 2 x = e := by omega
  unfold F64.exponent
  rw [abs_of_pos hpos, h3, max_eq_left he]

/-- The double nearest to a positive rational `x` with `2 ^ e ≤ x < 2 ^ (e + 1)`
in the normal range is `m x 2 ^ (e - 52)`, where `m` is `x / 2 ^ (e - 52)`
rounded to an integer. -/
theorem F64.round_eq (x : ℚ) (e m : ℤ) (hlo : (2 : ℚ) ^ e ≤ x) (hhi : x < 2 ^ (e + 1))
    (he : -1022 ≤ e) (hm : F64.roundHalfEven (x / 2 ^ (e - 52)) = m) :
    F64.round x = m * 2 ^ (e - 52) := by
  unfold F64.round
  rw [F64.exponent_eq x e hlo hhi he, hm]

theorem F64.round_zero : F64.round 0 = 0 := by
  unfold F64.round
  rw [zero_div]
  have h := F64.roundHalfEven_intCast 0
  simp only [Int.cast_zero] at h
  rw [h]
  simp

/-- A whole number up to `2 ^ 53` is a double. -/
theorem F64.round_natCast (n : ℕ) (h : n ≤ 2 ^ 53) : F64.round (n : ℚ) = n := by
  rcases Nat.eq_zero_or_pos n with h0 | hpos
  · subst h0
    simpa using F64.round_zero
  · have hx : (0 : ℚ) < n := by exact_mod_cast hpos
    have hlog : Int.log 2 ((n : ℕ) : ℚ) = (Nat.log 2 n : ℤ) := Int.log_natCast 2 n
    have hle : Nat.log 2 n ≤ 53 := by
      have : Nat.log 2 n ≤ Nat.log 2 (2 ^ 53) := Nat.log_mono_right h
      rwa [Nat.log_pow (by norm_num)] at this
    have hexp : F64.exponent (n : ℚ) = (Nat.log 2 n : ℤ) - 52 := by
      unfold F64.exponent
      rw [abs_of_pos hx, hlog, max_eq_left (by omega)]
    unfold F64.round
    rw [hexp]
    have hpow : (2 : ℚ) ^ ((Nat.log 2 n : ℤ) - 52) ≠ 0 := zpow_ne_zero _ (by norm_num)
    rcases Nat.lt_or_ge (Nat.log 2 n) 53 with hlt | hge
    · -- the spacing is at most 1
      have hk : (n : ℚ) / 2 ^ ((Nat.log 2 n : ℤ) - 52) =
          ((n * 2 ^ (52 - Nat.log 2 n) : ℕ) : ℤ) := by
        have hsplit : ((Nat.log 2 n : ℤ) - 52) = -((52 - Nat.log 2 n : ℕ) : ℤ) := by omega
        rw [hsplit, zpow_neg, zpow_natCast]
        push_cast
        field_simp
      rw [hk, F64.roundHalfEven_intCast, ← hk]
      field_simp
    · -- n = 2 ^ 53
      have h53 : Nat.log 2 n = 53 := le_antisymm hle hge
      have hn : n = 2 ^ 53 := by
        apply le_antisymm h
        have := Nat.pow_log_le_self 2 (Nat.pos_iff_ne_zero.mp hpos)
        rwa [h53] at this
      have hk : (n : ℚ) / 2 ^ ((Nat.log 2 n : ℤ) - 52) = ((2 ^ 52 : ℕ) : ℤ) := by
        rw [h53, hn]
        norm_num
      rw [hk, F64.roundHalfEven_intCast, ← hk]
      field_simp

/-- The sum of two whole numbers that add up to at most `2 ^ 53` is exact. -/
theorem F64.add_natCast (a b : ℕ) (h : a + b ≤ 2 ^ 53) :
    F64.add (a : ℚ) (b : ℚ) = (a : ℚ) + b := by
  unfold F64.add
  have := F64.round_natCast (a + b) h
  push_cast at this
  exact this

/-- The product of two whole numbers that multiply to at most `2 ^ 53` is
exact. -/
theorem F64.mul_natCast (a b : ℕ) (h : a * b ≤ 2 ^ 53) :
    F64.mul (a : ℚ) (b : ℚ) = (a : ℚ) * b := by
  unfold F64.mul
  have := F64.round_natCast (a * b) h
  push_cast at this
  exact this

/-! ### The doubles of the rounding scenarios -/

theorem F64.add_zero_left (a : ℚ) : F64.add 0 a = F64.round a := by
  unfold F64.add
  rw [zero_add]

theorem F64.mul_one_right (a : ℚ) : F64.mul a 1 = F64.round a := by
  unfold F64.mul
  rw [mul_one]

theorem F64.mul_one_left (a : ℚ) : F64.mul 1 a = F64.round a := by
  unfold F64.mul
  rw [one_mul]

theorem F64.round_decimal_0_01 : F64.round (1 / 100) = F64.d0_01 := by
  rw [F64.round_eq _ (-7) 5764607523034235 (by norm_num) (by norm_num) (by norm_num)
    (F64.roundHalfEven_up _ 5764607523034234 (by norm_num) (by norm_num))]
  norm_num [F64.d0_01]

theorem F64.round_decimal_0_04 : F64.round (1 / 25) = F64.d0_04 := by
  rw [F64.round_eq _ (-5) 5764607523034235 (by norm_num) (by norm_num) (by norm_num)
    (F64.roundHalfEven_up _ 5764607523034234 (by norm_num) (by norm_num))]
  norm_num [F64.d0_04]

theorem F64.round_decimal_0_1 : F64.round (1 / 10) = F64.d0_1 := by
  rw [F64.round_eq _ (-4) 7205759403792794 (by norm_num) (by norm_num) (by norm_num)
    (F64.roundHalfEven_up _ 7205759403792793 (by norm_num) (by norm_num))]
  norm_num [F64.d0_1]

theorem F64.round_decimal_0_2 : F64.round (1 / 5) = F64.d0_2 := by
  rw [F64.round_eq _ (-3) 7205759403792794 (by norm_num) (by norm_num) (by norm_num)
    (F64.roundHalfEven_up _ 7205759403792793 (by norm_num) (by norm_num))]
  norm_num [F64.d0_2]

theorem F64.round_decimal_0_3 : F64.round (3 / 10) = F64.d0_3 := by
  rw [F64.round_eq _ (-2) 5404319552844595 (by norm_num) (by norm_num) (by norm_num)
    (F64.roundHalfEven_down _ 5404319552844595 (by norm_num) (by norm_num))]
  norm_num [F64.d0_3]

theorem F64.round_d0_01 : F64.round F64.d0_01 = F64.d0_01 := by
  unfold F64.d0_01
  rw [F64.round_eq _ (-7) 5764607523034235 (by norm_num) (by norm_num) (by norm_num)
    (F64.roundHalfEven_down _ 5764607523034235 (by norm_num) (by norm_num))]
  norm_num [F64.d0_01]

theorem F64.round_d0_02 : F64.round F64.d0_02 = F64.d0_02 := by
  unfold F64.d0_02
  rw [F64.round_eq _ (-6) 5764607523034235 (by norm_num) (by norm_num) (by norm_num)
    (F64.roundHalfEven_down _ 5764607523034235 (by norm_num) (by norm_num))]
  norm_num [F64.d0_02]

theorem F64.round_d0_04 : F64.round F64.d0_04 = F64.d0_04 := by
  unfold F64.d0_04
  rw [F64.round_eq _ (-5) 5764607523034235 (by norm_num) (by norm_num) (by norm_num)
    (F64.roundHalfEven_down _ 5764607523034235 (by norm_num) (by norm_num))]
  norm_num [F64.d0_04]

theorem F64.round_d0_1 : F64.round F64.d0_1 = F64.d0_1 := by
  unfold F64.d0_1
  rw [F64.round_eq _ (-4) 7205759403792794 (by norm_num) (by norm_num) (by norm_num)
    (F64.roundHalfEven_down _ 7205759403792794 (by norm_num) (by norm_num))]
  norm_num [F64.d0_1]

theorem F64.round_d0_2 : F64.round F64.d0_2 = F64.d0_2 := by
  unfold F64.d0_2
  rw [F64.round_eq _ (-3) 7205759403792794 (by norm_num) (by norm_num) (by norm_num)
    (F64.roundHalfEven_down _ 7205759403792794 (by norm_num) (by norm_num))]
  norm_num [F64.d0_2]

theorem F64.round_d0_3 : F64.round F64.d0_3 = F64.d0_3 := by
  unfold F64.d0_3
  rw [F64.round_eq _ (-2) 5404319552844595 (by norm_num) (by norm_num) (by norm_num)
    (F64.roundHalfEven_down _ 5404319552844595 (by norm_num) (by norm_num))]
  norm_num [F64.d0_3]

theorem F64.add_d0_01_d0_04 : F64.add F64.d0_01 F64.d0_04 = F64.d0_05 := by
  have hx : F64.d0_01 + F64.d0_04 = 28823037615171175 / 2 ^ 59 := by
    norm_num [F64.d0_01, F64.d0_04]
  unfold F64.add
  rw [hx, F64.round_eq _ (-5) 7205759403792794 (by norm_num) (by norm_num) (by norm_num)
    (F64.roundHalfEven_up _ 7205759403792793 (by norm_num) (by norm_num))]
  norm_num [F64.d0_05]

theorem F64.add_d0_05_d0_01 : F64.add F64.d0_05 F64.d0_01 = F64.d0_060000000000000005 := by
  have hx : F64.d0_05 + F64.d0_01 = 34587645138205411 / 2 ^ 59 := by
    norm_num [F64.d0_01, F64.d0_05]
  unfold F64.add
  rw [hx, F64.round_eq _ (-5) 8646911284551353 (by norm_num) (by norm_num) (by norm_num)
    (F64.roundHalfEven_up _ 8646911284551352 (by norm_num) (by norm_num))]
  norm_num [F64.d0_060000000000000005]

theorem F64.add_d0_02_d0_04 : F64.add F64.d0_02 F64.d0_04 = F64.d0_06 := by
  have hx : F64.d0_02 + F64.d0_04 = 17293822569102705 / 2 ^ 58 := by
    norm_num [F64.d0_02, F64.d0_04]
  unfold F64.add
  rw [hx, F64.round_eq _ (-5) 8646911284551352 (by norm_num) (by norm_num) (by norm_num)
    ((F64.roundHalfEven_tie _ 8646911284551352 (by norm_num)).trans (by norm_num))]
  norm_num [F64.d0_06]

theorem F64.mul_d0_01_2 : F64.mul F64.d0_01 2 = F64.d0_02 := by
  have hx : F64.d0_01 * 2 = 5764607523034235 / 2 ^ 58 := by
    norm_num [F64.d0_01]
  unfold F64.mul
  rw [hx, F64.round_eq _ (-6) 5764607523034235 (by norm_num) (by norm_num) (by norm_num)
    (F64.roundHalfEven_down _ 5764607523034235 (by norm_num) (by norm_num))]
  norm_num [F64.d0_02]

theorem F64.add_d0_1_d0_2 : F64.add F64.d0_1 F64.d0_2 = F64.d0_30000000000000004 := by
  have hx : F64.d0_1 + F64.d0_2 = 10808639105689191 / 2 ^ 55 := by
    norm_num [F64.d0_1, F64.d0_2]
  unfold F64.add
  rw [hx, F64.round_eq _ (-2) 5404319552844596 (by norm_num) (by norm_num) (by norm_num)
    ((F64.roundHalfEven_tie _ 5404319552844595 (by norm_num)).trans (by norm_num))]
  norm_num [F64.d0_30000000000000004]

theorem F64.add_d0_30000000000000004_d0_3 :
    F64.add F64.d0_30000000000000004 F64.d0_3 = F64.d0_6000000000000001 := by
  have hx : F64.d0_30000000000000004 + F64.d0_3 = 10808639105689191 / 2 ^ 54 := by
    norm_num [F64.d0_3, F64.d0_30000000000000004]
  unfold F64.add
  rw [hx, F64.round_eq _ (-1) 5404319552844596 (by norm_num) (by norm_num) (by norm_num)
    ((F64.roundHalfEven_tie _ 5404319552844595 (by norm_num)).trans (by norm_num))]
  norm_num [F64.d0_6000000000000001]

theorem F64.add_d0_3_d0_2 : F64.add F64.d0_3 F64.d0_2 = F64.d0_5 := by
  have hx : F64.d0_3 + F64.d0_2 = 1 / 2 := by
    norm_num [F64.d0_2, F64.d0_3]
  unfold F64.add
  rw [hx, F64.round_eq _ (-1) 4503599627370496 (by norm_num) (by norm_num) (by norm_num)
    (F64.roundHalfEven_down _ 4503599627370496 (by norm_num) (by norm_num))]
  norm_num [F64.d0_5]

theorem F64.add_d0_5_d0_1 : F64.add F64.d0_5 F64.d0_1 = F64.d0_6 := by
  have hx : F64.d0_5 + F64.d0_1 = 21617278211378381 / 2 ^ 55 := by
    norm_num [F64.d0_1, F64.d0_5]
  unfold F64.add
  rw [hx, F64.round_eq _ (-1) 5404319552844595 (by norm_num) (by norm_num) (by norm_num)
    (F64.roundHalfEven_down _ 5404319552844595 (by norm_num) (by norm_num))]
  norm_num [F64.d0_6]

theorem F64.add_d0_2_d0_1 : F64.add F64.d0_2 F64.d0_1 = F64.d0_30000000000000004 := by
  have hx : F64.d0_2 + F64.d0_1 = 10808639105689191 / 2 ^ 55 := by
    norm_num [F64.d0_1, F64.d0_2]
  unfold F64.add
  rw [hx, F64.round_eq _ (-2) 5404319552844596 (by norm_num) (by norm_num) (by norm_num)
    ((F64.roundHalfEven_tie _ 5404319552844595 (by norm_num)).trans (by norm_num))]
  norm_num [F64.d0_30000000000000004]

theorem F64.add_d0_2_d0_3 : F64.add F64.d0_2 F64.d0_3 = F64.d0_5 := by
  have hx : F64.d0_2 + F64.d0_3 = 1 / 2 := by
    norm_num [F64.d0_2, F64.d0_3]
  unfold F64.add
  rw [hx, F64.round_eq _ (-1) 4503599627370496 (by norm_num) (by norm_num) (by norm_num)
    (F64.roundHalfEven_down _ 4503599627370496 (by norm_num) (by norm_num))]
  norm_num [F64.d0_5]

theorem F64.d0_01_ne_zero : F64.d0_01 ≠ 0 := by
  norm_num [F64.d0_01]

theorem F64.d0_02_ne_zero : F64.d0_02 ≠ 0 := by
  norm_num [F64.d0_02]

theorem F64.d0_04_ne_zero : F64.d0_04 ≠ 0 := by
  norm_num [F64.d0_04]

theorem F64.d0_05_ne_zero : F64.d0_05 ≠ 0 := by
  norm_num [F64.d0_05]

theorem F64.d0_06_ne_zero : F64.d0_06 ≠ 0 := by
  norm_num [F64.d0_06]

theorem F64.d0_060000000000000005_ne_zero : F64.d0_060000000000000005 ≠ 0 := by
  norm_num [F64.d0_060000000000000005]

theorem F64.d0_1_ne_zero : F64.d0_1 ≠ 0 := by
  norm_num [F64.d0_1]

theorem F64.d0_2_ne_zero : F64.d0_2 ≠ 0 := by
  norm_num [F64.d0_2]

theorem F64.d0_3_ne_zero : F64.d0_3 ≠ 0 := by
  norm_num [F64.d0_3]

theorem F64.d0_30000000000000004_ne_zero : F64.d0_30000000000000004 ≠ 0 := by
  norm_num [F64.d0_30000000000000004]

theorem F64.d0_5_ne_zero : F64.d0_5 ≠ 0 := by
  norm_num [F64.d0_5]

theorem F64.d0_6_ne_zero : F64.d0_6 ≠ 0 := by
  norm_num [F64.d0_6]

theorem F64.d0_6000000000000001_ne_zero : F64.d0_6000000000000001 ≠ 0 := by
  norm_num [F64.d0_6000000000000001]

/-! ## The plan on doubles: keys -/

theorem JSMap.keys_set_congr {κ ν : Type} [DecidableEq κ] (m m' : JSMap κ ν) (k : κ)
    (v v' : ν) (h : JSMap.keys m = JSMap.keys m') :
    JSMap.keys (JSMap.set m k v) = JSMap.keys (JSMap.set m' k v') := by
  induction m generalizing m' with
  | nil =>
    cases m' with
    | nil => rfl
    | cons e m' => simp [JSMap.keys] at h
  | cons e m ih =>
    cases m' with
    | nil => simp [JSMap.keys] at h
    | cons e' m' =>
      obtain ⟨a, b⟩ := e
      obtain ⟨a', b'⟩ := e'
      have h1 : a = a' := by
        have := congrArg List.head? h
        simpa [JSMap.keys] using this
      have h2 : JSMap.keys m = JSMap.keys m' := by
        have := congrArg List.tail h
        simpa [JSMap.keys] using this
      subst h1
      by_cases hk : a = k
      · have h2' : List.map Prod.fst m = List.map Prod.fst m' := h2
        simp [JSMap.set, hk, JSMap.keys, h2']
      · have := ih m' h2
        simp only [JSMap.keys] at this
        simp [JSMap.set, hk, JSMap.keys, this]

theorem JSMap.keys_foldl_accumulate64 {κ α : Type} [DecidableEq κ] (key : α → κ)
    (qty qty' : α → ℚ) (xs : List α) (m m' : JSMap κ ℚ)
    (h : JSMap.keys m = JSMap.keys m') :
    JSMap.keys (xs.foldl (fun acc x => JSMap.accumulate64 acc (key x) (qty x)) m) =
      JSMap.keys (xs.foldl (fun acc x => JSMap.accumulate acc (key x) (qty' x)) m') := by
  induction xs generalizing m m' with
  | nil => exact h
  | cons x xs ih =>
    rw [List.foldl_cons, List.foldl_cons]
    apply ih
    unfold JSMap.accumulate64 JSMap.accumulate
    exact JSMap.keys_set_congr m m' (key x) _ _ h

theorem App.planStep64_keys (products : List Product) (plan plan' : Plan) (line : CartItem)
    (hp : JSMap.keys plan.productStockDecrements = JSMap.keys plan'.productStockDecrements)
    (hi : JSMap.keys plan.ingredientStockDecrements =
      JSMap.keys plan'.ingredientStockDecrements) :
    JSMap.keys (App.planStep64 products plan line).productStockDecrements =
        JSMap.keys (App.planStep products plan' line).productStockDecrements ∧
      JSMap.keys (App.planStep64 products plan line).ingredientStockDecrements =
        JSMap.keys (App.planStep products plan' line).ingredientStockDecrements := by
  unfold App.planStep64 App.planStep
  cases hf : products.find? (fun p => p.id = line.id) with
  | none => exact ⟨hp, hi⟩
  | some p =>
    obtain ⟨id, b, price, stock, pc, items, recipe⟩ := p
    cases b <;> cases items <;> rcases recipe with _ | _ | ⟨r, rs⟩ <;>
      simp only [App.addBundleItems64, App.addBundleItems, App.addRecipeItems64,
        App.addRecipeItems]
    all_goals first
      | exact ⟨JSMap.keys_set_congr _ _ _ _ _ hp, hi⟩
      | exact ⟨hp, JSMap.keys_foldl_accumulate64 RecipeItem.ingredient_id _ _ _ _ _ hi⟩
      | exact ⟨JSMap.keys_foldl_accumulate64 BundleSubItem.id _ _ _ _ _ hp, hi⟩

theorem App.foldl_planStep64_keys (products : List Product) (cart : List CartItem)
    (plan plan' : Plan)
    (hp : JSMap.keys plan.productStockDecrements = JSMap.keys plan'.productStockDecrements)
    (hi : JSMap.keys plan.ingredientStockDecrements =
      JSMap.keys plan'.ingredientStockDecrements) :
    JSMap.keys (cart.foldl (App.planStep64 products) plan).productStockDecrements =
        JSMap.keys (cart.foldl (App.planStep products) plan').productStockDecrements ∧
      JSMap.keys (cart.foldl (App.planStep64 products) plan).ingredientStockDecrements =
        JSMap.keys (cart.foldl (App.planStep products) plan').ingredientStockDecrements := by
  induction cart generalizing plan plan' with
  | nil => exact ⟨hp, hi⟩
  | cons line cart ih =>
    rw [List.foldl_cons, List.foldl_cons]
    obtain ⟨h1, h2⟩ := App.planStep64_keys products plan plan' line hp hi
    exact ih _ _ h1 h2

/-- The maps built on doubles have the keys, in the same order, of the maps
built with exact sums and products. -/
theorem App.buildPlan64_keys (cart : List CartItem) (products : List Product) :
    JSMap.keys (App.buildPlan64 cart products).productStockDecrements =
        JSMap.keys (App.buildPlan cart products).productStockDecrements ∧
      JSMap.keys (App.buildPlan64 cart products).ingredientStockDecrements =
        JSMap.keys (App.buildPlan cart products).ingredientStockDecrements :=
  App.foldl_planStep64_keys products cart _ _ rfl rfl

/-! ## The plan on doubles: whole quantities -/

theorem JSMap.total_set {κ : Type} [DecidableEq κ] (m : JSMap κ ℚ) (k : κ) (q : ℚ) :
    JSMap.total (JSMap.set m k (jsOr (JSMap.get m k) 0 + q)) = JSMap.total m + q := by
  induction m with
  | nil => simp [JSMap.total, JSMap.set, JSMap.get, jsOr]
  | cons e m ih =>
    obtain ⟨a, b⟩ := e
    by_cases hk : a = k
    · by_cases hb : b = 0
      · simp [JSMap.total, JSMap.set, JSMap.get, jsOr, hk, hb]
        ring
      · simp [JSMap.total, JSMap.set, JSMap.get, jsOr, hk, hb]
        ring
    · simp only [JSMap.total] at ih
      simp [JSMap.total, JSMap.set, JSMap.get, hk, ih]
      ring

theorem JSMap.total_accumulate {κ : Type} [DecidableEq κ] (m : JSMap κ ℚ) (k : κ) (q : ℚ) :
    JSMap.total (JSMap.accumulate m k q) = JSMap.total m + q :=
  JSMap.total_set m k q

theorem JSMap.total_foldl_accumulate {κ α : Type} [DecidableEq κ] (key : α → κ)
    (qty : α → ℚ) (xs : List α) (m : JSMap κ ℚ) :
    JSMap.total (xs.foldl (fun acc x => JSMap.accumulate acc (key x) (qty x)) m) =
      JSMap.total m + (xs.map qty).sum := by
  induction xs generalizing m with
  | nil => simp
  | cons x xs ih =>
    rw [List.foldl_cons, ih, JSMap.total_accumulate, List.map_cons, List.sum_cons, add_assoc]

theorem JSMap.total_nonneg {κ : Type} (m : JSMap κ ℚ) (hm : ∀ e ∈ m, ∃ n : ℕ, e.2 = n) :
    0 ≤ JSMap.total m := by
  unfold JSMap.total
  apply List.sum_nonneg
  intro x hx
  obtain ⟨e, he, rfl⟩ := List.mem_map.mp hx
  obtain ⟨n, hn⟩ := hm e he
  rw [hn]
  exact Nat.cast_nonneg n

theorem JSMap.le_total_of_mem {κ : Type} (m : JSMap κ ℚ) (hm : ∀ e ∈ m, ∃ n : ℕ, e.2 = n)
    (e : κ × ℚ) (he : e ∈ m) : e.2 ≤ JSMap.total m := by
  induction m with
  | nil => simp at he
  | cons x m ih =>
    have hx : 0 ≤ x.2 := by
      obtain ⟨n, hn⟩ := hm x (List.mem_cons_self _ _)
      rw [hn]
      exact Nat.cast_nonneg n
    have hrest : ∀ e ∈ m, ∃ n : ℕ, e.2 = n := fun e he => hm e (List.mem_cons_of_mem _ he)
    have htot : JSMap.total (x :: m) = x.2 + JSMap.total m := by simp [JSMap.total]
    rw [htot]
    rcases List.mem_cons.mp he with rfl | hmem
    · have := JSMap.total_nonneg m hrest
      linarith
    · have := ih hrest hmem
      linarith

/-- The value `map.get(k) || 0` of a map of whole numbers is a whole number,
at most the sum of the quantities of the map. -/
theorem JSMap.jsOr_get_whole {κ : Type} [DecidableEq κ] (m : JSMap κ ℚ)
    (hm : ∀ e ∈ m, ∃ n : ℕ, e.2 = n) (k : κ) :
    ∃ n : ℕ, jsOr (JSMap.get m k) 0 = n ∧ (n : ℚ) ≤ JSMap.total m := by
  rw [jsOr_zero]
  cases hg : JSMap.get m k with
  | none =>
    exact ⟨0, by simp, by simpa using JSMap.total_nonneg m hm⟩
  | some v =>
    have hmem := JSMap.mem_of_get m k v hg
    obtain ⟨n, hn⟩ := hm (k, v) hmem
    have hle := JSMap.le_total_of_mem m hm (k, v) hmem
    simp only [Option.getD_some]
    simp only at hn hle
    exact ⟨n, hn, by rw [← hn]; exact hle⟩

/-- On a map of whole numbers, posting a whole number is exact on doubles as
long as the quantities of the map add up to at most `2 ^ 53`. -/
theorem JSMap.accumulate64_eq {κ : Type} [DecidableEq κ] (m : JSMap κ ℚ)
    (hm : ∀ e ∈ m, ∃ n : ℕ, e.2 = n) (k : κ) (q : ℚ) (hq : ∃ n : ℕ, q = n)
    (hb : JSMap.total m + q ≤ 2 ^ 53) :
    JSMap.accumulate64 m k q = JSMap.accumulate m k q := by
  obtain ⟨a, ha, hle⟩ := JSMap.jsOr_get_whole m hm k
  obtain ⟨b, rfl⟩ := hq
  unfold JSMap.accumulate64 JSMap.accumulate
  rw [ha, F64.add_natCast a b]
  have h : ((a + b : ℕ) : ℚ) ≤ ((2 ^ 53 : ℕ) : ℚ) := by
    push_cast
    linarith
  exact_mod_cast h

theorem JSMap.accumulate_whole {κ : Type} [DecidableEq κ] (m : JSMap κ ℚ)
    (hm : ∀ e ∈ m, ∃ n : ℕ, e.2 = n) (k : κ) (q : ℚ) (hq : ∃ n : ℕ, q = n) :
    ∀ e ∈ JSMap.accumulate m k q, ∃ n : ℕ, e.2 = n := by
  intro e he
  unfold JSMap.accumulate at he
  rcases JSMap.mem_set _ _ _ _ he with h | h
  · exact hm e h
  · subst h
    obtain ⟨a, ha, -⟩ := JSMap.jsOr_get_whole m hm k
    obtain ⟨b, rfl⟩ := hq
    exact ⟨a + b, by rw [ha]; push_cast; rfl⟩

theorem JSMap.foldl_accumulate_whole {κ α : Type} [DecidableEq κ] (key : α → κ)
    (qty : α → ℚ) (xs : List α) (m : JSMap κ ℚ) (hm : ∀ e ∈ m, ∃ n : ℕ, e.2 = n)
    (hq : ∀ x ∈ xs, ∃ n : ℕ, qty x = n) :
    ∀ e ∈ xs.foldl (fun acc x => JSMap.accumulate acc (key x) (qty x)) m,
      ∃ n : ℕ, e.2 = n := by
  induction xs generalizing m with
  | nil => simpa using hm
  | cons x xs ih =>
    rw [List.foldl_cons]
    exact ih _ (JSMap.accumulate_whole m hm (key x) (qty x) (hq x (List.mem_cons_self _ _)))
      (fun y hy => hq y (List.mem_cons_of_mem _ hy))

theorem List.sum_map_whole_nonneg {α : Type} (f : α → ℚ) (xs : List α)
    (h : ∀ x ∈ xs, ∃ n : ℕ, f x = n) : 0 ≤ (xs.map f).sum := by
  apply List.sum_nonneg
  intro y hy
  obtain ⟨x, hx, rfl⟩ := List.mem_map.mp hy
  obtain ⟨n, hn⟩ := h x hx
  rw [hn]
  exact Nat.cast_nonneg n

/-- An inner loop of `handleCheckout` on whole numbers is exact on doubles as
long as the quantities of the map it builds add up to at most `2 ^ 53`. -/
theorem JSMap.foldl_accumulate64_eq {κ α : Type} [DecidableEq κ] (key : α → κ)
    (qty : α → ℚ) (q : ℚ) (xs : List α) (m : JSMap κ ℚ) (hm : ∀ e ∈ m, ∃ n : ℕ, e.2 = n)
    (hqty : ∀ x ∈ xs, ∃ n : ℕ, qty x = n) (hq : ∃ n : ℕ, q = n)
    (hb : JSMap.total m + (xs.map (fun x => qty x * q)).sum ≤ 2 ^ 53) :
    xs.foldl (fun acc x => JSMap.accumulate64 acc (key x) (F64.mul (qty x) q)) m =
      xs.foldl (fun acc x => JSMap.accumulate acc (key x) (qty x * q)) m := by
  induction xs generalizing m with
  | nil => rfl
  | cons x xs ih =>
    rw [List.foldl_cons, List.foldl_cons]
    have hrest : ∀ y ∈ xs, ∃ n : ℕ, qty y * q = n := by
      intro y hy
      obtain ⟨a, ha⟩ := hqty y (List.mem_cons_of_mem _ hy)
      obtain ⟨b, hb'⟩ := hq
      exact ⟨a * b, by rw [ha, hb']; push_cast; rfl⟩
    have hrest0 := List.sum_map_whole_nonneg (fun y => qty y * q) xs hrest
    have hm0 := JSMap.total_nonneg m hm
    rw [List.map_cons, List.sum_cons] at hb
    obtain ⟨a, ha⟩ := hqty x (List.mem_cons_self _ _)
    obtain ⟨b, hb'⟩ := hq
    have hprod : F64.mul (qty x) q = qty x * q := by
      rw [ha, hb']
      apply F64.mul_natCast
      have h : ((a * b : ℕ) : ℚ) ≤ ((2 ^ 53 : ℕ) : ℚ) := by
        push_cast
        rw [← ha, ← hb']
        linarith
      exact_mod_cast h
    have hwhole : ∃ n : ℕ, qty x * q = n := ⟨a * b, by rw [ha, hb']; push_cast; rfl⟩
    rw [hprod, JSMap.accumulate64_eq m hm (key x) (qty x * q) hwhole (by linarith)]
    apply ih
    · exact JSMap.accumulate_whole m hm (key x) (qty x * q) hwhole
    · intro y hy
      exact hqty y (List.mem_cons_of_mem _ hy)
    · rw [JSMap.total_accumulate]
      linarith

theorem App.productTargets_whole (products : List Product)
    (hbundle : ∀ p ∈ products, ∀ items : List BundleSubItem, p.items = some items →
      ∀ sub ∈ items, ∃ n : ℕ, sub.quantityInBundle = n) :
    ∀ id : Nat, ∀ e ∈ App.productTargets products id, ∃ n : ℕ, e.2 = n := by
  intro id e he
  unfold App.productTargets at he
  cases hf : products.find? (fun p => p.id = id) with
  | none => rw [hf] at he; simp at he
  | some p =>
    rw [hf] at he
    have hb := hbundle p (List.mem_of_find?_eq_some hf)
    obtain ⟨pid, b, price, stock, pc, items, recipe⟩ := p
    simp only at hb
    cases b <;> cases items <;> rcases recipe with _ | _ | ⟨r, rs⟩ <;>
      simp only [List.mem_map, List.mem_singleton, List.not_mem_nil] at he
    all_goals first
      | exact he.elim
      | (obtain ⟨sub, hsub, rfl⟩ := he
         exact hb _ rfl sub hsub)
      | (subst he
         exact ⟨1, by simp⟩)

theorem App.ingredientTargets_whole (products : List Product)
    (hrecipe : ∀ p ∈ products, ∀ rows : List RecipeItem, p.recipeItems = some rows →
      ∀ r ∈ rows, ∃ n : ℕ, r.quantity = n) :
    ∀ id : Nat, ∀ e ∈ App.ingredientTargets products id, ∃ n : ℕ, e.2 = n := by
  intro id e he
  unfold App.ingredientTargets at he
  cases hf : products.find? (fun p => p.id = id) with
  | none => rw [hf] at he; simp at he
  | some p =>
    rw [hf] at he
    have hr := hrecipe p (List.mem_of_find?_eq_some hf)
    obtain ⟨pid, b, price, stock, pc, items, recipe⟩ := p
    simp only at hr
    cases b <;> cases items <;> rcases recipe with _ | _ | ⟨r, rs⟩ <;>
      simp only [List.mem_map, List.not_mem_nil] at he
    all_goals first
      | exact he.elim
      | (obtain ⟨row, hrow, rfl⟩ := he
         exact hr _ rfl row hrow)

/-- The quantities of a map built by the loop add up to those of the map it
started from plus, for every line, the quantities per unit times the quantity
of the line. -/
theorem JSMap.total_addLines {κ : Type} [DecidableEq κ] (targets : Nat → List (κ × ℚ))
    (cart : List CartItem) (m : JSMap κ ℚ) :
    JSMap.total (JSMap.addLines targets cart m) =
      JSMap.total m +
        (cart.map (fun line => ((targets line.id).map Prod.snd).sum * line.quantity)).sum := by
  induction cart generalizing m with
  | nil => simp [JSMap.addLines]
  | cons line cart ih =>
    have hstep : JSMap.addLines targets (line :: cart) m =
        JSMap.addLines targets cart
          ((targets line.id).foldl
            (fun a e => JSMap.accumulate a e.1 (e.2 * line.quantity)) m) := rfl
    rw [hstep, ih,
      JSMap.total_foldl_accumulate Prod.fst (fun e => e.2 * line.quantity) (targets line.id) m,
      List.map_cons, List.sum_cons, List.sum_map_mul_right, add_assoc]

theorem JSMap.addLines_whole {κ : Type} [DecidableEq κ] (targets : Nat → List (κ × ℚ))
    (cart : List CartItem) (m : JSMap κ ℚ) (hm : ∀ e ∈ m, ∃ n : ℕ, e.2 = n)
    (hcart : ∀ line ∈ cart, ∃ n : ℕ, line.quantity = n)
    (htargets : ∀ id : Nat, ∀ e ∈ targets id, ∃ n : ℕ, e.2 = n) :
    ∀ e ∈ JSMap.addLines targets cart m, ∃ n : ℕ, e.2 = n := by
  induction cart generalizing m with
  | nil => simpa [JSMap.addLines] using hm
  | cons line cart ih =>
    have hstep : JSMap.addLines targets (line :: cart) m =
        JSMap.addLines targets cart
          ((targets line.id).foldl
            (fun a e => JSMap.accumulate a e.1 (e.2 * line.quantity)) m) := rfl
    rw [hstep]
    apply ih
    · apply JSMap.foldl_accumulate_whole Prod.fst (fun e => e.2 * line.quantity)
      · exact hm
      · intro x hx
        obtain ⟨a, ha⟩ := htargets line.id x hx
        obtain ⟨b, hb⟩ := hcart line (List.mem_cons_self _ _)
        exact ⟨a * b, by rw [ha, hb]; push_cast; rfl⟩
    · intro l hl
      exact hcart l (List.mem_cons_of_mem _ hl)

theorem JSMap.demand_nonneg {κ : Type} (targets : Nat → List (κ × ℚ))
    (cart : List CartItem) (hcart : ∀ line ∈ cart, ∃ n : ℕ, line.quantity = n)
    (htargets : ∀ id : Nat, ∀ e ∈ targets id, ∃ n : ℕ, e.2 = n) :
    0 ≤ (cart.map
      (fun line => ((targets line.id).map Prod.snd).sum * line.quantity)).sum := by
  apply List.sum_nonneg
  intro y hy
  obtain ⟨line, hline, rfl⟩ := List.mem_map.mp hy
  obtain ⟨b, hb⟩ := hcart line hline
  apply mul_nonneg
  · exact List.sum_map_whole_nonneg Prod.snd (targets line.id) (htargets line.id)
  · rw [hb]
    exact Nat.cast_nonneg b

/-- One step of the loop on whole numbers is exact on doubles as long as the
quantities of each map after the step add up to at most `2 ^ 53`. -/
theorem App.planStep64_eq (products : List Product) (plan : Plan) (line : CartItem)
    (hwp : ∀ e ∈ plan.productStockDecrements, ∃ n : ℕ, e.2 = n)
    (hwi : ∀ e ∈ plan.ingredientStockDecrements, ∃ n : ℕ, e.2 = n)
    (hline : ∃ n : ℕ, line.quantity = n)
    (hbundle : ∀ p ∈ products, ∀ items : List BundleSubItem, p.items = some items →
      ∀ sub ∈ items, ∃ n : ℕ, sub.quantityInBundle = n)
    (hrecipe : ∀ p ∈ products, ∀ rows : List RecipeItem, p.recipeItems = some rows →
      ∀ r ∈ rows, ∃ n : ℕ, r.quantity = n)
    (hbp : JSMap.total (App.planStep products plan line).productStockDecrements ≤ 2 ^ 53)
    (hbi : JSMap.total (App.planStep products plan line).ingredientStockDecrements ≤
      2 ^ 53) :
    App.planStep64 products plan line = App.planStep products plan line := by
  unfold App.planStep at hbp hbi
  unfold App.planStep64 App.planStep
  cases hf : products.find? (fun p => p.id = line.id) with
  | none => rfl
  | some p =>
    rw [hf] at hbp hbi
    have hb := hbundle p (List.mem_of_find?_eq_some hf)
    have hr := hrecipe p (List.mem_of_find?_eq_some hf)
    obtain ⟨id, b, price, stock, pc, items, recipe⟩ := p
    simp only at hb hr
    cases b <;> cases items <;> rcases recipe with _ | _ | ⟨r, rs⟩ <;>
      simp only at hbp hbi ⊢
    all_goals first
      | (rw [JSMap.accumulate64_eq _ hwp _ _ hline
          (by rw [← JSMap.total_accumulate _ (some id)]; exact hbp)])
      | (unfold App.addRecipeItems64 App.addRecipeItems
         unfold App.addRecipeItems at hbi
         rw [JSMap.total_foldl_accumulate RecipeItem.ingredient_id
           (fun x => x.quantity * line.quantity)] at hbi
         rw [JSMap.foldl_accumulate64_eq RecipeItem.ingredient_id RecipeItem.quantity
           line.quantity _ _ hwi (hr _ rfl) hline hbi])
      | (unfold App.addBundleItems64 App.addBundleItems
         unfold App.addBundleItems at hbp
         rw [JSMap.total_foldl_accumulate BundleSubItem.id
           (fun x => x.quantityInBundle * line.quantity)] at hbp
         rw [JSMap.foldl_accumulate64_eq BundleSubItem.id BundleSubItem.quantityInBundle
           line.quantity _ _ hwp (hb _ rfl) hline hbp])

theorem App.foldl_planStep64_eq (products : List Product) (cart : List CartItem)
    (plan : Plan)
    (hwp : ∀ e ∈ plan.productStockDecrements, ∃ n : ℕ, e.2 = n)
    (hwi : ∀ e ∈ plan.ingredientStockDecrements, ∃ n : ℕ, e.2 = n)
    (hcart : ∀ line ∈ cart, ∃ n : ℕ, line.quantity = n)
    (hbundle : ∀ p ∈ products, ∀ items : List BundleSubItem, p.items = some items →
      ∀ sub ∈ items, ∃ n : ℕ, sub.quantityInBundle = n)
    (hrecipe : ∀ p ∈ products, ∀ rows : List RecipeItem, p.recipeItems = some rows →
      ∀ r ∈ rows, ∃ n : ℕ, r.quantity = n)
    (hbp : JSMap.total (cart.foldl (App.planStep products) plan).productStockDecrements ≤
      2 ^ 53)
    (hbi : JSMap.total (cart.foldl (App.planStep products) plan).ingredientStockDecrements ≤
      2 ^ 53) :
    cart.foldl (App.planStep64 products) plan = cart.foldl (App.planStep products) plan := by
  induction cart generalizing plan with
  | nil => rfl
  | cons line cart ih =>
    rw [List.foldl_cons] at hbp hbi
    rw [List.foldl_cons, List.foldl_cons]
    have hrest : ∀ l ∈ cart, ∃ n : ℕ, l.quantity = n :=
      fun l hl => hcart l (List.mem_cons_of_mem _ hl)
    have hpt := App.productTargets_whole products hbundle
    have hit := App.ingredientTargets_whole products hrecipe
    have hstep := App.planStep_eq_targets products plan line
    have hline := hcart line (List.mem_cons_self _ _)
    have hwp1 : ∀ e ∈ (App.planStep products plan line).productStockDecrements,
        ∃ n : ℕ, e.2 = n := by
      rw [hstep]
      exact JSMap.addLines_whole (App.productTargets products) [line] _ hwp
        (by simpa using hline) hpt
    have hwi1 : ∀ e ∈ (App.planStep products plan line).ingredientStockDecrements,
        ∃ n : ℕ, e.2 = n := by
      rw [hstep]
      exact JSMap.addLines_whole (App.ingredientTargets products) [line] _ hwi
        (by simpa using hline) hit
    rw [App.foldl_planStep_eq_addLines] at hbp hbi
    simp only at hbp hbi
    rw [JSMap.total_addLines] at hbp hbi
    have hdp := JSMap.demand_nonneg (App.productTargets products) cart hrest hpt
    have hdi := JSMap.demand_nonneg (App.ingredientTargets products) cart hrest hit
    rw [App.planStep64_eq products plan line hwp hwi hline hbundle hrecipe (by linarith)
      (by linarith)]
    apply ih _ hwp1 hwi1 hrest
    · rw [App.foldl_planStep_eq_addLines]
      simp only
      rw [JSMap.total_addLines]
      exact hbp
    · rw [App.foldl_planStep_eq_addLines]
      simp only
      rw [JSMap.total_addLines]
      exact hbi

/-- On whole numbers the plan built on doubles is the plan built with exact
sums and products, as long as the quantities of each map add up to at most
`2 ^ 53`. -/
theorem App.buildPlan64_eq (cart : List CartItem) (products : List Product)
    (hcart : ∀ line ∈ cart, ∃ n : ℕ, line.quantity = n)
    (hbundle : ∀ p ∈ products, ∀ items : List BundleSubItem, p.items = some items →
      ∀ sub ∈ items, ∃ n : ℕ, sub.quantityInBundle = n)
    (hrecipe : ∀ p ∈ products, ∀ rows : List RecipeItem, p.recipeItems = some rows →
      ∀ r ∈ rows, ∃ n : ℕ, r.quantity = n)
    (hbp : JSMap.total (App.buildPlan cart products).productStockDecrements ≤ 2 ^ 53)
    (hbi : JSMap.total (App.buildPlan cart products).ingredientStockDecrements ≤ 2 ^ 53) :
    App.buildPlan64 cart products = App.buildPlan cart products :=
  App.foldl_planStep64_eq products cart _ (by simp) (by simp) hcart hbundle hrecipe hbp hbi

/-! ## Merged carts, concatenated carts and reordered carts on doubles -/

theorem List.sum_map_whole {α : Type} (f : α → ℚ) (xs : List α)
    (h : ∀ x ∈ xs, ∃ n : ℕ, f x = n) : ∃ n : ℕ, (xs.map f).sum = n := by
  induction xs with
  | nil => exact ⟨0, by simp⟩
  | cons x xs ih =>
    obtain ⟨a, ha⟩ := h x (List.mem_cons_self _ _)
    obtain ⟨b, hb⟩ := ih (fun y hy => h y (List.mem_cons_of_mem _ hy))
    exact ⟨a + b, by rw [List.map_cons, List.sum_cons, ha, hb]; push_cast; rfl⟩

theorem mergeLines_whole (cart : List CartItem)
    (hcart : ∀ line ∈ cart, ∃ n : ℕ, line.quantity = n) :
    ∀ line ∈ mergeLines cart, ∃ n : ℕ, line.quantity = n := by
  induction cart using mergeLines.induct with
  | case1 => simp [mergeLines]
  | case2 line rest ih =>
    intro l hl
    rw [mergeLines_cons] at hl
    rcases List.mem_cons.mp hl with rfl | hmem
    · obtain ⟨a, ha⟩ := hcart line (List.mem_cons_self _ _)
      obtain ⟨b, hb⟩ := List.sum_map_whole CartItem.quantity
        (rest.filter (fun l => l.id = line.id))
        (fun y hy => hcart y (List.mem_cons_of_mem _ (List.mem_filter.mp hy).1))
      exact ⟨a + b, by simp only [ha, hb]; push_cast; rfl⟩
    · exact ih (fun y hy => hcart y (List.mem_cons_of_mem _ (List.mem_filter.mp hy).1)) l hmem

/-- The quantities of each map of the exact plan add up to the demand of the
cart: for every line, the quantities per unit of its product times the
quantity of the line. -/
theorem App.total_buildPlan (cart : List CartItem) (products : List Product) :
    JSMap.total (App.buildPlan cart products).productStockDecrements =
        (cart.map (fun line =>
          ((App.productTargets products line.id).map Prod.snd).sum * line.quantity)).sum ∧
      JSMap.total (App.buildPlan cart products).ingredientStockDecrements =
        (cart.map (fun line =>
          ((App.ingredientTargets products line.id).map Prod.snd).sum *
            line.quantity)).sum := by
  rw [App.buildPlan_eq_addLines]
  simp only
  rw [JSMap.total_addLines, JSMap.total_addLines]
  simp [JSMap.total]

theorem App.total_buildPlan_mergeLines (cart : List CartItem) (products : List Product) :
    JSMap.total (App.buildPlan (mergeLines cart) products).productStockDecrements =
        JSMap.total (App.buildPlan cart products).productStockDecrements ∧
      JSMap.total (App.buildPlan (mergeLines cart) products).ingredientStockDecrements =
        JSMap.total (App.buildPlan cart products).ingredientStockDecrements := by
  rw [(App.total_buildPlan (mergeLines cart) products).1,
    (App.total_buildPlan (mergeLines cart) products).2,
    (App.total_buildPlan cart products).1, (App.total_buildPlan cart products).2]
  exact ⟨mergeLines_sum
      (fun id => ((App.productTargets products id).map Prod.snd).sum) cart,
    mergeLines_sum (fun id => ((App.ingredientTargets products id).map Prod.snd).sum) cart⟩

/-- C15 as stated fails: Small is made of 0.01 Syrup and Large of 0.04 Syrup
(the doubles nearest to 1/100 and 1/25). For the cart
`[1 x Small, 1 x Large, 1 x Small]` the loop of `handleCheckout` asks for
`(0.01 + 0.04) + 0.01 = 0.060000000000000005` Syrup, and for the merged cart
`[2 x Small, 1 x Large]` it asks for `0.01 x 2 + 0.04 = 0.06` Syrup: the two
ingredient maps differ. -/
theorem handleCheckout_merged_cart_changes_quantity :
    fractions.recipesData.map RecipeItem.quantity = [F64.round (1 / 100), F64.round (1 / 25)] ∧
      mergeLines fractions.cart =
        [ { product := fractions.small, quantity := 2 },
          { product := fractions.large, quantity := 1 } ] ∧
      (App.buildPlan64 fractions.cart fractions.products).ingredientStockDecrements =
        [(1, F64.d0_060000000000000005)] ∧
      (App.buildPlan64 (mergeLines fractions.cart)
          fractions.products).ingredientStockDecrements = [(1, F64.d0_06)] ∧
      F64.d0_060000000000000005 ≠ F64.d0_06 := by
  have hmerge : mergeLines fractions.cart =
      [ { product := fractions.small, quantity := 2 },
        { product := fractions.large, quantity := 1 } ] := by
    simp [fractions.cart, mergeLines_cons, mergeLines, CartItem.id, fractions.small,
      fractions.large, App.enrichProduct64, App.attachRecipe64, App.attachItems,
      App.copyProduct, List.filter_cons]
    norm_num
  refine ⟨?_, hmerge, ?_, ?_, ?_⟩
  · rw [F64.round_decimal_0_01, F64.round_decimal_0_04]
    rfl
  · simp [App.buildPlan64, App.planStep64, App.addRecipeItems64, JSMap.accumulate64,
      fractions.cart, fractions.small, fractions.large, fractions.products,
      fractions.productsWithPrice, fractions.recipesData, fractions.formattedIngredients,
      App.enrichedProducts64, App.enrichProduct64, App.attachRecipe64, App.attachItems,
      App.copyProduct, App.recipeCost64, CartItem.id, JSMap.get, JSMap.set, jsOr,
      F64.add_zero_left, F64.mul_one_right, F64.mul_one_left, F64.round_d0_01,
      F64.round_d0_04, F64.add_d0_01_d0_04, F64.add_d0_05_d0_01, F64.d0_01_ne_zero,
      F64.d0_05_ne_zero]
  · rw [hmerge]
    simp [App.buildPlan64, App.planStep64, App.addRecipeItems64, JSMap.accumulate64,
      fractions.small, fractions.large, fractions.products,
      fractions.productsWithPrice, fractions.recipesData, fractions.formattedIngredients,
      App.enrichedProducts64, App.enrichProduct64, App.attachRecipe64, App.attachItems,
      App.copyProduct, App.recipeCost64, CartItem.id, JSMap.get, JSMap.set, jsOr,
      F64.add_zero_left, F64.mul_one_right, F64.mul_one_left, F64.round_d0_01,
      F64.round_d0_02, F64.round_d0_04, F64.mul_d0_01_2, F64.add_d0_02_d0_04,
      F64.d0_02_ne_zero]
  · norm_num [F64.d0_060000000000000005, F64.d0_06]

/-- C15 (amended): on doubles, merging the lines of a same product id into one
line with the summed quantity does not change the keys of either decrement
map; and when the line quantities of the cart and the bundle and recipe
quantities of the product list are whole numbers, the quantities of each map
adding up to at most `2 ^ 53`, each map built from the merged cart has the
same entry (or none) at every key as the map built from the cart. -/
theorem handleCheckout_merged_cart_same_plan (cart : List CartItem)
    (products : List Product) :
    ((mergeLines cart).map CartItem.id).Nodup ∧
      (∀ k : Option Nat,
        k ∈ JSMap.keys (App.buildPlan64 (mergeLines cart) products).productStockDecrements ↔
          k ∈ JSMap.keys (App.buildPlan64 cart products).productStockDecrements) ∧
      (∀ I : Nat,
        I ∈ JSMap.keys
            (App.buildPlan64 (mergeLines cart) products).ingredientStockDecrements ↔
          I ∈ JSMap.keys (App.buildPlan64 cart products).ingredientStockDecrements) ∧
      ((∀ line ∈ cart, ∃ n : ℕ, line.quantity = n) →
        (∀ p ∈ products, ∀ items : List BundleSubItem, p.items = some items →
          ∀ sub ∈ items, ∃ n : ℕ, sub.quantityInBundle = n) →
        (∀ p ∈ products, ∀ rows : List RecipeItem, p.recipeItems = some rows →
          ∀ r ∈ rows, ∃ n : ℕ, r.quantity = n) →
        JSMap.total (App.buildPlan cart products).productStockDecrements ≤ 2 ^ 53 →
        JSMap.total (App.buildPlan cart products).ingredientStockDecrements ≤ 2 ^ 53 →
        (∀ k : Option Nat,
          JSMap.get (App.buildPlan64 (mergeLines cart) products).productStockDecrements k =
            JSMap.get (App.buildPlan64 cart products).productStockDecrements k) ∧
        (∀ I : Nat,
          JSMap.get (App.buildPlan64 (mergeLines cart) products).ingredientStockDecrements I =
            JSMap.get (App.buildPlan64 cart products).ingredientStockDecrements I)) := by
  have hexact := App.buildPlan_mergeLines_exact cart products
  refine ⟨hexact.1, ?_, ?_, ?_⟩
  · intro k
    rw [(App.buildPlan64_keys (mergeLines cart) products).1,
      (App.buildPlan64_keys cart products).1, JSMap.mem_keys_iff, JSMap.mem_keys_iff,
      hexact.2.1 k]
  · intro I
    rw [(App.buildPlan64_keys (mergeLines cart) products).2,
      (App.buildPlan64_keys cart products).2, JSMap.mem_keys_iff, JSMap.mem_keys_iff,
      hexact.2.2 I]
  · intro hcart hbundle hrecipe hbp hbi
    have htot := App.total_buildPlan_mergeLines cart products
    rw [App.buildPlan64_eq cart products hcart hbundle hrecipe hbp hbi,
      App.buildPlan64_eq (mergeLines cart) products (mergeLines_whole cart hcart) hbundle
        hrecipe (by rw [htot.1]; exact hbp) (by rw [htot.2]; exact hbi)]
    exact hexact.2

theorem scenarioC.products_whole_bundles :
    ∀ p ∈ scenarioC.products, ∀ items : List BundleSubItem, p.items = some items →
      ∀ sub ∈ items, ∃ n : ℕ, sub.quantityInBundle = n := by
  intro p hp items hitems sub hsub
  simp [scenarioC.products, scenarioC.productsWithPrice, scenarioC.bundleItemsData,
    App.enrichedProducts, App.enrichProduct, App.attachItems, App.attachRecipe,
    App.copyProduct] at hp
  rcases hp with rfl | rfl | rfl <;> simp at hitems
  subst hitems
  simp at hsub
  rcases hsub with rfl | rfl
  · exact ⟨1, by simp⟩
  · exact ⟨2, by simp⟩

theorem scenarioC.products_whole_recipes :
    ∀ p ∈ scenarioC.products, ∀ rows : List RecipeItem, p.recipeItems = some rows →
      ∀ r ∈ rows, ∃ n : ℕ, r.quantity = n := by
  intro p hp rows hrows r hr
  simp [scenarioC.products, scenarioC.productsWithPrice, scenarioC.bundleItemsData,
    App.enrichedProducts, App.enrichProduct, App.attachItems, App.attachRecipe,
    App.copyProduct] at hp
  rcases hp with rfl | rfl | rfl <;> simp at hrows <;> subst hrows <;> simp at hr

/-- Witness of C15 (amended) on scenario C: the cart
`[2 x ComboMeal, 2 x ComboMeal]` and the merged cart `[4 x ComboMeal]` ask for
the same quantity of Burger. -/
theorem handleCheckout_merged_cart_same_plan_witness :
    JSMap.get (App.buildPlan64 (mergeLines (scenarioC.cart ++ scenarioC.cart))
        scenarioC.products).productStockDecrements (some 1) =
      JSMap.get (App.buildPlan64 (scenarioC.cart ++ scenarioC.cart)
        scenarioC.products).productStockDecrements (some 1) :=
  ((handleCheckout_merged_cart_same_plan (scenarioC.cart ++ scenarioC.cart)
    scenarioC.products).2.2.2
    (by
      intro line hline
      simp [scenarioC.cart] at hline
      subst hline
      exact ⟨2, by simp⟩)
    scenarioC.products_whole_bundles scenarioC.products_whole_recipes
    (by
      norm_num [JSMap.total, App.buildPlan, App.planStep, scenarioC.cart, scenarioC.products,
        scenarioC.productsWithPrice, scenarioC.bundleItemsData, App.enrichedProducts,
        App.enrichProduct, App.attachItems, App.attachRecipe, App.copyProduct, CartItem.id,
        App.addBundleItems, JSMap.accumulate, JSMap.set, JSMap.get, jsOr,
        BundleSubItem.id, App.recipeCost])
    (by
      norm_num [JSMap.total, App.buildPlan, App.planStep, scenarioC.cart, scenarioC.products,
        scenarioC.productsWithPrice, scenarioC.bundleItemsData, App.enrichedProducts,
        App.enrichProduct, App.attachItems, App.attachRecipe, App.copyProduct, CartItem.id,
        App.addBundleItems, JSMap.accumulate, JSMap.set, JSMap.get, jsOr,
        BundleSubItem.id, App.recipeCost])).1 (some 1)

theorem F64.add_swap (a b : ℚ) : F64.add a b = F64.add b a := by
  unfold F64.add
  rw [add_comm]

theorem App.total_buildPlan_perm (cart cart' : List CartItem) (products : List Product)
    (hperm : cart.Perm cart') :
    JSMap.total (App.buildPlan cart' products).productStockDecrements =
        JSMap.total (App.buildPlan cart products).productStockDecrements ∧
      JSMap.total (App.buildPlan cart' products).ingredientStockDecrements =
        JSMap.total (App.buildPlan cart products).ingredientStockDecrements := by
  rw [(App.total_buildPlan cart' products).1, (App.total_buildPlan cart' products).2,
    (App.total_buildPlan cart products).1, (App.total_buildPlan cart products).2]
  exact ⟨((hperm.map _).sum_eq).symm, ((hperm.map _).sum_eq).symm⟩

/-- On whole numbers, the quantities of the exact plan of each part of a
concatenated cart add up to at most those of the plan of the whole cart. -/
theorem App.total_buildPlan_append (c1 c2 : List CartItem) (products : List Product)
    (hcart : ∀ line ∈ c1 ++ c2, ∃ n : ℕ, line.quantity = n)
    (hbundle : ∀ p ∈ products, ∀ items : List BundleSubItem, p.items = some items →
      ∀ sub ∈ items, ∃ n : ℕ, sub.quantityInBundle = n)
    (hrecipe : ∀ p ∈ products, ∀ rows : List RecipeItem, p.recipeItems = some rows →
      ∀ r ∈ rows, ∃ n : ℕ, r.quantity = n) :
    (JSMap.total (App.buildPlan c1 products).productStockDecrements ≤
        JSMap.total (App.buildPlan (c1 ++ c2) products).productStockDecrements ∧
      JSMap.total (App.buildPlan c2 products).productStockDecrements ≤
        JSMap.total (App.buildPlan (c1 ++ c2) products).productStockDecrements) ∧
    (JSMap.total (App.buildPlan c1 products).ingredientStockDecrements ≤
        JSMap.total (App.buildPlan (c1 ++ c2) products).ingredientStockDecrements ∧
      JSMap.total (App.buildPlan c2 products).ingredientStockDecrements ≤
        JSMap.total (App.buildPlan (c1 ++ c2) products).ingredientStockDecrements) := by
  have h1 : ∀ line ∈ c1, ∃ n : ℕ, line.quantity = n :=
    fun l hl => hcart l (List.mem_append_left _ hl)
  have h2 : ∀ line ∈ c2, ∃ n : ℕ, line.quantity = n :=
    fun l hl => hcart l (List.mem_append_right _ hl)
  have hpt := App.productTargets_whole products hbundle
  have hit := App.ingredientTargets_whole products hrecipe
  have hp1 := JSMap.demand_nonneg (App.productTargets products) c1 h1 hpt
  have hp2 := JSMap.demand_nonneg (App.productTargets products) c2 h2 hpt
  have hi1 := JSMap.demand_nonneg (App.ingredientTargets products) c1 h1 hit
  have hi2 := JSMap.demand_nonneg (App.ingredientTargets products) c2 h2 hit
  rw [(App.total_buildPlan (c1 ++ c2) products).1, (App.total_buildPlan (c1 ++ c2) products).2,
    (App.total_buildPlan c1 products).1, (App.total_buildPlan c1 products).2,
    (App.total_buildPlan c2 products).1, (App.total_buildPlan c2 products).2,
    List.map_append, List.sum_append, List.map_append, List.sum_append]
  refine ⟨⟨?_, ?_⟩, ?_, ?_⟩ <;> linarith

/-- C26 as stated fails: Mild, Medium and Strong are made of 0.1, 0.2 and 0.3
Syrup (the doubles nearest to 1/10, 1/5 and 3/10). For the cart
`[1 x Mild, 1 x Medium, 1 x Strong]` the loop of `handleCheckout` asks for
`(0.1 + 0.2) + 0.3 = 0.6000000000000001` Syrup, for the reversed cart it asks
for `(0.3 + 0.2) + 0.1 = 0.6`; and the maps of `[1 x Mild]` and of
`[1 x Medium, 1 x Strong]` hold 0.1 and 0.5, whose sum is not
0.6000000000000001, neither exactly nor as a sum of doubles (0.6). -/
theorem handleCheckout_plan_depends_on_cart_order :
    tenths.recipesData.map RecipeItem.quantity =
        [F64.round (1 / 10), F64.round (1 / 5), F64.round (3 / 10)] ∧
      tenths.cart.Perm tenths.cart.reverse ∧
      (App.buildPlan64 tenths.cart tenths.products).ingredientStockDecrements =
        [(1, F64.d0_6000000000000001)] ∧
      (App.buildPlan64 tenths.cart.reverse tenths.products).ingredientStockDecrements =
        [(1, F64.d0_6)] ∧
      F64.d0_6000000000000001 ≠ F64.d0_6 ∧
      tenths.cart.take 1 ++ tenths.cart.drop 1 = tenths.cart ∧
      (App.buildPlan64 (tenths.cart.take 1) tenths.products).ingredientStockDecrements =
        [(1, F64.d0_1)] ∧
      (App.buildPlan64 (tenths.cart.drop 1) tenths.products).ingredientStockDecrements =
        [(1, F64.d0_5)] ∧
      F64.d0_1 + F64.d0_5 ≠ F64.d0_6000000000000001 ∧
      F64.add F64.d0_1 F64.d0_5 = F64.d0_6 := by
  refine ⟨?_, ?_, ?_, ?_, ?_, ?_, ?_, ?_, ?_, ?_⟩
  · rw [F64.round_decimal_0_1, F64.round_decimal_0_2, F64.round_decimal_0_3]
    rfl
  · exact (List.reverse_perm _).symm
  · simp [App.buildPlan64, App.planStep64, App.addRecipeItems64, JSMap.accumulate64,
      tenths.cart, tenths.products, tenths.productsWithPrice, tenths.recipesData,
      fractions.formattedIngredients, App.enrichedProducts64, App.enrichProduct64,
      App.attachRecipe64, App.attachItems, App.copyProduct, App.recipeCost64, CartItem.id,
      JSMap.get, JSMap.set, jsOr, F64.add_zero_left, F64.mul_one_right, F64.mul_one_left,
      F64.round_d0_1, F64.round_d0_2, F64.round_d0_3, F64.add_d0_1_d0_2,
      F64.add_d0_30000000000000004_d0_3, F64.d0_1_ne_zero,
      F64.d0_30000000000000004_ne_zero]
  · simp [App.buildPlan64, App.planStep64, App.addRecipeItems64, JSMap.accumulate64,
      tenths.cart, tenths.products, tenths.productsWithPrice, tenths.recipesData,
      fractions.formattedIngredients, App.enrichedProducts64, App.enrichProduct64,
      App.attachRecipe64, App.attachItems, App.copyProduct, App.recipeCost64, CartItem.id,
      JSMap.get, JSMap.set, jsOr, F64.add_zero_left, F64.mul_one_right, F64.mul_one_left,
      F64.round_d0_1, F64.round_d0_2, F64.round_d0_3, F64.add_d0_3_d0_2,
      F64.add_d0_5_d0_1, F64.d0_3_ne_zero, F64.d0_5_ne_zero]
  · norm_num [F64.d0_6000000000000001, F64.d0_6]
  · exact List.take_append_drop 1 tenths.cart
  · simp [App.buildPlan64, App.planStep64, App.addRecipeItems64, JSMap.accumulate64,
      tenths.cart, tenths.products, tenths.productsWithPrice, tenths.recipesData,
      fractions.formattedIngredients, App.enrichedProducts64, App.enrichProduct64,
      App.attachRecipe64, App.attachItems, App.copyProduct, App.recipeCost64, CartItem.id,
      JSMap.get, JSMap.set, jsOr, F64.add_zero_left, F64.mul_one_right, F64.mul_one_left,
      F64.round_d0_1, F64.round_d0_2, F64.round_d0_3]
  · simp [App.buildPlan64, App.planStep64, App.addRecipeItems64, JSMap.accumulate64,
      tenths.cart, tenths.products, tenths.productsWithPrice, tenths.recipesData,
      fractions.formattedIngredients, App.enrichedProducts64, App.enrichProduct64,
      App.attachRecipe64, App.attachItems, App.copyProduct, App.recipeCost64, CartItem.id,
      JSMap.get, JSMap.set, jsOr, F64.add_zero_left, F64.mul_one_right, F64.mul_one_left,
      F64.round_d0_1, F64.round_d0_2, F64.round_d0_3, F64.add_d0_2_d0_3,
      F64.d0_2_ne_zero]
  · norm_num [F64.d0_1, F64.d0_5, F64.d0_6000000000000001]
  · rw [F64.add_swap, F64.add_d0_5_d0_1]

/-- C26 (amended): on doubles, for every product list and all carts `c1` and
`c2`, the keys of each decrement map built from `c1 ++ c2` are the keys of the
map built from `c1` or of the map built from `c2`, and the maps built from a
permutation of a cart have the keys of those built from the cart. When the
line quantities and the bundle and recipe quantities of the product list are
whole numbers, the quantities of each map adding up to at most `2 ^ 53`, the
quantity of a key in a map built from `c1 ++ c2` is the sum of its quantities
in the maps built from `c1` and from `c2` (an absent key counting 0), and the
maps built from a permutation of a cart have the same entry at every key as
those built from the cart. -/
theorem handleCheckout_plan_additive_and_order_independent (products : List Product)
    (c1 c2 : List CartItem) :
    (∀ k : Option Nat,
      k ∈ JSMap.keys (App.buildPlan64 (c1 ++ c2) products).productStockDecrements ↔
        k ∈ JSMap.keys (App.buildPlan64 c1 products).productStockDecrements ∨
          k ∈ JSMap.keys (App.buildPlan64 c2 products).productStockDecrements) ∧
    (∀ I : Nat,
      I ∈ JSMap.keys (App.buildPlan64 (c1 ++ c2) products).ingredientStockDecrements ↔
        I ∈ JSMap.keys (App.buildPlan64 c1 products).ingredientStockDecrements ∨
          I ∈ JSMap.keys (App.buildPlan64 c2 products).ingredientStockDecrements) ∧
    (∀ cart' : List CartItem, c1.Perm cart' →
      (∀ k : Option Nat,
        k ∈ JSMap.keys (App.buildPlan64 cart' products).productStockDecrements ↔
          k ∈ JSMap.keys (App.buildPlan64 c1 products).productStockDecrements) ∧
      (∀ I : Nat,
        I ∈ JSMap.keys (App.buildPlan64 cart' products).ingredientStockDecrements ↔
          I ∈ JSMap.keys (App.buildPlan64 c1 products).ingredientStockDecrements)) ∧
    ((∀ p ∈ products, ∀ items : List BundleSubItem, p.items = some items →
        ∀ sub ∈ items, ∃ n : ℕ, sub.quantityInBundle = n) →
      (∀ p ∈ products, ∀ rows : List RecipeItem, p.recipeItems = some rows →
        ∀ r ∈ rows, ∃ n : ℕ, r.quantity = n) →
      ((∀ line ∈ c1 ++ c2, ∃ n : ℕ, line.quantity = n) →
        JSMap.total (App.buildPlan (c1 ++ c2) products).productStockDecrements ≤ 2 ^ 53 →
        JSMap.total (App.buildPlan (c1 ++ c2) products).ingredientStockDecrements ≤ 2 ^ 53 →
        (∀ k : Option Nat,
          (JSMap.get (App.buildPlan64 (c1 ++ c2) products).productStockDecrements k).getD 0 =
            (JSMap.get (App.buildPlan64 c1 products).productStockDecrements k).getD 0 +
              (JSMap.get (App.buildPlan64 c2 products).productStockDecrements k).getD 0) ∧
        (∀ I : Nat,
          (JSMap.get (App.buildPlan64 (c1 ++ c2) products).ingredientStockDecrements I).getD
              0 =
            (JSMap.get (App.buildPlan64 c1 products).ingredientStockDecrements I).getD 0 +
              (JSMap.get (App.buildPlan64 c2 products).ingredientStockDecrements I).getD
                0)) ∧
      ((∀ line ∈ c1, ∃ n : ℕ, line.quantity = n) →
        JSMap.total (App.buildPlan c1 products).productStockDecrements ≤ 2 ^ 53 →
        JSMap.total (App.buildPlan c1 products).ingredientStockDecrements ≤ 2 ^ 53 →
        ∀ cart' : List CartItem, c1.Perm cart' →
          (∀ k : Option Nat,
            JSMap.get (App.buildPlan64 cart' products).productStockDecrements k =
              JSMap.get (App.buildPlan64 c1 products).productStockDecrements k) ∧
          (∀ I : Nat,
            JSMap.get (App.buildPlan64 cart' products).ingredientStockDecrements I =
              JSMap.get (App.buildPlan64 c1 products).ingredientStockDecrements I))) := by
  have hexact := App.buildPlan_additive_exact products c1 c2
  refine ⟨?_, ?_, ?_, ?_⟩
  · intro k
    rw [(App.buildPlan64_keys (c1 ++ c2) products).1, (App.buildPlan64_keys c1 products).1,
      (App.buildPlan64_keys c2 products).1]
    exact (hexact.1 k).2
  · intro I
    rw [(App.buildPlan64_keys (c1 ++ c2) products).2, (App.buildPlan64_keys c1 products).2,
      (App.buildPlan64_keys c2 products).2]
    exact (hexact.2.1 I).2
  · intro cart' hperm
    constructor
    · intro k
      rw [(App.buildPlan64_keys cart' products).1, (App.buildPlan64_keys c1 products).1,
        JSMap.mem_keys_iff, JSMap.mem_keys_iff, (hexact.2.2 cart' hperm).1 k]
    · intro I
      rw [(App.buildPlan64_keys cart' products).2, (App.buildPlan64_keys c1 products).2,
        JSMap.mem_keys_iff, JSMap.mem_keys_iff, (hexact.2.2 cart' hperm).2 I]
  · intro hbundle hrecipe
    constructor
    · intro hcart hbp hbi
      have hle := App.total_buildPlan_append c1 c2 products hcart hbundle hrecipe
      rw [App.buildPlan64_eq (c1 ++ c2) products hcart hbundle hrecipe hbp hbi,
        App.buildPlan64_eq c1 products (fun l hl => hcart l (List.mem_append_left _ hl))
          hbundle hrecipe (le_trans hle.1.1 hbp) (le_trans hle.2.1 hbi),
        App.buildPlan64_eq c2 products (fun l hl => hcart l (List.mem_append_right _ hl))
          hbundle hrecipe (le_trans hle.1.2 hbp) (le_trans hle.2.2 hbi)]
      exact ⟨fun k => (hexact.1 k).1, fun I => (hexact.2.1 I).1⟩
    · intro hcart hbp hbi cart' hperm
      have htot := App.total_buildPlan_perm c1 cart' products hperm
      rw [App.buildPlan64_eq c1 products hcart hbundle hrecipe hbp hbi,
        App.buildPlan64_eq cart' products (fun l hl => hcart l (hperm.mem_iff.mpr hl))
          hbundle hrecipe (by rw [htot.1]; exact hbp) (by rw [htot.2]; exact hbi)]
      exact hexact.2.2 cart' hperm

theorem scenarioC.combo_and_burger_whole :
    ∀ line ∈ scenarioC.cart ++ contention.cart, ∃ n : ℕ, line.quantity = n := by
  intro line hline
  simp [scenarioC.cart, contention.cart] at hline
  rcases hline with rfl | rfl
  · exact ⟨2, by simp⟩
  · exact ⟨2, by simp⟩

theorem scenarioC.combo_and_burger_totals :
    JSMap.total (App.buildPlan (scenarioC.cart ++ contention.cart)
        scenarioC.products).productStockDecrements ≤ 2 ^ 53 ∧
      JSMap.total (App.buildPlan (scenarioC.cart ++ contention.cart)
        scenarioC.products).ingredientStockDecrements ≤ 2 ^ 53 := by
  constructor <;>
    norm_num [JSMap.total, App.buildPlan, App.planStep, scenarioC.cart, contention.cart,
      scenarioC.products, scenarioC.productsWithPrice, scenarioC.bundleItemsData,
      App.enrichedProducts, App.enrichProduct, App.attachItems, App.attachRecipe,
      App.copyProduct, CartItem.id, App.addBundleItems, JSMap.accumulate, JSMap.set,
      JSMap.get, jsOr, BundleSubItem.id, App.recipeCost]

/-- Witness of C26 (amended) on scenario C: in the cart
`[2 x ComboMeal, 2 x Burger]` the quantity of Burger is the sum of its
quantities for `[2 x ComboMeal]` and for `[2 x Burger]`, and the cart
`[2 x Burger, 2 x ComboMeal]` asks for the same quantity of Burger. -/
theorem handleCheckout_plan_additive_and_order_independent_witness :
    (JSMap.get (App.buildPlan64 (scenarioC.cart ++ contention.cart)
          scenarioC.products).productStockDecrements (some 1)).getD 0 =
        (JSMap.get (App.buildPlan64 scenarioC.cart
          scenarioC.products).productStockDecrements (some 1)).getD 0 +
        (JSMap.get (App.buildPlan64 contention.cart
          scenarioC.products).productStockDecrements (some 1)).getD 0 ∧
      JSMap.get (App.buildPlan64 (contention.cart ++ scenarioC.cart)
          scenarioC.products).productStockDecrements (some 1) =
        JSMap.get (App.buildPlan64 (scenarioC.cart ++ contention.cart)
          scenarioC.products).productStockDecrements (some 1) :=
  ⟨(((handleCheckout_plan_additive_and_order_independent scenarioC.products scenarioC.cart
      contention.cart).2.2.2 scenarioC.products_whole_bundles
      scenarioC.products_whole_recipes).1 scenarioC.combo_and_burger_whole
      scenarioC.combo_and_burger_totals.1 scenarioC.combo_and_burger_totals.2).1 (some 1),
    ((((handleCheckout_plan_additive_and_order_independent scenarioC.products
      (scenarioC.cart ++ contention.cart) []).2.2.2 scenarioC.products_whole_bundles
      scenarioC.products_whole_recipes).2 scenarioC.combo_and_burger_whole
      scenarioC.combo_and_burger_totals.1 scenarioC.combo_and_burger_totals.2)
      (contention.cart ++ scenarioC.cart) List.perm_append_comm).1 (some 1)⟩

/-! ## Changing the cost of an ingredient, on doubles -/

theorem App.enrichProduct64_simple (productsWithPrice : List ProductRow)
    (bundleItemsData : Option (List BundleItemRow)) (recipesData : List RecipeItem)
    (formattedIngredients : List Ingredient) (row : ProductRow) (hnb : row.is_bundle = false) :
    App.enrichProduct64 productsWithPrice bundleItemsData (some recipesData)
        formattedIngredients row =
      { id := row.id, is_bundle := false, price := row.price, stock := row.stock
        production_cost := some (App.recipeCost64 formattedIngredients
          (recipesData.filter (fun r => r.product_id = row.id)))
        items := none
        recipeItems := some (recipesData.filter (fun r => r.product_id = row.id)) } := by
  obtain ⟨id, b, price, stock, pc⟩ := row
  simp only at hnb
  subst hnb
  cases bundleItemsData <;>
    simp [App.enrichProduct64, App.attachItems, App.attachRecipe64, App.copyProduct]

theorem find?_setCostPerUnit_of_ne (I : Nat) (c' : ℚ) (ingredients : List Ingredient) (j : Nat)
    (h : j ≠ I) :
    (setCostPerUnit I c' ingredients).find? (fun ing => ing.id = j) =
      ingredients.find? (fun ing => ing.id = j) := by
  rw [find?_setCostPerUnit]
  cases hf : ingredients.find? (fun ing => ing.id = j) with
  | none => rfl
  | some found =>
    have hid : found.id = j := by
      have := List.find?_some hf
      simpa using this
    have hne : ¬ found.id = I := by rw [hid]; exact h
    simp [hne]

theorem App.foldl_recipeCost64_congr (ingredients ingredients' : List Ingredient)
    (rows : List RecipeItem) (a : ℚ)
    (h : ∀ r ∈ rows, ingredients'.find? (fun ing => ing.id = r.ingredient_id) =
      ingredients.find? (fun ing => ing.id = r.ingredient_id)) :
    rows.foldl
        (fun totalCost recipeItem =>
          match ingredients'.find? (fun ing => ing.id = recipeItem.ingredient_id) with
          | some ingredient =>
              F64.add totalCost (F64.mul ingredient.cost_per_unit recipeItem.quantity)
          | none => totalCost)
        a =
      rows.foldl
        (fun totalCost recipeItem =>
          match ingredients.find? (fun ing => ing.id = recipeItem.ingredient_id) with
          | some ingredient =>
              F64.add totalCost (F64.mul ingredient.cost_per_unit recipeItem.quantity)
          | none => totalCost)
        a := by
  induction rows generalizing a with
  | nil => rfl
  | cons r rows ih =>
    rw [List.foldl_cons, List.foldl_cons, h r (List.mem_cons_self _ _)]
    exact ih _ (fun x hx => h x (List.mem_cons_of_mem _ hx))

/-- On doubles, the cost of a recipe without a row for the ingredient `I` does
not depend on the cost of `I`. -/
theorem App.recipeCost64_setCostPerUnit_of_no_row (I : Nat) (c' : ℚ)
    (ingredients : List Ingredient) (rows : List RecipeItem)
    (h : ∀ r ∈ rows, r.ingredient_id ≠ I) :
    App.recipeCost64 (setCostPerUnit I c' ingredients) rows =
      App.recipeCost64 ingredients rows := by
  unfold App.recipeCost64
  exact App.foldl_recipeCost64_congr ingredients _ rows 0
    (fun r hr => find?_setCostPerUnit_of_ne I c' ingredients r.ingredient_id (h r hr))

theorem App.rowCost_whole (ingredients : List Ingredient)
    (hcost : ∀ ing ∈ ingredients, ∃ n : ℕ, ing.cost_per_unit = n) (r : RecipeItem)
    (hq : ∃ n : ℕ, r.quantity = n) : ∃ n : ℕ, App.rowCost ingredients r = n := by
  unfold App.rowCost
  cases hf : ingredients.find? (fun ing => ing.id = r.ingredient_id) with
  | none => exact ⟨0, by simp⟩
  | some ing =>
    obtain ⟨a, ha⟩ := hcost ing (List.mem_of_find?_eq_some hf)
    obtain ⟨b, hb⟩ := hq
    exact ⟨a * b, by simp only [ha, hb]; push_cast; rfl⟩

theorem App.foldl_recipeCost64_eq (ingredients : List Ingredient)
    (hcost : ∀ ing ∈ ingredients, ∃ n : ℕ, ing.cost_per_unit = n) (rows : List RecipeItem)
    (hq : ∀ r ∈ rows, ∃ n : ℕ, r.quantity = n) (a : ℚ) (ha : ∃ n : ℕ, a = n)
    (hb : a + (rows.map (App.rowCost ingredients)).sum ≤ 2 ^ 53) :
    rows.foldl
        (fun totalCost recipeItem =>
          match ingredients.find? (fun ing => ing.id = recipeItem.ingredient_id) with
          | some ingredient =>
              F64.add totalCost (F64.mul ingredient.cost_per_unit recipeItem.quantity)
          | none => totalCost)
        a =
      rows.foldl
        (fun totalCost recipeItem =>
          match ingredients.find? (fun ing => ing.id = recipeItem.ingredient_id) with
          | some ingredient => totalCost + ingredient.cost_per_unit * recipeItem.quantity
          | none => totalCost)
        a := by
  induction rows generalizing a with
  | nil => rfl
  | cons r rows ih =>
    rw [List.foldl_cons, List.foldl_cons]
    rw [List.map_cons, List.sum_cons] at hb
    have hrest : ∀ x ∈ rows, ∃ n : ℕ, x.quantity = n :=
      fun x hx => hq x (List.mem_cons_of_mem _ hx)
    have hrest0 : 0 ≤ (rows.map (App.rowCost ingredients)).sum :=
      List.sum_map_whole_nonneg (App.rowCost ingredients) rows
        (fun x hx => App.rowCost_whole ingredients hcost x (hrest x hx))
    obtain ⟨n, hn⟩ := ha
    have ha0 : (0 : ℚ) ≤ a := by rw [hn]; exact Nat.cast_nonneg n
    have hrow : App.rowCost ingredients r =
        match ingredients.find? (fun ing => ing.id = r.ingredient_id) with
        | some ingredient => ingredient.cost_per_unit * r.quantity
        | none => 0 := rfl
    cases hf : ingredients.find? (fun ing => ing.id = r.ingredient_id) with
    | none =>
      rw [hf] at hrow
      simp only at hrow ⊢
      have hb2 : a + (rows.map (App.rowCost ingredients)).sum ≤ 2 ^ 53 := by
        rw [hrow, zero_add] at hb
        exact hb
      exact ih hrest a ⟨n, hn⟩ hb2
    | some ing =>
      rw [hf] at hrow
      simp only at hrow ⊢
      rw [hrow] at hb
      obtain ⟨c, hc⟩ := hcost ing (List.mem_of_find?_eq_some hf)
      obtain ⟨q, hq'⟩ := hq r (List.mem_cons_self _ _)
      have hacq : a + ing.cost_per_unit * r.quantity ≤ 2 ^ 53 :=
        le_trans (add_le_add_left (le_add_of_nonneg_right hrest0) a) hb
      have hcq : ing.cost_per_unit * r.quantity ≤ 2 ^ 53 :=
        le_trans (le_add_of_nonneg_left ha0) hacq
      have hprod : F64.mul ing.cost_per_unit r.quantity = ing.cost_per_unit * r.quantity := by
        rw [hc, hq'] at hcq ⊢
        exact F64.mul_natCast c q (by exact_mod_cast hcq)
      have hsum : F64.add a (ing.cost_per_unit * r.quantity) =
          a + ing.cost_per_unit * r.quantity := by
        rw [hn, hc, hq'] at hacq ⊢
        have h := F64.add_natCast n (c * q) (by exact_mod_cast hacq)
        push_cast at h
        exact h
      rw [hprod, hsum]
      apply ih hrest
      · exact ⟨n + c * q, by rw [hn, hc, hq']; push_cast; rfl⟩
      · rw [add_assoc]
        exact hb

/-- On whole numbers the cost of a recipe computed on doubles is the exact
cost, as long as it is at most `2 ^ 53`. -/
theorem App.recipeCost64_eq (ingredients : List Ingredient)
    (hcost : ∀ ing ∈ ingredients, ∃ n : ℕ, ing.cost_per_unit = n) (rows : List RecipeItem)
    (hq : ∀ r ∈ rows, ∃ n : ℕ, r.quantity = n)
    (hb : App.recipeCost ingredients rows ≤ 2 ^ 53) :
    App.recipeCost64 ingredients rows = App.recipeCost ingredients rows := by
  rw [App.recipeCost_eq_sum_rowCost] at hb
  unfold App.recipeCost64 App.recipeCost
  exact App.foldl_recipeCost64_eq ingredients hcost rows hq 0 ⟨0, by simp⟩ (by linarith)

theorem setCostPerUnit_whole (I : Nat) (c' : ℚ) (ingredients : List Ingredient)
    (hcost : ∀ ing ∈ ingredients, ∃ n : ℕ, ing.cost_per_unit = n) (hc : ∃ n : ℕ, c' = n) :
    ∀ ing ∈ setCostPerUnit I c' ingredients, ∃ n : ℕ, ing.cost_per_unit = n := by
  intro ing hing
  unfold setCostPerUnit at hing
  obtain ⟨x, hx, rfl⟩ := List.mem_map.mp hing
  by_cases h : x.id = I
  · simpa [h] using hc
  · simpa [h] using hcost x hx

/-- The unit cost that `POSView.getUnitCost` shows, with the ingredients
`ingredients'`, for a non-bundle that `fetchData` built from the ingredients
`ingredients` (a cart line taken before a reload): the cost of its recipe
with `ingredients'`, unless that cost is 0. -/
theorem POSView.getUnitCost_enrichProduct_stale (productsWithPrice : List ProductRow)
    (bundleItemsData : Option (List BundleItemRow)) (recipesData : List RecipeItem)
    (ingredients ingredients' : List Ingredient)
    (hnd : (ingredients'.map Ingredient.id).Nodup)
    (row : ProductRow) (hnb : row.is_bundle = false)
    (h0 : App.recipeCost ingredients'
      (recipesData.filter (fun r => r.product_id = row.id)) ≠ 0) :
    POSView.getUnitCost ingredients'
        (App.enrichProduct productsWithPrice bundleItemsData (some recipesData) ingredients
          row) =
      App.recipeCost ingredients' (recipesData.filter (fun r => r.product_id = row.id)) := by
  rw [App.recipeCost_eq_sum_rowCost] at h0 ⊢
  rw [App.enrichProduct_simple _ _ _ _ _ hnb]
  unfold POSView.getUnitCost
  simp only [Bool.false_eq_true, if_false, Option.getD_some]
  rw [POSView.foldl_fromRecipe ingredients' hnd]
  simp only [zero_add]
  rw [if_neg h0]

/-- C16 as stated fails: Cake is made of 1 Milk, at 0.2 per unit, and 1 Sugar,
at 0.1 per unit (the doubles nearest to 1/5 and 1/10). `fetchData` gives Cake
the cost `0.2 + 0.1 = 0.30000000000000004`; with Sugar at 0.3 it gives
`0.2 + 0.3 = 0.5`. The cost has changed by `0.5 - 0.30000000000000004`, which
is not `(0.3 - 0.1) x 1`. -/
theorem fetchData_cost_change_not_exact :
    repricing.formattedIngredients.map Ingredient.cost_per_unit =
        [F64.round (1 / 5), F64.round (1 / 10)] ∧
      F64.d0_3 = F64.round (3 / 10) ∧
      (App.enrichProduct64 [repricing.cake] (some []) (some repricing.recipesData)
        repricing.formattedIngredients repricing.cake).production_cost =
          some F64.d0_30000000000000004 ∧
      (App.enrichProduct64 [repricing.cake] (some []) (some repricing.recipesData)
        (setCostPerUnit 2 F64.d0_3 repricing.formattedIngredients)
        repricing.cake).production_cost = some F64.d0_5 ∧
      F64.d0_5 - F64.d0_30000000000000004 ≠ (F64.d0_3 - F64.d0_1) * 1 := by
  refine ⟨?_, ?_, ?_, ?_, ?_⟩
  · rw [F64.round_decimal_0_2, F64.round_decimal_0_1]
    rfl
  · rw [F64.round_decimal_0_3]
  · simp [App.enrichProduct64, App.attachRecipe64, App.attachItems, App.copyProduct,
      App.recipeCost64, repricing.cake, repricing.recipesData,
      repricing.formattedIngredients, F64.add_zero_left, F64.mul_one_right, F64.round_d0_2,
      F64.round_d0_1, F64.add_d0_2_d0_1]
  · simp [App.enrichProduct64, App.attachRecipe64, App.attachItems, App.copyProduct,
      App.recipeCost64, repricing.cake, repricing.recipesData,
      repricing.formattedIngredients, setCostPerUnit, F64.add_zero_left,
      F64.mul_one_right, F64.round_d0_2, F64.round_d0_3, F64.add_d0_2_d0_3]
  · norm_num [F64.d0_5, F64.d0_30000000000000004, F64.d0_3, F64.d0_1]

/-- C16 (amended): in a catalog load with pairwise distinct ingredient ids,
let `row` be a non-bundle product and `ing` an ingredient, and change only the
`cost_per_unit` of `ing` to `c'`. With exact sums and products, the
`production_cost` set by `fetchData` and `POSView.getUnitCost` change by
`(c' - ing.cost_per_unit)` times the quantity of `ing` in the recipe of the
product (the sum of the quantities of its rows for `ing`, which is `q` when
`(ing, q)` is its only row for `ing`), also for a cart line taken before the
change as long as the new cost is not 0; so both change when `c'` differs from
the old cost and that quantity is not 0. On doubles the `production_cost`
changes by exactly that amount when the costs and the quantities of the recipe
are whole numbers and both costs are at most `2 ^ 53`. A product whose recipe
has no row for `ing` is built identically, on doubles as with exact sums, and
keeps its unit cost. -/
theorem recipe_cost_follows_ingredient_cost (productsWithPrice : List ProductRow)
    (bundleItemsData : Option (List BundleItemRow)) (recipesData : List RecipeItem)
    (ingredients : List Ingredient) (row : ProductRow) (ing : Ingredient) (c' : ℚ)
    (hnb : row.is_bundle = false)
    (hnd : (ingredients.map Ingredient.id).Nodup) (hing : ing ∈ ingredients) :
    (∃ cost : ℚ,
      (App.enrichProduct productsWithPrice bundleItemsData (some recipesData) ingredients
        row).production_cost = some cost ∧
      (App.enrichProduct productsWithPrice bundleItemsData (some recipesData)
        (setCostPerUnit ing.id c' ingredients) row).production_cost =
          some (cost + (c' - ing.cost_per_unit) * recipeQuantity recipesData row.id ing.id)) ∧
    POSView.getUnitCost (setCostPerUnit ing.id c' ingredients)
        (App.enrichProduct productsWithPrice bundleItemsData (some recipesData)
          (setCostPerUnit ing.id c' ingredients) row) =
      POSView.getUnitCost ingredients
        (App.enrichProduct productsWithPrice bundleItemsData (some recipesData) ingredients
          row) + (c' - ing.cost_per_unit) * recipeQuantity recipesData row.id ing.id ∧
    (App.recipeCost (setCostPerUnit ing.id c' ingredients)
        (recipesData.filter (fun x => x.product_id = row.id)) ≠ 0 →
      POSView.getUnitCost (setCostPerUnit ing.id c' ingredients)
          (App.enrichProduct productsWithPrice bundleItemsData (some recipesData) ingredients
            row) =
        POSView.getUnitCost ingredients
          (App.enrichProduct productsWithPrice bundleItemsData (some recipesData) ingredients
            row) + (c' - ing.cost_per_unit) * recipeQuantity recipesData row.id ing.id) ∧
    (∀ r : RecipeItem,
      (recipesData.filter (fun x => x.product_id = row.id)).filter
          (fun x => x.ingredient_id = ing.id) = [r] →
        recipeQuantity recipesData row.id ing.id = r.quantity) ∧
    (recipeQuantity recipesData row.id ing.id ≠ 0 → c' ≠ ing.cost_per_unit →
      (App.enrichProduct productsWithPrice bundleItemsData (some recipesData)
          (setCostPerUnit ing.id c' ingredients) row).production_cost ≠
        (App.enrichProduct productsWithPrice bundleItemsData (some recipesData) ingredients
          row).production_cost ∧
      POSView.getUnitCost (setCostPerUnit ing.id c' ingredients)
          (App.enrichProduct productsWithPrice bundleItemsData (some recipesData)
            (setCostPerUnit ing.id c' ingredients) row) ≠
        POSView.getUnitCost ingredients
          (App.enrichProduct productsWithPrice bundleItemsData (some recipesData) ingredients
            row)) ∧
    ((∀ x ∈ ingredients, ∃ n : ℕ, x.cost_per_unit = n) → (∃ n : ℕ, c' = n) →
      (∀ r ∈ recipesData.filter (fun x => x.product_id = row.id), ∃ n : ℕ, r.quantity = n) →
      App.recipeCost ingredients (recipesData.filter (fun x => x.product_id = row.id)) ≤
        2 ^ 53 →
      App.recipeCost (setCostPerUnit ing.id c' ingredients)
        (recipesData.filter (fun x => x.product_id = row.id)) ≤ 2 ^ 53 →
      ∃ cost : ℚ,
        (App.enrichProduct64 productsWithPrice bundleItemsData (some recipesData) ingredients
          row).production_cost = some cost ∧
        (App.enrichProduct64 productsWithPrice bundleItemsData (some recipesData)
          (setCostPerUnit ing.id c' ingredients) row).production_cost =
            some (cost +
              (c' - ing.cost_per_unit) * recipeQuantity recipesData row.id ing.id)) ∧
    (∀ other : ProductRow,
      (∀ x ∈ recipesData, x.product_id = other.id → x.ingredient_id ≠ ing.id) →
      App.enrichProduct productsWithPrice bundleItemsData (some recipesData)
          (setCostPerUnit ing.id c' ingredients) other =
        App.enrichProduct productsWithPrice bundleItemsData (some recipesData) ingredients
          other ∧
      POSView.getUnitCost (setCostPerUnit ing.id c' ingredients)
          (App.enrichProduct productsWithPrice bundleItemsData (some recipesData)
            (setCostPerUnit ing.id c' ingredients) other) =
        POSView.getUnitCost ingredients
          (App.enrichProduct productsWithPrice bundleItemsData (some recipesData) ingredients
            other) ∧
      App.enrichProduct64 productsWithPrice bundleItemsData (some recipesData)
          (setCostPerUnit ing.id c' ingredients) other =
        App.enrichProduct64 productsWithPrice bundleItemsData (some recipesData) ingredients
          other) := by
  have hfind := find?_of_mem_nodup_ids ingredients hnd ing hing
  have hnd' : ((setCostPerUnit ing.id c' ingredients).map Ingredient.id).Nodup := by
    rw [setCostPerUnit_ids]
    exact hnd
  have hcost : App.recipeCost (setCostPerUnit ing.id c' ingredients)
      (recipesData.filter (fun x => x.product_id = row.id)) =
      App.recipeCost ingredients (recipesData.filter (fun x => x.product_id = row.id)) +
        (c' - ing.cost_per_unit) * recipeQuantity recipesData row.id ing.id := by
    rw [App.recipeCost_setCostPerUnit ing.id c' ingredients ing hfind]
    rfl
  have hposOld : POSView.getUnitCost ingredients
        (App.enrichProduct productsWithPrice bundleItemsData (some recipesData) ingredients
          row) =
      App.recipeCost ingredients (recipesData.filter (fun x => x.product_id = row.id)) :=
    POSView.getUnitCost_enrichProduct_simple _ _ _ _ hnd row hnb
  have hpos : POSView.getUnitCost (setCostPerUnit ing.id c' ingredients)
        (App.enrichProduct productsWithPrice bundleItemsData (some recipesData)
          (setCostPerUnit ing.id c' ingredients) row) =
      POSView.getUnitCost ingredients
        (App.enrichProduct productsWithPrice bundleItemsData (some recipesData) ingredients
          row) + (c' - ing.cost_per_unit) * recipeQuantity recipesData row.id ing.id := by
    rw [POSView.getUnitCost_enrichProduct_simple _ _ _ _ hnd' row hnb, hposOld, hcost]
  have hprod : (App.enrichProduct productsWithPrice bundleItemsData (some recipesData)
        (setCostPerUnit ing.id c' ingredients) row).production_cost =
      some (App.recipeCost ingredients (recipesData.filter (fun x => x.product_id = row.id)) +
        (c' - ing.cost_per_unit) * recipeQuantity recipesData row.id ing.id) := by
    rw [App.enrichProduct_simple _ _ _ _ _ hnb, hcost]
  have hold : (App.enrichProduct productsWithPrice bundleItemsData (some recipesData)
        ingredients row).production_cost =
      some (App.recipeCost ingredients
        (recipesData.filter (fun x => x.product_id = row.id))) := by
    rw [App.enrichProduct_simple _ _ _ _ _ hnb]
  refine ⟨⟨_, hold, hprod⟩, hpos, ?_, ?_, ?_, ?_, ?_⟩
  · intro h0
    rw [POSView.getUnitCost_enrichProduct_stale _ _ _ _ _ hnd' row hnb h0, hposOld, hcost]
  · intro r hr
    unfold recipeQuantity
    rw [hr]
    simp
  · intro hq hc
    have hdelta : (c' - ing.cost_per_unit) * recipeQuantity recipesData row.id ing.id ≠ 0 :=
      mul_ne_zero (sub_ne_zero.mpr hc) hq
    constructor
    · rw [hprod, hold]
      intro h
      have h' := Option.some.inj h
      exact hdelta (by linarith)
    · rw [hpos]
      intro h
      exact hdelta (by linarith)
  · intro hwhole hc' hrows hb hb'
    refine ⟨App.recipeCost ingredients
      (recipesData.filter (fun x => x.product_id = row.id)), ?_, ?_⟩
    · rw [App.enrichProduct64_simple _ _ _ _ _ hnb,
        App.recipeCost64_eq ingredients hwhole _ hrows hb]
    · rw [App.enrichProduct64_simple _ _ _ _ _ hnb,
        App.recipeCost64_eq _ (setCostPerUnit_whole ing.id c' ingredients hwhole hc') _ hrows
          hb', hcost]
  · intro other hother
    cases hb : other.is_bundle with
    | true =>
      obtain ⟨id, b, price, stock, pc⟩ := other
      simp only at hb
      subst hb
      have heq : App.enrichProduct productsWithPrice bundleItemsData (some recipesData)
            (setCostPerUnit ing.id c' ingredients)
            { id := id, is_bundle := true, price := price, stock := stock,
              production_cost := pc } =
          App.enrichProduct productsWithPrice bundleItemsData (some recipesData) ingredients
            { id := id, is_bundle := true, price := price, stock := stock,
              production_cost := pc } := by
        cases bundleItemsData <;>
          simp [App.enrichProduct, App.attachItems, App.attachRecipe, App.copyProduct]
      refine ⟨heq, ?_, ?_⟩
      · rw [heq]
        cases bundleItemsData <;>
          simp [App.enrichProduct, App.attachItems, App.attachRecipe, App.copyProduct,
            POSView.getUnitCost]
      · cases bundleItemsData <;>
          simp [App.enrichProduct64, App.attachItems, App.attachRecipe64, App.copyProduct]
    | false =>
      have hnone : (recipesData.filter (fun x => x.product_id = other.id)).filter
          (fun x => x.ingredient_id = ing.id) = [] := by
        rw [List.filter_eq_nil_iff]
        intro x hx
        rw [List.mem_filter] at hx
        simpa using hother x hx.1 (by simpa using hx.2)
      have hsame : App.recipeCost (setCostPerUnit ing.id c' ingredients)
          (recipesData.filter (fun x => x.product_id = other.id)) =
          App.recipeCost ingredients
            (recipesData.filter (fun x => x.product_id = other.id)) := by
        rw [App.recipeCost_setCostPerUnit ing.id c' ingredients ing hfind, hnone]
        simp
      have hsame64 : App.recipeCost64 (setCostPerUnit ing.id c' ingredients)
          (recipesData.filter (fun x => x.product_id = other.id)) =
          App.recipeCost64 ingredients
            (recipesData.filter (fun x => x.product_id = other.id)) := by
        apply App.recipeCost64_setCostPerUnit_of_no_row
        intro r hr
        rw [List.mem_filter] at hr
        exact hother r hr.1 (by simpa using hr.2)
      refine ⟨?_, ?_, ?_⟩
      · rw [App.enrichProduct_simple _ _ _ _ _ hb, App.enrichProduct_simple _ _ _ _ _ hb,
          hsame]
      · rw [POSView.getUnitCost_enrichProduct_simple _ _ _ _ hnd' other hb,
          POSView.getUnitCost_enrichProduct_simple _ _ _ _ hnd other hb, hsame]
      · rw [App.enrichProduct64_simple _ _ _ _ _ hb, App.enrichProduct64_simple _ _ _ _ _ hb,
          hsame64]

/-- Witness of C16 (amended) on scenario A: with Flour raised from 2.00 to
3.00, `POSView.getUnitCost` of a Bread line taken before the change is the old
unit cost plus `(3 - 2)` times the quantity of Flour in the recipe of Bread. -/
theorem recipe_cost_follows_ingredient_cost_witness :
    POSView.getUnitCost (setCostPerUnit 1 3 scenarioA.formattedIngredients)
        (App.enrichProduct [scenarioA.bread] (some []) (some scenarioA.recipesData)
          scenarioA.formattedIngredients scenarioA.bread) =
      POSView.getUnitCost scenarioA.formattedIngredients
        (App.enrichProduct [scenarioA.bread] (some []) (some scenarioA.recipesData)
          scenarioA.formattedIngredients scenarioA.bread) +
        (3 - 2) * recipeQuantity scenarioA.recipesData 1 1 :=
  (recipe_cost_follows_ingredient_cost [scenarioA.bread] (some []) scenarioA.recipesData
    scenarioA.formattedIngredients scenarioA.bread
    { id := 1, cost_per_unit := 2, stock_quantity := 100 } 3 rfl
    (by simp [scenarioA.formattedIngredients])
    (by simp [scenarioA.formattedIngredients])).2.2.1
    (by
      norm_num [App.recipeCost, setCostPerUnit, scenarioA.formattedIngredients,
        scenarioA.recipesData, scenarioA.bread])
